import Mathlib

/-!
# Verification of `updatewcs/dgeo.py` (class `DGEO`)

A shallow embedding of the `DGEO` distortion-lookup annotator.  A FITS file
object is a list of extensions; each extension has a header (an ordered list
of key/value/comment cards) and optional pixel data.  External collaborators
(`fileutil.osfn` path resolution, `pyfits.getdata` reference-file access, and
the `dgeo_vals` instrument-defaults table) are taken as parameters of the
embedding.  Python exceptions are modelled with `Except`, the error carrying
the message together with the state of the file object at the moment the
exception propagates (mutations already performed remain visible, as in the
source).
-/

set_option maxRecDepth 8000
set_option maxHeartbeats 1000000

deriving instance DecidableEq for Except

namespace Dgeo

/-- A FITS header card value: string, integer or floating-point number
(floats are modelled as rationals; the source only ever writes `0.0` and
values copied verbatim from the instrument defaults table). -/
inductive FVal where
  | str : String → FVal
  | int : Int → FVal
  | flt : Rat → FVal
deriving DecidableEq, Repr

/-- One header card: keyword, value, comment. -/
structure Card where
  key : String
  value : FVal
  comment : String
deriving DecidableEq, Repr

/-- A FITS header: an ordered list of cards. -/
abbrev Header := List Card

/-- `hdr[key]` in pyfits: value of the first card with the given keyword. -/
def hdrGet : Header → String → Option FVal
  | [], _ => none
  | c :: rest, k => if c.key = k then some c.value else hdrGet rest k

/-- Comment of the first card with the given keyword. -/
def hdrGetComment : Header → String → Option String
  | [], _ => none
  | c :: rest, k => if c.key = k then some c.comment else hdrGetComment rest k

/-- Whether the header holds a card with the given keyword. -/
def hdrHasKey : Header → String → Bool
  | [], _ => false
  | c :: rest, k => if c.key = k then true else hdrHasKey rest k

/-- Index of the first card with the given keyword. -/
def hdrIdx : Header → String → Option Nat
  | [], _ => none
  | c :: rest, k => if c.key = k then some 0 else (hdrIdx rest k).map (· + 1)

/-- Replace value and comment of the first card with keyword `k`. -/
def updFirst (h : Header) (k : String) (v : FVal) (c : String) : Header :=
  match h with
  | [] => []
  | card :: rest =>
    if card.key = k then { card with value := v, comment := c } :: rest
    else card :: updFirst rest k v c

/-- Insertion at a position, with Python `list.insert` semantics (an
out-of-range position appends at the end). -/
def insertAt (n : Nat) (card : Card) : Header → Header
  | [] => [card]
  | c :: rest =>
    match n with
    | 0 => card :: c :: rest
    | m + 1 => c :: insertAt m card rest

/-- `Header.update(key, value, comment, before='HISTORY')` in pyfits:
if the keyword exists its first card is updated in place; otherwise a new
card is inserted before the first `HISTORY` card when one is present, else
appended at the end. -/
def hdrUpdate (h : Header) (k : String) (v : FVal) (c : String) : Header :=
  if hdrHasKey h k then updFirst h k v c
  else
    match hdrIdx h "HISTORY" with
    | some idx => insertAt idx ⟨k, v, c⟩ h
    | none => h ++ [⟨k, v, c⟩]

/-- Python's `str.lower`, modelled structurally over the character list
(ASCII case folding via `Char.toLower`). -/
def strLower (s : String) : String := String.mk (s.data.map Char.toLower)

/-- A FITS extension (HDU): a header and optional pixel data of type `α`. -/
structure Ext (α : Type) where
  header : Header
  data : Option α
deriving DecidableEq, Repr

/-- A pyfits file object: an ordered list of extensions (index 0 is the
primary HDU). -/
abbrev FileObj (α : Type) := List (Ext α)

/-- The instrument defaults table row (`dgeo_vals[instr]`): per the spec all
grid parameters are present for every supported instrument. -/
structure GridDefaults where
  naxis1 : FVal
  naxis2 : FVal
  extver : FVal
  crpix1 : FVal
  crpix2 : FVal
  cdelt1 : FVal
  cdelt2 : FVal
  crval1 : FVal
  crval2 : FVal
deriving DecidableEq, Repr

/-- Python truthiness of a header value. -/
def truthy : FVal → Bool
  | .str s => !(s == "")
  | .int n => !(n == 0)
  | .flt q => !(q == 0)

/-- Python `x or y` for an optional left operand (`None` and falsy values
fall through to the default). -/
def pyOr (x : Option FVal) (dflt : FVal) : FVal :=
  match x with
  | some v => if truthy v then v else dflt
  | none => dflt

/-- The keyword-override record passed to `createDgeoHdr` (`**kw`). -/
structure DgeoKw where
  naxis1 : Option FVal
  naxis2 : Option FVal
  extver : Option FVal
  crpix1 : Option FVal
  crpix2 : Option FVal
  cdelt1 : Option FVal
  cdelt2 : Option FVal
  crval1 : Option FVal
  crval2 : Option FVal

/-- `DGEO.createDgeoHdr`: builds the 15-card header of a lookup extension.
Each grid descriptor is the override value when truthy, else the instrument
default keyed by the primary header's `INSTRUME`.  Note that the source
assigns the resolved `crpix1` to the `CRPIX2` card (line 190 of
`dgeo.py`); the embedding reproduces that assignment. -/
def createDgeoHdr {α : Type} (dvals : String → Option GridDefaults)
    (g : FileObj α) (kw : DgeoKw) : Except String Header :=
  match g.head? with
  | none => .error "IndexError"
  | some p0 =>
    match hdrGet p0.header "INSTRUME" with
    | none => .error "KeyError: INSTRUME"
    | some (.str instr) =>
      match dvals instr with
      | none => .error "KeyError: dgeo_vals"
      | some iv =>
        let naxis1 := pyOr kw.naxis1 iv.naxis1
        let naxis2 := pyOr kw.naxis2 iv.naxis2
        let extver := pyOr kw.extver iv.extver
        let crpix1 := pyOr kw.crpix1 iv.crpix1
        let _crpix2 := pyOr kw.crpix2 iv.crpix2
        let cdelt1 := pyOr kw.cdelt1 iv.cdelt1
        let cdelt2 := pyOr kw.cdelt2 iv.cdelt2
        let crval1 := pyOr kw.crval1 iv.crval1
        let crval2 := pyOr kw.crval2 iv.crval2
        .ok [⟨"XTENSION", .str "IMAGE", "Image extension"⟩,
             ⟨"BITPIX", .int (-32), "IEEE floating point"⟩,
             ⟨"NAXIS", .int 2, "Number of image columns"⟩,
             ⟨"NAXIS1", naxis1, "Number of image columns"⟩,
             ⟨"NAXIS2", naxis2, "Number of image rows"⟩,
             ⟨"EXTNAME", .str "WCSDVARR", "WCS distortion array"⟩,
             ⟨"EXTVER", extver, "Distortion array version number"⟩,
             ⟨"PCOUNT", .int 0, "Special data area of size 0"⟩,
             ⟨"GCOUNT", .int 1, "One data group"⟩,
             ⟨"CRPIX1", crpix1, "Distortion array reference pixel"⟩,
             ⟨"CDELT1", cdelt1, "Grid step size in first coordinate"⟩,
             ⟨"CRVAL1", crval1, "Image array pixel coordinate"⟩,
             ⟨"CRPIX2", crpix1, "Distortion array reference pixel"⟩,
             ⟨"CDELT2", cdelt2, "Grid step size in second coordinate"⟩,
             ⟨"CRVAL2", crval2, "Image array pixel coordinate"⟩]
    | some _ => .error "KeyError: dgeo_vals"

/-- `DGEO.createDgeoHDU`: builds the lookup HDU for one axis — a fresh
header (with the `extver` override set to `dgeover`) plus the data array
read from the reference file at `(ename, extver)`. -/
def createDgeoHDU {α : Type} (dvals : String → Option GridDefaults)
    (getdata : String → String → FVal → Option α) (dgeofile : String)
    (dgeover : Nat) (ename : String) (extver : FVal) (g : FileObj α) :
    Except String (Ext α) :=
  let dgeokw : DgeoKw :=
    ⟨none, none, some (.int dgeover), none, none, none, none, none, none⟩
  match createDgeoHdr dvals g dgeokw with
  | .error m => .error m
  | .ok hdr =>
    match getdata dgeofile ename extver with
    | none => .error "KeyError: getdata"
    | some dat => .ok ⟨hdr, some dat⟩

/-- The axis index `j` chosen in `addSciExtKw` (`1` for `'DX'`, else `2`). -/
def dxdyJ (ename : String) : Nat := if ename = "DX" then 1 else 2

/-- Comment written with `CPERRORj` (the source formats `extver/2` with
Python 2 integer division). -/
def cperrComment (extver : Nat) : String :=
  "Maximum error of dgeo correction for axis " ++ toString (extver / 2)

/-- The six record-valued keyword updates `addSciExtKw` performs on a
science header (axis selected by `ename`, tagged with `extver`). -/
def addSciKws (hdr : Header) (extver : Nat) (ename : String) : Header :=
  let j := dxdyJ ename
  let h1 := hdrUpdate hdr ("CPERROR" ++ toString j) (.flt 0) (cperrComment extver)
  let h2 := hdrUpdate h1 ("CPDIS" ++ toString j) (.str "Lookup")
    "Prior distortion funcion type"
  let h3 := hdrUpdate h2 ("DP" ++ toString j ++ ".EXTVER") (.int extver)
    "Version number of WCSDVARR extension containing lookup distortion table"
  let h4 := hdrUpdate h3 ("DP" ++ toString j ++ ".NAXES") (.int 2)
    "Number of independent variables in distortion function"
  let h5 := hdrUpdate h4 ("DP" ++ toString j ++ ".AXIS.1") (.int 1)
    "Axis number of the jth independent variable in a distortion function"
  hdrUpdate h5 ("DP" ++ toString j ++ ".AXIS.2") (.int 2)
    "Axis number of the jth independent variable in a distortion function"

/-- `DGEO.addSciExtKw` acting on the science extension at index `i` of the
file object: writes the six keywords, then reads the primary header's
`DGEOFILE` (raising `KeyError` if absent, with the six keywords already
written) and records it on the science header. -/
def addSciExtKw {α : Type} (g : FileObj α) (i : Nat) (extver : Nat)
    (ename : String) : Except (String × FileObj α) (FileObj α) :=
  match g.get? i with
  | none => .error ("IndexError", g)
  | some e =>
    let hdr1 := addSciKws e.header extver ename
    let g1 := g.set i { e with header := hdr1 }
    match g1.head? with
    | none => .error ("IndexError", g1)
    | some p0 =>
      match hdrGet p0.header "DGEOFILE" with
      | none => .error ("KeyError: DGEOFILE", g1)
      | some dgfileRaw =>
        let hdr2 := hdrUpdate hdr1 "DGEOFILE" dgfileRaw
          "DGEOFILE used to create WCSDVARR extensions"
        .ok (g1.set i { e with header := hdr2 })

/-- `DGEO.updateDGEOkw` on the science extension at index `i`: re-reads the
primary header's `DGEOFILE` and records it on the science header. -/
def updateDGEOkw {α : Type} (g : FileObj α) (i : Nat) :
    Except (String × FileObj α) (FileObj α) :=
  match g.head? with
  | none => .error ("IndexError", g)
  | some p0 =>
    match hdrGet p0.header "DGEOFILE" with
    | none => .error ("KeyError: DGEOFILE", g)
    | some dgfileRaw =>
      match g.get? i with
      | none => .ok g
      | some e =>
        let hdr2 := hdrUpdate e.header "DGEOFILE" dgfileRaw
          "DGEOFILE used to create WCSDVARR extensions"
        .ok (g.set i { e with header := hdr2 })

/-- Lookup in the `wcsdvarr_ind` dictionary built by `getwcsindex`
(represented as the in-scan-order list of `(EXTVER value, position)`
pairs; a later entry for the same key shadows an earlier one, as in a
Python dict). -/
def dictLookup (l : List (FVal × Nat)) (k : FVal) : Option Nat :=
  ((l.filter (fun p => p.1 = k)).getLast?).map (·.2)

/-- Placement of a freshly built lookup HDU (`dgeo.py` lines 57–60): when
the `wcsdvarr_ind` dict is non-empty the HDU replaces the slot
`wcsdvarr_ind[dgeover]` (`KeyError` when that key is absent); when the
dict is empty the HDU is appended. -/
def placeHdu {α : Type} (wind : List (FVal × Nat)) (g : FileObj α)
    (dgeover : Nat) (hdu : Ext α) : Except (String × FileObj α) (FileObj α) :=
  if wind.isEmpty then .ok (g ++ [hdu])
  else
    match dictLookup wind (.int dgeover) with
    | none => .error ("KeyError: wcsdvarr_ind", g)
    | some p => .ok (g.set p hdu)

/-- `DGEO.getwcsindex` scan, from position `i`: records `(EXTVER, index)`
for each extension whose `EXTNAME` equals `'WCSDVARR'` exactly (a
`KeyError` propagates when such an extension lacks `EXTVER`); extensions
without `EXTNAME` are skipped. -/
def getwcsindexAux {α : Type} : FileObj α → Nat → Except String (List (FVal × Nat))
  | [], _ => .ok []
  | e :: rest, i =>
    match hdrGet e.header "EXTNAME" with
    | none => getwcsindexAux rest (i + 1)
    | some nv =>
      if nv = .str "WCSDVARR" then
        match hdrGet e.header "EXTVER" with
        | none => .error "KeyError: EXTVER"
        | some kv =>
          match getwcsindexAux rest (i + 1) with
          | .error m => .error m
          | .ok l => .ok ((kv, i) :: l)
      else getwcsindexAux rest (i + 1)

/-- `DGEO.getwcsindex`: the `(EXTVER, position)` table of existing
`WCSDVARR` extensions. -/
def getwcsindex {α : Type} (f : FileObj α) : Except String (List (FVal × Nat)) :=
  getwcsindexAux f 0

/-- One iteration of the `for ename in ['DX', 'DY']` loop of
`applyDgeoCorr` (`dgeo.py` lines 52–60) for the science extension at index
`i`: bump the counter to `dgeover`, annotate the science header for this
axis, build the lookup HDU and place it (overwrite or append). -/
def axisPhase {α : Type} (dvals : String → Option GridDefaults)
    (getdata : String → String → FVal → Option α) (dgfile : String)
    (wind : List (FVal × Nat)) (i dgeover : Nat) (ename : String) (xv : FVal)
    (g : FileObj α) : Except (String × FileObj α) (FileObj α) :=
  match addSciExtKw g i dgeover ename with
  | .error err => .error err
  | .ok gA =>
    match createDgeoHDU dvals getdata dgfile dgeover ename xv gA with
    | .error m => .error (m, gA)
    | .ok hdu => placeHdu wind gA dgeover hdu

/-- The body of one science-extension iteration of `applyDgeoCorr`
(`dgeo.py` lines 52–61): the two axis phases in order, then the
`updateDGEOkw` rewrite of `DGEOFILE` on the science header. -/
def sciStep {α : Type} (dvals : String → Option GridDefaults)
    (getdata : String → String → FVal → Option α) (dgfile : String)
    (wind : List (FVal × Nat)) (i d : Nat) (xv : FVal) (g : FileObj α) :
    Except (String × FileObj α) (FileObj α) :=
  match axisPhase dvals getdata dgfile wind i (d + 1) "DX" xv g with
  | .error err => .error err
  | .ok gB =>
    match axisPhase dvals getdata dgfile wind i (d + 2) "DY" xv gB with
    | .error err => .error err
    | .ok gD => updateDGEOkw gD i

/-- One pass of the `applyDgeoCorr` traversal from index `i` with the
running counter `dgeover = d`, driven by a fuel argument (the list grows
while being iterated when HDUs are appended; the top-level fuel
`3 * length + 1` always exceeds the number of iterations).  Faithful to
`dgeo.py` lines 45–61: extensions without `EXTNAME` are skipped; for a
science extension (EXTNAME lowercases to `'sci'`) the `EXTVER` is read and
the iteration body `sciStep` runs, bumping the counter by two. -/
def runFrom {α : Type} (dvals : String → Option GridDefaults)
    (getdata : String → String → FVal → Option α) (dgfile : String)
    (wind : List (FVal × Nat)) :
    Nat → Nat → Nat → FileObj α → Except (String × FileObj α) (FileObj α)
  | 0, _, _, g => .error ("fuel", g)
  | fuel + 1, i, d, g =>
    match g.get? i with
    | none => .ok g
    | some e =>
      match hdrGet e.header "EXTNAME" with
      | none => runFrom dvals getdata dgfile wind fuel (i + 1) d g
      | some (.str s) =>
        if strLower s = "sci" then
          match hdrGet e.header "EXTVER" with
          | none => .error ("KeyError: EXTVER", g)
          | some xv =>
            match sciStep dvals getdata dgfile wind i d xv g with
            | .error err => .error err
            | .ok gE => runFrom dvals getdata dgfile wind fuel (i + 1) (d + 2) gE
        else runFrom dvals getdata dgfile wind fuel (i + 1) d g
      | some _ => .error ("AttributeError: lower", g)

/-- `DGEO.applyDgeoCorr`: resolve the reference-file path from the primary
header's `DGEOFILE` through `osfn`, scan for existing `WCSDVARR`
extensions, then traverse.  The error value carries the state of the file
object when the exception propagates. -/
def applyDgeoCorr {α : Type} (osfn : String → String)
    (dvals : String → Option GridDefaults)
    (getdata : String → String → FVal → Option α) (f : FileObj α) :
    Except (String × FileObj α) (FileObj α) :=
  match f.head? with
  | none => .error ("IndexError", f)
  | some p0 =>
    match hdrGet p0.header "DGEOFILE" with
    | none => .error ("KeyError: DGEOFILE", f)
    | some (.str raw) =>
      let dgfile := osfn raw
      match getwcsindex f with
      | .error m => .error (m, f)
      | .ok wind => runFrom dvals getdata dgfile wind (3 * f.length + 1) 0 0 f
    | some _ => .error ("AttributeError: osfn", f)

/-- Whether an extension is treated as a science extension by the
traversal: `EXTNAME` present, a string, and lowercasing to `"sci"`. -/
def isSci {α : Type} (e : Ext α) : Bool :=
  match hdrGet e.header "EXTNAME" with
  | some (.str s) => strLower s == "sci"
  | _ => false

/-- Whether an extension carries `EXTNAME = 'WCSDVARR'` exactly. -/
def isWcsd {α : Type} (e : Ext α) : Bool :=
  hdrGet e.header "EXTNAME" == some (.str "WCSDVARR")

/-- Number of science extensions of a file object. -/
def sciCount {α : Type} (f : FileObj α) : Nat := (f.filter isSci).length

/-- The `EXTVER` values of the `WCSDVARR`-named extensions, in file order. -/
def wcsdExtvers {α : Type} (f : FileObj α) : List (Option FVal) :=
  (f.filter isWcsd).map (fun e => hdrGet e.header "EXTVER")

/-- An extension the traversal silently skips: no `EXTNAME` keyword, or a
string `EXTNAME` that does not lowercase to `"sci"`. -/
def skippable {α : Type} (e : Ext α) : Bool :=
  match hdrGet e.header "EXTNAME" with
  | none => true
  | some (.str s) => !(strLower s == "sci")
  | some _ => false

/-- The comment the source writes with every `DGEOFILE` update. -/
def dgfComment : String := "DGEOFILE used to create WCSDVARR extensions"

/-- A science extension after the six axis keywords of one axis have been
written (the state `addSciExtKw` leaves behind when the primary header
lacks `DGEOFILE`). -/
def eSix {α : Type} (e : Ext α) (d : Nat) (en : String) : Ext α :=
  { e with header := addSciKws e.header d en }

/-- A science extension after one full axis half of `addSciExtKw`: the six
axis keywords followed by the `DGEOFILE` record with value `raw`. -/
def eHalf {α : Type} (e : Ext α) (d : Nat) (en : String) (raw : FVal) : Ext α :=
  { e with header := hdrUpdate (addSciKws e.header d en) "DGEOFILE" raw dgfComment }

/-- A science extension after `updateDGEOkw` rewrote its `DGEOFILE`. -/
def eFin {α : Type} (e : Ext α) (raw : FVal) : Ext α :=
  { e with header := hdrUpdate e.header "DGEOFILE" raw dgfComment }

/-- The complete transformation one science iteration performs on the
science extension when the counter enters at `d` and the primary header's
raw `DGEOFILE` value is `raw`: the `DX` half, the `DY` half, and the
trailing `updateDGEOkw` `DGEOFILE` rewrite. -/
def annotExt {α : Type} (e : Ext α) (d : Nat) (raw : FVal) : Ext α :=
  eFin (eHalf (eHalf e (d + 1) "DX" raw) (d + 2) "DY" raw) raw

/-- The header `createDgeoHdr` produces for the standard override set
(`extver := dgeover`, with `dgeover ≥ 1`, everything else unset) once the
instrument defaults row `iv` is resolved. -/
def lookupHdr (iv : GridDefaults) (d : Nat) : Header :=
  [⟨"XTENSION", .str "IMAGE", "Image extension"⟩,
   ⟨"BITPIX", .int (-32), "IEEE floating point"⟩,
   ⟨"NAXIS", .int 2, "Number of image columns"⟩,
   ⟨"NAXIS1", iv.naxis1, "Number of image columns"⟩,
   ⟨"NAXIS2", iv.naxis2, "Number of image rows"⟩,
   ⟨"EXTNAME", .str "WCSDVARR", "WCS distortion array"⟩,
   ⟨"EXTVER", .int d, "Distortion array version number"⟩,
   ⟨"PCOUNT", .int 0, "Special data area of size 0"⟩,
   ⟨"GCOUNT", .int 1, "One data group"⟩,
   ⟨"CRPIX1", iv.crpix1, "Distortion array reference pixel"⟩,
   ⟨"CDELT1", iv.cdelt1, "Grid step size in first coordinate"⟩,
   ⟨"CRVAL1", iv.crval1, "Image array pixel coordinate"⟩,
   ⟨"CRPIX2", iv.crpix1, "Distortion array reference pixel"⟩,
   ⟨"CDELT2", iv.cdelt2, "Grid step size in second coordinate"⟩,
   ⟨"CRVAL2", iv.crval2, "Image array pixel coordinate"⟩]

/-- The lookup HDU built for counter value `d` with data array `dat`. -/
def mkHdu {α : Type} (iv : GridDefaults) (d : Nat) (dat : α) : Ext α :=
  ⟨lookupHdr iv d, some dat⟩

/-- Invariant: the primary HDU exists and its header carries `DGEOFILE`
with value `raw`. -/
def PrimVal {α : Type} (g : FileObj α) (raw : FVal) : Prop :=
  ∃ p0, g.get? 0 = some p0 ∧ hdrGet p0.header "DGEOFILE" = some raw

/-- Invariant: every entry of the `wcsdvarr_ind` table points at an
extension whose `EXTNAME` is exactly `'WCSDVARR'`. -/
def WindOK {α : Type} (wind : List (FVal × Nat)) (g : FileObj α) : Prop :=
  ∀ kv ∈ wind, ∃ e, g.get? kv.2 = some e ∧
    hdrGet e.header "EXTNAME" = some (.str "WCSDVARR")

/-- Number of science extensions at positions `≥ i`. -/
def sciCountFrom {α : Type} (g : FileObj α) (i : Nat) : Nat :=
  ((g.drop i).filter isSci).length

/-- Whether position `q` of the file object holds a science extension. -/
def sciAt {α : Type} (g : FileObj α) (q : Nat) : Bool :=
  match g.get? q with
  | some e => isSci e
  | none => false

/-- Number of positions `i ≤ q < j` holding a science extension. -/
def csb {α : Type} (g : FileObj α) (i j : Nat) : Nat :=
  ((List.range j).filter (fun q => decide (i ≤ q) && sciAt g q)).length

/-! ## Header-operation lemmas -/

theorem hdrHasKey_eq_isSome (h : Header) (k : String) :
    hdrHasKey h k = (hdrGet h k).isSome := by
  induction h with
  | nil => rfl
  | cons cd rest ih =>
    by_cases hk : cd.key = k <;> simp [hdrHasKey, hdrGet, hk, ih]

theorem hdrGet_updFirst_other (h : Header) (k : String) (v : FVal) (c : String)
    (k' : String) (hne : k' ≠ k) :
    hdrGet (updFirst h k v c) k' = hdrGet h k' := by
  induction h with
  | nil => rfl
  | cons cd rest ih =>
    have hkk' : ¬ (k = k') := fun hh => hne hh.symm
    by_cases hk : cd.key = k
    · have hck : ¬ cd.key = k' := fun hh => hne (hh.symm.trans hk)
      simp [updFirst, hk, hdrGet, hck, hkk']
    · by_cases hck : cd.key = k' <;> simp [updFirst, hk, hdrGet, hck, ih, hne]

theorem hdrGetComment_updFirst_other (h : Header) (k : String) (v : FVal) (c : String)
    (k' : String) (hne : k' ≠ k) :
    hdrGetComment (updFirst h k v c) k' = hdrGetComment h k' := by
  induction h with
  | nil => rfl
  | cons cd rest ih =>
    have hkk' : ¬ (k = k') := fun hh => hne hh.symm
    by_cases hk : cd.key = k
    · have hck : ¬ cd.key = k' := fun hh => hne (hh.symm.trans hk)
      simp [updFirst, hk, hdrGetComment, hck, hkk']
    · by_cases hck : cd.key = k' <;> simp [updFirst, hk, hdrGetComment, hck, ih, hne]

theorem hdrGet_updFirst_self (h : Header) (k : String) (v : FVal) (c : String)
    (hh : hdrHasKey h k = true) :
    hdrGet (updFirst h k v c) k = some v := by
  induction h with
  | nil => simp [hdrHasKey] at hh
  | cons cd rest ih =>
    by_cases hk : cd.key = k
    · simp [updFirst, hk, hdrGet]
    · have hh' : hdrHasKey rest k = true := by simpa [hdrHasKey, hk] using hh
      simp [updFirst, hk, hdrGet, ih hh']

theorem hdrGetComment_updFirst_self (h : Header) (k : String) (v : FVal) (c : String)
    (hh : hdrHasKey h k = true) :
    hdrGetComment (updFirst h k v c) k = some c := by
  induction h with
  | nil => simp [hdrHasKey] at hh
  | cons cd rest ih =>
    by_cases hk : cd.key = k
    · simp [updFirst, hk, hdrGetComment]
    · have hh' : hdrHasKey rest k = true := by simpa [hdrHasKey, hk] using hh
      simp [updFirst, hk, hdrGetComment, ih hh']

theorem updFirst_same (h : Header) (k : String) (v : FVal) (c : String)
    (hv : hdrGet h k = some v) (hc : hdrGetComment h k = some c) :
    updFirst h k v c = h := by
  induction h with
  | nil => rfl
  | cons cd rest ih =>
    by_cases hk : cd.key = k
    · have hv' : cd.value = v := by simpa [hdrGet, hk] using hv
      have hc' : cd.comment = c := by simpa [hdrGetComment, hk] using hc
      obtain ⟨ck, cv, cc⟩ := cd
      simp only [updFirst, if_pos hk]
      simp only at hv' hc'
      rw [← hv', ← hc']
    · have hv' : hdrGet rest k = some v := by simpa [hdrGet, hk] using hv
      have hc' : hdrGetComment rest k = some c := by simpa [hdrGetComment, hk] using hc
      simp [updFirst, hk, ih hv' hc']

theorem hdrGet_insertAt_other (n : Nat) (card : Card) (h : Header)
    (k' : String) (hne : ¬ (card.key = k')) :
    hdrGet (insertAt n card h) k' = hdrGet h k' := by
  induction h generalizing n with
  | nil => simp [insertAt, hdrGet, hne]
  | cons cd rest ih =>
    cases n with
    | zero => simp [insertAt, hdrGet, hne]
    | succ m => by_cases hck : cd.key = k' <;> simp [insertAt, hdrGet, hck, ih]

theorem hdrGetComment_insertAt_other (n : Nat) (card : Card) (h : Header)
    (k' : String) (hne : ¬ (card.key = k')) :
    hdrGetComment (insertAt n card h) k' = hdrGetComment h k' := by
  induction h generalizing n with
  | nil => simp [insertAt, hdrGetComment, hne]
  | cons cd rest ih =>
    cases n with
    | zero => simp [insertAt, hdrGetComment, hne]
    | succ m => by_cases hck : cd.key = k' <;> simp [insertAt, hdrGetComment, hck, ih]

theorem hdrGet_insertAt_self (n : Nat) (card : Card) (h : Header)
    (hh : hdrHasKey h card.key = false) :
    hdrGet (insertAt n card h) card.key = some card.value := by
  induction h generalizing n with
  | nil => simp [insertAt, hdrGet]
  | cons cd rest ih =>
    by_cases hck : cd.key = card.key
    · simp [hdrHasKey, hck] at hh
    · have hh' : hdrHasKey rest card.key = false := by simpa [hdrHasKey, hck] using hh
      cases n with
      | zero => simp [insertAt, hdrGet]
      | succ m => simp [insertAt, hdrGet, hck, ih _ hh']

theorem hdrGetComment_insertAt_self (n : Nat) (card : Card) (h : Header)
    (hh : hdrHasKey h card.key = false) :
    hdrGetComment (insertAt n card h) card.key = some card.comment := by
  induction h generalizing n with
  | nil => simp [insertAt, hdrGetComment]
  | cons cd rest ih =>
    by_cases hck : cd.key = card.key
    · simp [hdrHasKey, hck] at hh
    · have hh' : hdrHasKey rest card.key = false := by simpa [hdrHasKey, hck] using hh
      cases n with
      | zero => simp [insertAt, hdrGetComment]
      | succ m => simp [insertAt, hdrGetComment, hck, ih _ hh']

theorem hdrGet_append_left_none (h1 h2 : Header) (k : String)
    (hh : hdrGet h1 k = none) : hdrGet (h1 ++ h2) k = hdrGet h2 k := by
  induction h1 with
  | nil => rfl
  | cons cd rest ih =>
    by_cases hk : cd.key = k
    · simp [hdrGet, hk] at hh
    · have hh' : hdrGet rest k = none := by simpa [hdrGet, hk] using hh
      simp [hdrGet, hk, ih hh']

theorem hdrGetComment_append_left_none (h1 h2 : Header) (k : String)
    (hh : hdrGet h1 k = none) :
    hdrGetComment (h1 ++ h2) k = hdrGetComment h2 k := by
  induction h1 with
  | nil => rfl
  | cons cd rest ih =>
    by_cases hk : cd.key = k
    · simp [hdrGet, hk] at hh
    · have hh' : hdrGet rest k = none := by simpa [hdrGet, hk] using hh
      simp [hdrGetComment, hdrGet, hk, ih hh']

theorem hdrGet_append_left_some (h1 h2 : Header) (k : String) (v : FVal)
    (hh : hdrGet h1 k = some v) : hdrGet (h1 ++ h2) k = some v := by
  induction h1 with
  | nil => simp [hdrGet] at hh
  | cons cd rest ih =>
    by_cases hk : cd.key = k
    · simpa [hdrGet, hk] using hh
    · have hh' : hdrGet rest k = some v := by simpa [hdrGet, hk] using hh
      simp [hdrGet, hk, ih hh']

theorem hdrGet_hdrUpdate_self (h : Header) (k : String) (v : FVal) (c : String) :
    hdrGet (hdrUpdate h k v c) k = some v := by
  unfold hdrUpdate
  by_cases hh : hdrHasKey h k = true
  · simp [hh, hdrGet_updFirst_self h k v c hh]
  · have hb : hdrHasKey h k = false := by
      rw [Bool.not_eq_true] at hh; exact hh
    have hnone : hdrGet h k = none := by
      rw [hdrHasKey_eq_isSome] at hb
      cases hg : hdrGet h k
      · rfl
      · rw [hg] at hb; simp at hb
    rw [if_neg (by simp [hb])]
    cases hidx : hdrIdx h "HISTORY" with
    | none =>
      rw [hdrGet_append_left_none h _ k hnone]
      simp [hdrGet]
    | some idx => exact hdrGet_insertAt_self idx ⟨k, v, c⟩ h hb

theorem hdrGet_hdrUpdate_other (h : Header) (k : String) (v : FVal) (c : String)
    (k' : String) (hne : k' ≠ k) :
    hdrGet (hdrUpdate h k v c) k' = hdrGet h k' := by
  unfold hdrUpdate
  by_cases hh : hdrHasKey h k = true
  · simp [hh, hdrGet_updFirst_other h k v c k' hne]
  · rw [if_neg (by simp [hh])]
    cases hidx : hdrIdx h "HISTORY" with
    | none =>
      cases hg : hdrGet h k' with
      | none =>
        rw [hdrGet_append_left_none h _ k' hg]
        have hkk : ¬ ((⟨k, v, c⟩ : Card).key = k') := fun hq => hne hq.symm
        simp [hdrGet, hkk]
      | some w => exact hdrGet_append_left_some h _ k' w hg
    | some idx => exact hdrGet_insertAt_other idx ⟨k, v, c⟩ h k' (fun hq => hne hq.symm)

theorem hdrGetComment_hdrUpdate_self (h : Header) (k : String) (v : FVal) (c : String) :
    hdrGetComment (hdrUpdate h k v c) k = some c := by
  unfold hdrUpdate
  by_cases hh : hdrHasKey h k = true
  · simp [hh, hdrGetComment_updFirst_self h k v c hh]
  · have hb : hdrHasKey h k = false := by
      rw [Bool.not_eq_true] at hh; exact hh
    have hnone : hdrGet h k = none := by
      rw [hdrHasKey_eq_isSome] at hb
      cases hg : hdrGet h k
      · rfl
      · rw [hg] at hb; simp at hb
    rw [if_neg (by simp [hb])]
    cases hidx : hdrIdx h "HISTORY" with
    | none =>
      rw [hdrGetComment_append_left_none h _ k hnone]
      simp [hdrGetComment]
    | some idx => exact hdrGetComment_insertAt_self idx ⟨k, v, c⟩ h hb

theorem hdrGetComment_append_left_some (h1 h2 : Header) (k : String) (v : FVal)
    (hh : hdrGet h1 k = some v) :
    hdrGetComment (h1 ++ h2) k = hdrGetComment h1 k := by
  induction h1 with
  | nil => simp [hdrGet] at hh
  | cons cd rest ih =>
    by_cases hk : cd.key = k
    · simp [hdrGetComment, hk]
    · have hh' : hdrGet rest k = some v := by simpa [hdrGet, hk] using hh
      simp [hdrGetComment, hdrGet, hk, ih hh']

theorem hdrGetComment_eq_none (h : Header) (k : String)
    (hg : hdrGet h k = none) : hdrGetComment h k = none := by
  induction h with
  | nil => rfl
  | cons cd rest ih =>
    by_cases hk : cd.key = k
    · simp [hdrGet, hk] at hg
    · have hg' : hdrGet rest k = none := by simpa [hdrGet, hk] using hg
      simp [hdrGetComment, hk, ih hg']

theorem hdrGetComment_hdrUpdate_other (h : Header) (k : String) (v : FVal)
    (c : String) (k' : String) (hne : k' ≠ k) :
    hdrGetComment (hdrUpdate h k v c) k' = hdrGetComment h k' := by
  unfold hdrUpdate
  by_cases hh : hdrHasKey h k = true
  · simp [hh, hdrGetComment_updFirst_other h k v c k' hne]
  · rw [if_neg (by simp [hh])]
    cases hidx : hdrIdx h "HISTORY" with
    | none =>
      cases hg : hdrGet h k' with
      | none =>
        rw [hdrGetComment_append_left_none h _ k' hg,
          hdrGetComment_eq_none h k' hg]
        have hkk : ¬ ((⟨k, v, c⟩ : Card).key = k') := fun hq => hne hq.symm
        simp [hdrGetComment, hkk]
      | some w => exact hdrGetComment_append_left_some h _ k' w hg
    | some idx =>
      exact hdrGetComment_insertAt_other idx ⟨k, v, c⟩ h k' (fun hq => hne hq.symm)

theorem hdrUpdate_same (h : Header) (k : String) (v : FVal) (c : String)
    (hv : hdrGet h k = some v) (hc : hdrGetComment h k = some c) :
    hdrUpdate h k v c = h := by
  have hh : hdrHasKey h k = true := by
    rw [hdrHasKey_eq_isSome, hv]; rfl
  unfold hdrUpdate
  simp [hh, updFirst_same h k v c hv hc]

/-! ## Explicit forms of the keyword blocks -/

theorem addSciKws_DX (h : Header) (d : Nat) : addSciKws h d "DX" =
    hdrUpdate (hdrUpdate (hdrUpdate (hdrUpdate (hdrUpdate (hdrUpdate h
      "CPERROR1" (.flt 0) (cperrComment d))
      "CPDIS1" (.str "Lookup") "Prior distortion funcion type")
      "DP1.EXTVER" (.int d)
        "Version number of WCSDVARR extension containing lookup distortion table")
      "DP1.NAXES" (.int 2) "Number of independent variables in distortion function")
      "DP1.AXIS.1" (.int 1)
        "Axis number of the jth independent variable in a distortion function")
      "DP1.AXIS.2" (.int 2)
        "Axis number of the jth independent variable in a distortion function" := rfl

theorem addSciKws_DY (h : Header) (d : Nat) : addSciKws h d "DY" =
    hdrUpdate (hdrUpdate (hdrUpdate (hdrUpdate (hdrUpdate (hdrUpdate h
      "CPERROR2" (.flt 0) (cperrComment d))
      "CPDIS2" (.str "Lookup") "Prior distortion funcion type")
      "DP2.EXTVER" (.int d)
        "Version number of WCSDVARR extension containing lookup distortion table")
      "DP2.NAXES" (.int 2) "Number of independent variables in distortion function")
      "DP2.AXIS.1" (.int 1)
        "Axis number of the jth independent variable in a distortion function")
      "DP2.AXIS.2" (.int 2)
        "Axis number of the jth independent variable in a distortion function" := rfl

/-! ## Facts about the lookup-extension header -/

theorem lookupHdr_get_DGEOFILE (iv : GridDefaults) (d : Nat) :
    hdrGet (lookupHdr iv d) "DGEOFILE" = none := by
  simp +decide [lookupHdr, hdrGet]

theorem lookupHdr_get_EXTNAME (iv : GridDefaults) (d : Nat) :
    hdrGet (lookupHdr iv d) "EXTNAME" = some (.str "WCSDVARR") := by
  simp +decide [lookupHdr, hdrGet]

theorem lookupHdr_get_EXTVER (iv : GridDefaults) (d : Nat) :
    hdrGet (lookupHdr iv d) "EXTVER" = some (.int d) := by
  simp +decide [lookupHdr, hdrGet]

theorem mkHdu_header {α : Type} (iv : GridDefaults) (d : Nat) (dat : α) :
    (mkHdu iv d dat).header = lookupHdr iv d := rfl

theorem mkHdu_isSci {α : Type} (iv : GridDefaults) (d : Nat) (dat : α) :
    isSci (mkHdu iv d dat) = false := by
  simp [isSci, mkHdu, lookupHdr_get_EXTNAME]
  decide

theorem mkHdu_isWcsd {α : Type} (iv : GridDefaults) (d : Nat) (dat : α) :
    isWcsd (mkHdu iv d dat) = true := by
  simp [isWcsd, mkHdu, lookupHdr_get_EXTNAME]

/-- A science extension is never named `'WCSDVARR'`. -/
theorem isSci_not_wcsd {α : Type} (e : Ext α) (hsci : isSci e = true)
    (hw : hdrGet e.header "EXTNAME" = some (.str "WCSDVARR")) : False := by
  unfold isSci at hsci
  rw [hw] at hsci
  simp only [beq_iff_eq] at hsci
  exact absurd hsci (by decide)

/-! ## Characterization of the traversal pieces -/

/-- The override record `createDgeoHDU` passes to `createDgeoHdr`. -/
def stdKw (d : Nat) : DgeoKw :=
  ⟨none, none, some (.int d), none, none, none, none, none, none⟩

theorem createDgeoHdr_ok {α : Type} (dvals : String → Option GridDefaults)
    (g : FileObj α) (p0 : Ext α) (ins : String) (iv : GridDefaults) (d : Nat)
    (hd : 1 ≤ d) (h0 : g.get? 0 = some p0)
    (hins : hdrGet p0.header "INSTRUME" = some (.str ins))
    (hiv : dvals ins = some iv) :
    createDgeoHdr dvals g (stdKw d) = .ok (lookupHdr iv d) := by
  have hhead : g.head? = some p0 := by rw [← List.get?_zero, h0]
  have htr : truthy (.int d) = true := by
    simp [truthy]
    omega
  unfold createDgeoHdr
  rw [hhead]
  simp only [hins, hiv, stdKw, pyOr, htr, if_true]
  rfl

theorem createDgeoHDU_ok {α : Type} (dvals : String → Option GridDefaults)
    (getdata : String → String → FVal → Option α) (dgfile : String)
    (g : FileObj α) (p0 : Ext α) (ins : String) (iv : GridDefaults) (d : Nat)
    (en : String) (xv : FVal) (dat : α)
    (hd : 1 ≤ d) (h0 : g.get? 0 = some p0)
    (hins : hdrGet p0.header "INSTRUME" = some (.str ins))
    (hiv : dvals ins = some iv)
    (hdat : getdata dgfile en xv = some dat) :
    createDgeoHDU dvals getdata dgfile d en xv g = .ok (mkHdu iv d dat) := by
  have hh : createDgeoHdr dvals g
      ⟨none, none, some (.int d), none, none, none, none, none, none⟩ =
      .ok (lookupHdr iv d) := createDgeoHdr_ok dvals g p0 ins iv d hd h0 hins hiv
  simp only [createDgeoHDU]
  rw [hh, hdat]
  rfl

/-- `addSciExtKw` on a valid index, when the primary header (as it stands
after the six-keyword update, which never touches `DGEOFILE`) carries
`DGEOFILEMAP`, succeeds and performs the axis keyword block followed by the
`DGEOFILE` record. -/
theorem addSciExtKw_ok {α : Type} (g : FileObj α) (i d : Nat) (en : String)
    (e : Ext α) (raw : FVal)
    (hen : en = "DX" ∨ en = "DY")
    (hg : g.get? i = some e) (hraw : PrimVal g raw) :
    addSciExtKw g i d en = .ok (g.set i (eHalf e d en raw)) := by
  obtain ⟨p0, hp0, hdg⟩ := hraw
  have hil : i < g.length := by
    by_contra hcon
    rw [List.get?_eq_none.2 (by omega)] at hg
    exact Option.noConfusion hg
  have hpres : hdrGet (addSciKws e.header d en) "DGEOFILE" = hdrGet e.header "DGEOFILE" := by
    rcases hen with hen | hen <;> subst hen
    · rw [addSciKws_DX]
      rw [hdrGet_hdrUpdate_other _ _ _ _ _ (by decide),
        hdrGet_hdrUpdate_other _ _ _ _ _ (by decide),
        hdrGet_hdrUpdate_other _ _ _ _ _ (by decide),
        hdrGet_hdrUpdate_other _ _ _ _ _ (by decide),
        hdrGet_hdrUpdate_other _ _ _ _ _ (by decide),
        hdrGet_hdrUpdate_other _ _ _ _ _ (by decide)]
    · rw [addSciKws_DY]
      rw [hdrGet_hdrUpdate_other _ _ _ _ _ (by decide),
        hdrGet_hdrUpdate_other _ _ _ _ _ (by decide),
        hdrGet_hdrUpdate_other _ _ _ _ _ (by decide),
        hdrGet_hdrUpdate_other _ _ _ _ _ (by decide),
        hdrGet_hdrUpdate_other _ _ _ _ _ (by decide),
        hdrGet_hdrUpdate_other _ _ _ _ _ (by decide)]
  by_cases hi0 : i = 0
  · subst hi0
    have he : p0 = e := by rw [hg] at hp0; exact (Option.some.inj hp0).symm
    subst he
    have hhead0 : (g.set 0 { p0 with header := addSciKws p0.header d en }).head? =
        some { p0 with header := addSciKws p0.header d en } := by
      rw [← List.get?_zero, List.get?_eq_getElem?]
      simp [List.getElem?_set_self', hil]
    simp only [addSciExtKw, hg, hhead0, hpres, hdg]
    simp [List.set_set, dgfComment, eHalf]
  · have hhead1 : (g.set i { e with header := addSciKws e.header d en }).head? =
        some p0 := by
      rw [← List.get?_zero, List.get?_eq_getElem?, List.getElem?_set_ne hi0]
      rw [← List.get?_eq_getElem?, List.get?_zero, ← List.get?_zero, hp0]
    simp only [addSciExtKw, hg, hhead1, hdg]
    simp [List.set_set, dgfComment, eHalf]

theorem updateDGEOkw_ok {α : Type} (g : FileObj α) (i : Nat) (e : Ext α) (raw : FVal)
    (hg : g.get? i = some e) (hraw : PrimVal g raw) :
    updateDGEOkw g i = .ok (g.set i (eFin e raw)) := by
  obtain ⟨p0, hp0, hdg⟩ := hraw
  have hhead : g.head? = some p0 := by rw [← List.get?_zero, hp0]
  simp only [updateDGEOkw, hhead, hdg, hg]
  simp [dgfComment, eFin]

theorem get?_some_lt {β : Type} (l : List β) (n : Nat) (x : β)
    (h : l.get? n = some x) : n < l.length := by
  by_contra hcon
  rw [List.get?_eq_none.2 (by omega)] at h
  exact Option.noConfusion h

/-- A key untouched by one axis half of the science annotation (six axis
keywords then the `DGEOFILE` record) keeps its value. -/
theorem halfAnnot_get_other (h : Header) (dd : Nat) (en : String) (raw : FVal)
    (k : String) (hen : en = "DX" ∨ en = "DY") (h0 : k ≠ "DGEOFILE")
    (h1 : k ≠ "CPERROR1") (h2 : k ≠ "CPDIS1") (h3 : k ≠ "DP1.EXTVER")
    (h4 : k ≠ "DP1.NAXES") (h5 : k ≠ "DP1.AXIS.1") (h6 : k ≠ "DP1.AXIS.2")
    (h7 : k ≠ "CPERROR2") (h8 : k ≠ "CPDIS2") (h9 : k ≠ "DP2.EXTVER")
    (h10 : k ≠ "DP2.NAXES") (h11 : k ≠ "DP2.AXIS.1") (h12 : k ≠ "DP2.AXIS.2") :
    hdrGet (hdrUpdate (addSciKws h dd en) "DGEOFILE" raw dgfComment) k =
      hdrGet h k := by
  rcases hen with hen | hen <;> subst hen
  · rw [hdrGet_hdrUpdate_other _ _ _ _ _ h0, addSciKws_DX,
      hdrGet_hdrUpdate_other _ _ _ _ _ h6, hdrGet_hdrUpdate_other _ _ _ _ _ h5,
      hdrGet_hdrUpdate_other _ _ _ _ _ h4, hdrGet_hdrUpdate_other _ _ _ _ _ h3,
      hdrGet_hdrUpdate_other _ _ _ _ _ h2, hdrGet_hdrUpdate_other _ _ _ _ _ h1]
  · rw [hdrGet_hdrUpdate_other _ _ _ _ _ h0, addSciKws_DY,
      hdrGet_hdrUpdate_other _ _ _ _ _ h12, hdrGet_hdrUpdate_other _ _ _ _ _ h11,
      hdrGet_hdrUpdate_other _ _ _ _ _ h10, hdrGet_hdrUpdate_other _ _ _ _ _ h9,
      hdrGet_hdrUpdate_other _ _ _ _ _ h8, hdrGet_hdrUpdate_other _ _ _ _ _ h7]

theorem halfAnnot_get_DGEOFILE (h : Header) (dd : Nat) (en : String) (raw : FVal) :
    hdrGet (hdrUpdate (addSciKws h dd en) "DGEOFILE" raw dgfComment) "DGEOFILE" =
      some raw :=
  hdrGet_hdrUpdate_self _ _ _ _

/-- Inversion of a successful `createDgeoHdr` run with the standard
override record: it pins down the instrument row and the produced header. -/
theorem createDgeoHdr_ok_inv {α : Type} (dvals : String → Option GridDefaults)
    (g : FileObj α) (p0 : Ext α) (dd : Nat) (hdr : Header)
    (h0 : g.get? 0 = some p0) (hd : 1 ≤ dd)
    (hok : createDgeoHdr dvals g (stdKw dd) = .ok hdr) :
    ∃ ins iv, hdrGet p0.header "INSTRUME" = some (.str ins) ∧
      dvals ins = some iv ∧ hdr = lookupHdr iv dd := by
  have hhead : g.head? = some p0 := by rw [← List.get?_zero, h0]
  cases hins : hdrGet p0.header "INSTRUME" with
  | none =>
    simp only [createDgeoHdr, hhead, hins] at hok
    exact absurd hok (by simp)
  | some v =>
    cases v with
    | str ins =>
      cases hiv : dvals ins with
      | none =>
        simp only [createDgeoHdr, hhead, hins, hiv] at hok
        exact absurd hok (by simp)
      | some iv =>
        refine ⟨ins, iv, rfl, hiv, ?_⟩
        rw [createDgeoHdr_ok dvals g p0 ins iv dd hd h0 hins hiv] at hok
        exact (Except.ok.inj hok).symm
    | int n =>
      simp only [createDgeoHdr, hhead, hins] at hok
      exact absurd hok (by simp)
    | flt q =>
      simp only [createDgeoHdr, hhead, hins] at hok
      exact absurd hok (by simp)

/-- Inversion of a successful `createDgeoHDU` run. -/
theorem createDgeoHDU_ok_inv {α : Type} (dvals : String → Option GridDefaults)
    (getdata : String → String → FVal → Option α) (dgfile : String)
    (g : FileObj α) (p0 : Ext α) (dd : Nat) (en : String) (xv : FVal) (hdu : Ext α)
    (h0 : g.get? 0 = some p0) (hd : 1 ≤ dd)
    (hok : createDgeoHDU dvals getdata dgfile dd en xv g = .ok hdu) :
    ∃ ins iv dat, hdrGet p0.header "INSTRUME" = some (.str ins) ∧
      dvals ins = some iv ∧ getdata dgfile en xv = some dat ∧
      hdu = mkHdu iv dd dat := by
  simp only [createDgeoHDU] at hok
  cases hC : createDgeoHdr dvals g
      (⟨none, none, some (.int dd), none, none, none, none, none, none⟩ : DgeoKw) with
  | error m => rw [hC] at hok; exact absurd hok (by simp)
  | ok hdr =>
    rw [hC] at hok
    have hC' : createDgeoHdr dvals g (stdKw dd) = .ok hdr := hC
    obtain ⟨ins, iv, hins, hiv, hhdr⟩ :=
      createDgeoHdr_ok_inv dvals g p0 dd hdr h0 hd hC'
    cases hdat : getdata dgfile en xv with
    | none => rw [hdat] at hok; exact absurd hok (by simp)
    | some dat =>
      rw [hdat] at hok
      refine ⟨ins, iv, dat, hins, hiv, rfl, ?_⟩
      subst hhdr
      exact (Except.ok.inj hok).symm

/-- `addSciExtKw` raises `KeyError` when the primary header lacks
`DGEOFILE` (with the six axis keywords already written at index `i`). -/
theorem addSciExtKw_err {α : Type} (g : FileObj α) (i d : Nat) (en : String)
    (e q : Ext α)
    (hg : g.get? i = some e) (hi0 : i ≠ 0) (hq : g.get? 0 = some q)
    (hnodg : hdrGet q.header "DGEOFILE" = none) :
    addSciExtKw g i d en =
      .error ("KeyError: DGEOFILE", g.set i (eSix e d en)) := by
  have hhead : (g.set i { e with header := addSciKws e.header d en }).head? = some q := by
    rw [← List.get?_zero, List.get?_eq_getElem?, List.getElem?_set_ne hi0]
    rw [← List.get?_eq_getElem?, hq]
  simp only [addSciExtKw, hg, hhead, hnodg, eSix]

/-- Membership form of a successful `wcsdvarr_ind` lookup. -/
theorem dictLookup_mem (l : List (FVal × Nat)) (k : FVal) (p : Nat)
    (hl : dictLookup l k = some p) : ∃ kv ∈ l, kv.1 = k ∧ kv.2 = p := by
  unfold dictLookup at hl
  cases hg : (l.filter (fun q => q.1 = k)).getLast? with
  | none => rw [hg] at hl; simp at hl
  | some kv =>
    rw [hg] at hl
    have hmem : kv ∈ l.filter (fun q => q.1 = k) := List.mem_of_mem_getLast? hg
    have hk : kv.1 = k := by
      have := List.of_mem_filter hmem
      simpa using this
    refine ⟨kv, List.mem_of_mem_filter hmem, hk, ?_⟩
    exact Option.some.inj hl

/-- One-level read lemmas for `eHalf` and `eFin`. -/
theorem eHalf_get_other {α : Type} (e : Ext α) (dd : Nat) (en : String) (raw : FVal)
    (k : String) (hen : en = "DX" ∨ en = "DY") (h0 : k ≠ "DGEOFILE")
    (h1 : k ≠ "CPERROR1") (h2 : k ≠ "CPDIS1") (h3 : k ≠ "DP1.EXTVER")
    (h4 : k ≠ "DP1.NAXES") (h5 : k ≠ "DP1.AXIS.1") (h6 : k ≠ "DP1.AXIS.2")
    (h7 : k ≠ "CPERROR2") (h8 : k ≠ "CPDIS2") (h9 : k ≠ "DP2.EXTVER")
    (h10 : k ≠ "DP2.NAXES") (h11 : k ≠ "DP2.AXIS.1") (h12 : k ≠ "DP2.AXIS.2") :
    hdrGet (eHalf e dd en raw).header k = hdrGet e.header k := by
  have h := halfAnnot_get_other e.header dd en raw k hen h0 h1 h2 h3 h4 h5 h6 h7
    h8 h9 h10 h11 h12
  exact h

theorem eHalf_EXTNAME {α : Type} (e : Ext α) (dd : Nat) (en : String) (raw : FVal)
    (hen : en = "DX" ∨ en = "DY") :
    hdrGet (eHalf e dd en raw).header "EXTNAME" = hdrGet e.header "EXTNAME" :=
  eHalf_get_other e dd en raw "EXTNAME" hen (by decide) (by decide) (by decide)
    (by decide) (by decide) (by decide) (by decide) (by decide) (by decide)
    (by decide) (by decide) (by decide) (by decide)

theorem eHalf_EXTVER {α : Type} (e : Ext α) (dd : Nat) (en : String) (raw : FVal)
    (hen : en = "DX" ∨ en = "DY") :
    hdrGet (eHalf e dd en raw).header "EXTVER" = hdrGet e.header "EXTVER" :=
  eHalf_get_other e dd en raw "EXTVER" hen (by decide) (by decide) (by decide)
    (by decide) (by decide) (by decide) (by decide) (by decide) (by decide)
    (by decide) (by decide) (by decide) (by decide)

theorem eHalf_INSTRUME {α : Type} (e : Ext α) (dd : Nat) (en : String) (raw : FVal)
    (hen : en = "DX" ∨ en = "DY") :
    hdrGet (eHalf e dd en raw).header "INSTRUME" = hdrGet e.header "INSTRUME" :=
  eHalf_get_other e dd en raw "INSTRUME" hen (by decide) (by decide) (by decide)
    (by decide) (by decide) (by decide) (by decide) (by decide) (by decide)
    (by decide) (by decide) (by decide) (by decide)

theorem eHalf_DGEOFILE {α : Type} (e : Ext α) (dd : Nat) (en : String) (raw : FVal) :
    hdrGet (eHalf e dd en raw).header "DGEOFILE" = some raw := by
  have h := halfAnnot_get_DGEOFILE e.header dd en raw
  exact h

theorem eHalf_data {α : Type} (e : Ext α) (dd : Nat) (en : String) (raw : FVal) :
    (eHalf e dd en raw).data = e.data := rfl

theorem eFin_get_other {α : Type} (e : Ext α) (raw : FVal) (k : String)
    (h0 : k ≠ "DGEOFILE") :
    hdrGet (eFin e raw).header k = hdrGet e.header k := by
  have h := hdrGet_hdrUpdate_other e.header "DGEOFILE" raw dgfComment k h0
  exact h

theorem eFin_DGEOFILE {α : Type} (e : Ext α) (raw : FVal) :
    hdrGet (eFin e raw).header "DGEOFILE" = some raw := by
  have h := hdrGet_hdrUpdate_self e.header "DGEOFILE" raw dgfComment
  exact h

theorem eFin_data {α : Type} (e : Ext α) (raw : FVal) :
    (eFin e raw).data = e.data := rfl

/-- Characterization of a successful axis phase: the science header at `i`
gains the axis keyword block and the `DGEOFILE` record, and the freshly
built lookup HDU is appended (empty scan table) or overwrites the slot the
table names for `dgeover` (never the science slot itself). -/
theorem axisPhase_ok_char {α : Type} (dvals : String → Option GridDefaults)
    (getdata : String → String → FVal → Option α) (dgfile : String)
    (wind : List (FVal × Nat)) (i dgeover : Nat) (ename : String) (xv : FVal)
    (g gOut : FileObj α) (e : Ext α) (raw : FVal)
    (hen : ename = "DX" ∨ ename = "DY") (hd : 1 ≤ dgeover)
    (hg : g.get? i = some e)
    (hnw : hdrGet e.header "EXTNAME" ≠ some (.str "WCSDVARR"))
    (hraw : PrimVal g raw) (hwind : WindOK wind g)
    (hok : axisPhase dvals getdata dgfile wind i dgeover ename xv g = .ok gOut) :
    ∃ ins iv dat,
      (∃ pA, g.get? 0 = some pA ∧ hdrGet pA.header "INSTRUME" = some (.str ins)) ∧
      dvals ins = some iv ∧ getdata dgfile ename xv = some dat ∧
      ((wind = [] ∧ gOut = g.set i (eHalf e dgeover ename raw)
          ++ [mkHdu iv dgeover dat]) ∨
       (∃ p, wind ≠ [] ∧ dictLookup wind (.int dgeover) = some p ∧ p ≠ i ∧
        p < g.length ∧
        gOut = (g.set i (eHalf e dgeover ename raw)).set p (mkHdu iv dgeover dat))) := by
  obtain ⟨p0, hp0, hdg0⟩ := hraw
  have hil : i < g.length := get?_some_lt g i e hg
  have hA := addSciExtKw_ok g i dgeover ename e raw hen hg ⟨p0, hp0, hdg0⟩
  simp only [axisPhase, hA] at hok
  have hprimA : ∃ pA, (g.set i (eHalf e dgeover ename raw)).get? 0 = some pA ∧
      hdrGet pA.header "INSTRUME" = hdrGet p0.header "INSTRUME" := by
    by_cases hi0 : i = 0
    · subst hi0
      have he : e = p0 := by rw [hg] at hp0; exact Option.some.inj hp0
      refine ⟨eHalf e dgeover ename raw, ?_, ?_⟩
      · rw [List.get?_eq_getElem?]
        simp [List.getElem?_set_self', hil]
      · rw [eHalf_INSTRUME e dgeover ename raw hen, he]
    · refine ⟨p0, ?_, rfl⟩
      rw [List.get?_eq_getElem?, List.getElem?_set_ne hi0, ← List.get?_eq_getElem?, hp0]
  obtain ⟨pA, hpA0, hpAins⟩ := hprimA
  cases hC : createDgeoHDU dvals getdata dgfile dgeover ename xv
      (g.set i (eHalf e dgeover ename raw)) with
  | error m =>
    rw [hC] at hok
    exact absurd hok (by simp)
  | ok hdu =>
    rw [hC] at hok
    obtain ⟨ins, iv, dat, hinsA, hiv, hdat, hhdu⟩ :=
      createDgeoHDU_ok_inv dvals getdata dgfile _ pA dgeover ename xv hdu hpA0 hd hC
    subst hhdu
    refine ⟨ins, iv, dat, ⟨p0, hp0, by rw [← hpAins]; exact hinsA⟩, hiv, hdat, ?_⟩
    by_cases hwe : wind = []
    · subst hwe
      simp only [placeHdu, List.isEmpty_nil, if_true] at hok
      exact Or.inl ⟨rfl, (Except.ok.inj hok).symm⟩
    · have hweb : wind.isEmpty = false := by
        cases wind with
        | nil => exact absurd rfl hwe
        | cons a l => rfl
      cases hdl : dictLookup wind (.int dgeover) with
      | none =>
        simp only [placeHdu, hweb, hdl] at hok
        exact absurd hok (by simp)
      | some p =>
        simp only [placeHdu, hweb, hdl] at hok
        obtain ⟨kv, hkvmem, hkv1, hkv2⟩ := dictLookup_mem wind (.int dgeover) p hdl
        obtain ⟨w, hwp, hwname⟩ := hwind kv hkvmem
        have hplt : p < g.length := by
          rw [← hkv2]; exact get?_some_lt g kv.2 w hwp
        have hpi : p ≠ i := by
          intro hq
          rw [hkv2, hq, hg] at hwp
          rw [Option.some.inj hwp] at hnw
          exact hnw hwname
        exact Or.inr ⟨p, hwe, rfl, hpi, hplt, (Except.ok.inj hok).symm⟩

/-- Characterization of a successful science-extension iteration: the
science extension at `i` receives the full annotation `annotExt`, and the
two lookup HDUs are appended in order (empty scan table) or overwrite the
two slots the table names for `d+1` and `d+2` (never the science slot,
never the primary). -/
theorem sciStep_ok_char {α : Type} (dvals : String → Option GridDefaults)
    (getdata : String → String → FVal → Option α) (dgfile : String)
    (wind : List (FVal × Nat)) (i d : Nat) (xv : FVal)
    (g gE : FileObj α) (e : Ext α) (raw : FVal)
    (hg : g.get? i = some e) (hsci : isSci e = true)
    (hraw : PrimVal g raw) (hwind : WindOK wind g)
    (hok : sciStep dvals getdata dgfile wind i d xv g = .ok gE) :
    ∃ ins iv dat1 dat2,
      (∃ pA, g.get? 0 = some pA ∧ hdrGet pA.header "INSTRUME" = some (.str ins)) ∧
      dvals ins = some iv ∧
      getdata dgfile "DX" xv = some dat1 ∧ getdata dgfile "DY" xv = some dat2 ∧
      ((wind = [] ∧
        gE = g.set i (annotExt e d raw) ++
          [mkHdu iv (d + 1) dat1, mkHdu iv (d + 2) dat2]) ∨
       (∃ p1 p2, wind ≠ [] ∧
        dictLookup wind (.int (d + 1)) = some p1 ∧
        dictLookup wind (.int (d + 2)) = some p2 ∧
        p1 ≠ i ∧ p2 ≠ i ∧ p1 ≠ 0 ∧ p2 ≠ 0 ∧ p1 < g.length ∧ p2 < g.length ∧
        gE = ((g.set i (annotExt e d raw)).set p1 (mkHdu iv (d + 1) dat1)).set p2
          (mkHdu iv (d + 2) dat2))) := by
  have hnw : hdrGet e.header "EXTNAME" ≠ some (.str "WCSDVARR") :=
    fun hq => isSci_not_wcsd e hsci hq
  have hil : i < g.length := get?_some_lt g i e hg
  obtain ⟨p0, hp0, hdg0⟩ := hraw
  cases hB : axisPhase dvals getdata dgfile wind i (d + 1) "DX" xv g with
  | error err =>
    simp only [sciStep, hB] at hok
    exact absurd hok (by simp)
  | ok gB =>
    simp only [sciStep, hB] at hok
    obtain ⟨ins, iv, dat1, ⟨pA, hpA, hpAins⟩, hiv, hdat1, hshape⟩ :=
      axisPhase_ok_char dvals getdata dgfile wind i (d + 1) "DX" xv g gB e raw
        (Or.inl rfl) (by omega) hg hnw ⟨p0, hp0, hdg0⟩ hwind hB
    have hpA0 : pA = p0 := by
      rw [hp0] at hpA; exact (Option.some.inj hpA).symm
    have hinsP : hdrGet p0.header "INSTRUME" = some (.str ins) := hpA0 ▸ hpAins
    have hinsE : i = 0 → hdrGet e.header "INSTRUME" = some (.str ins) := by
      intro hi0
      have he : e = p0 := by
        rw [hi0] at hg; rw [hg] at hp0; exact Option.some.inj hp0
      rw [he]; exact hinsP
    have hE1ex : hdrGet (eHalf e (d + 1) "DX" raw).header "EXTNAME" ≠
        some (.str "WCSDVARR") := by
      rw [eHalf_EXTNAME e (d + 1) "DX" raw (Or.inl rfl)]; exact hnw
    rcases hshape with ⟨hwe, hgBeq⟩ | ⟨p1, hwne, hdl1, hp1i, hp1lt, hgBeq⟩
    · -- append mode
      subst hwe
      subst hgBeq
      have hgBi : (g.set i (eHalf e (d + 1) "DX" raw)
          ++ [mkHdu iv (d + 1) dat1]).get? i = some (eHalf e (d + 1) "DX" raw) := by
        rw [List.get?_eq_getElem?, List.getElem?_append_left (by simp only [List.length_append, List.length_set, List.length_cons, List.length_nil]; omega),
          List.getElem?_set_self']
        simp [hil]
      have hgB0 : (g.set i (eHalf e (d + 1) "DX" raw)
          ++ [mkHdu iv (d + 1) dat1]).get? 0 =
          some (if i = 0 then eHalf e (d + 1) "DX" raw else p0) := by
        rw [List.get?_eq_getElem?, List.getElem?_append_left (by simp only [List.length_append, List.length_set, List.length_cons, List.length_nil]; omega)]
        by_cases hi0 : i = 0
        · subst hi0
          rw [List.getElem?_set_self']
          simp [hil]
        · rw [List.getElem?_set_ne hi0, if_neg hi0, ← List.get?_eq_getElem?, hp0]
      have hprimB : PrimVal (g.set i (eHalf e (d + 1) "DX" raw)
          ++ [mkHdu iv (d + 1) dat1]) raw := by
        refine ⟨_, hgB0, ?_⟩
        by_cases hi0 : i = 0
        · simp only [if_pos hi0]
          exact eHalf_DGEOFILE e (d + 1) "DX" raw
        · simp only [if_neg hi0]
          exact hdg0
      have hwindB : WindOK [] (g.set i (eHalf e (d + 1) "DX" raw)
          ++ [mkHdu iv (d + 1) dat1]) := by
        intro kv hkv
        exact absurd hkv (List.not_mem_nil kv)
      cases hD : axisPhase dvals getdata dgfile [] i (d + 2) "DY" xv
          (g.set i (eHalf e (d + 1) "DX" raw) ++ [mkHdu iv (d + 1) dat1]) with
      | error err =>
        simp only [hD] at hok
        exact absurd hok (by simp)
      | ok gD =>
        simp only [hD] at hok
        obtain ⟨ins2, iv2, dat2, ⟨pB, hpB, hpBins⟩, hiv2, hdat2, hshape2⟩ :=
          axisPhase_ok_char dvals getdata dgfile [] i (d + 2) "DY" xv _ gD
            (eHalf e (d + 1) "DX" raw) raw (Or.inr rfl) (by omega) hgBi
            hE1ex hprimB hwindB hD
        have hins2 : ins2 = ins := by
          rw [hgB0] at hpB
          have hpBe : pB = if i = 0 then eHalf e (d + 1) "DX" raw else p0 :=
            (Option.some.inj hpB).symm
          rw [hpBe] at hpBins
          by_cases hi0 : i = 0
          · rw [if_pos hi0, eHalf_INSTRUME e (d + 1) "DX" raw (Or.inl rfl),
              hinsE hi0] at hpBins
            exact (FVal.str.inj (Option.some.inj hpBins)).symm
          · rw [if_neg hi0, hinsP] at hpBins
            exact (FVal.str.inj (Option.some.inj hpBins)).symm
        rw [hins2] at hiv2
        have hiv2e : iv2 = iv := by
          rw [hiv] at hiv2; exact (Option.some.inj hiv2).symm
        rw [hiv2e] at hshape2
        rcases hshape2 with ⟨_, hgDeq⟩ | ⟨p2, hne2, _⟩
        swap
        · exact absurd rfl hne2
        subst hgDeq
        have hsetapp : (g.set i (eHalf e (d + 1) "DX" raw)
            ++ [mkHdu iv (d + 1) dat1]).set i
            (eHalf (eHalf e (d + 1) "DX" raw) (d + 2) "DY" raw) =
            g.set i (eHalf (eHalf e (d + 1) "DX" raw) (d + 2) "DY" raw)
            ++ [mkHdu iv (d + 1) dat1] := by
          rw [List.set_append_left _ _ (by simp only [List.length_append, List.length_set, List.length_cons, List.length_nil]; omega), List.set_set]
        rw [hsetapp] at hok
        have hgDi : (g.set i (eHalf (eHalf e (d + 1) "DX" raw) (d + 2) "DY" raw)
            ++ [mkHdu iv (d + 1) dat1] ++ [mkHdu iv (d + 2) dat2]).get? i =
            some (eHalf (eHalf e (d + 1) "DX" raw) (d + 2) "DY" raw) := by
          rw [List.get?_eq_getElem?, List.getElem?_append_left
            (by simp only [List.length_append, List.length_set, List.length_cons, List.length_nil]; omega)]
          rw [List.getElem?_append_left (by simp only [List.length_append, List.length_set, List.length_cons, List.length_nil]; omega), List.getElem?_set_self']
          simp [hil]
        have hgD0 : (g.set i (eHalf (eHalf e (d + 1) "DX" raw) (d + 2) "DY" raw)
            ++ [mkHdu iv (d + 1) dat1] ++ [mkHdu iv (d + 2) dat2]).get? 0 =
            some (if i = 0 then eHalf (eHalf e (d + 1) "DX" raw) (d + 2) "DY" raw
              else p0) := by
          rw [List.get?_eq_getElem?, List.getElem?_append_left
            (by simp only [List.length_append, List.length_set, List.length_cons, List.length_nil]; omega)]
          rw [List.getElem?_append_left (by simp only [List.length_append, List.length_set, List.length_cons, List.length_nil]; omega)]
          by_cases hi0 : i = 0
          · subst hi0
            rw [List.getElem?_set_self']
            simp [hil]
          · rw [List.getElem?_set_ne hi0, if_neg hi0, ← List.get?_eq_getElem?, hp0]
        have hprimD : PrimVal (g.set i (eHalf (eHalf e (d + 1) "DX" raw) (d + 2)
            "DY" raw) ++ [mkHdu iv (d + 1) dat1] ++ [mkHdu iv (d + 2) dat2]) raw := by
          refine ⟨_, hgD0, ?_⟩
          by_cases hi0 : i = 0
          · simp only [if_pos hi0]
            exact eHalf_DGEOFILE _ (d + 2) "DY" raw
          · simp only [if_neg hi0]
            exact hdg0
        rw [updateDGEOkw_ok _ i (eHalf (eHalf e (d + 1) "DX" raw) (d + 2) "DY" raw)
          raw hgDi hprimD] at hok
        have hlit : eFin (eHalf (eHalf e (d + 1) "DX" raw) (d + 2) "DY" raw) raw =
            annotExt e d raw := rfl
        rw [hlit] at hok
        have hfin : ((g.set i (eHalf (eHalf e (d + 1) "DX" raw) (d + 2) "DY" raw)
            ++ [mkHdu iv (d + 1) dat1] ++ [mkHdu iv (d + 2) dat2]).set i
            (annotExt e d raw)) =
            g.set i (annotExt e d raw)
            ++ [mkHdu iv (d + 1) dat1, mkHdu iv (d + 2) dat2] := by
          rw [List.set_append_left _ _ (by simp only [List.length_append, List.length_set, List.length_cons, List.length_nil]; omega),
            List.set_append_left _ _ (by simp only [List.length_append, List.length_set, List.length_cons, List.length_nil]; omega), List.set_set,
            List.append_assoc]
          rfl
        refine ⟨ins, iv, dat1, dat2, ⟨p0, hp0, hinsP⟩, hiv, hdat1, hdat2,
          Or.inl ⟨rfl, ?_⟩⟩
        have heq := Except.ok.inj hok
        rw [← heq, hfin]
    · -- overwrite mode
      subst hgBeq
      have hgBi : ((g.set i (eHalf e (d + 1) "DX" raw)).set p1
          (mkHdu iv (d + 1) dat1)).get? i = some (eHalf e (d + 1) "DX" raw) := by
        rw [List.get?_eq_getElem?, List.getElem?_set_ne hp1i, List.getElem?_set_self']
        simp [hil]
      by_cases hp10 : p1 = 0
      · -- the DX HDU overwrote the primary: the DY annotation must fail
        exfalso
        have hi0 : i ≠ 0 := fun hq => hp1i (hp10.trans hq.symm)
        have hgB0 : ((g.set i (eHalf e (d + 1) "DX" raw)).set p1
            (mkHdu iv (d + 1) dat1)).get? 0 = some (mkHdu iv (d + 1) dat1) := by
          subst hp10
          rw [List.get?_eq_getElem?, List.getElem?_set_self']
          simp [hil, hp1lt]
        have herr := addSciExtKw_err ((g.set i (eHalf e (d + 1) "DX" raw)).set p1
            (mkHdu iv (d + 1) dat1)) i (d + 2) "DY" (eHalf e (d + 1) "DX" raw)
            (mkHdu iv (d + 1) dat1) hgBi hi0 hgB0 (lookupHdr_get_DGEOFILE iv (d + 1))
        simp only [axisPhase, herr] at hok
        exact absurd hok (by simp)
      · have hgB0 : ((g.set i (eHalf e (d + 1) "DX" raw)).set p1
            (mkHdu iv (d + 1) dat1)).get? 0 =
            some (if i = 0 then eHalf e (d + 1) "DX" raw else p0) := by
          rw [List.get?_eq_getElem?, List.getElem?_set_ne (fun hq => hp10 hq)]
          by_cases hi0 : i = 0
          · subst hi0
            rw [List.getElem?_set_self']
            simp [hil]
          · rw [List.getElem?_set_ne hi0, if_neg hi0, ← List.get?_eq_getElem?, hp0]
        have hprimB : PrimVal ((g.set i (eHalf e (d + 1) "DX" raw)).set p1
            (mkHdu iv (d + 1) dat1)) raw := by
          refine ⟨_, hgB0, ?_⟩
          by_cases hi0 : i = 0
          · simp only [if_pos hi0]
            exact eHalf_DGEOFILE e (d + 1) "DX" raw
          · simp only [if_neg hi0]
            exact hdg0
        have hwindB : WindOK wind ((g.set i (eHalf e (d + 1) "DX" raw)).set p1
            (mkHdu iv (d + 1) dat1)) := by
          intro kv hkv
          obtain ⟨w, hwp, hwname⟩ := hwind kv hkv
          have hkvi : kv.2 ≠ i := by
            intro hq
            rw [hq, hg] at hwp
            rw [Option.some.inj hwp] at hnw
            exact hnw hwname
          by_cases hkvp : kv.2 = p1
          · refine ⟨mkHdu iv (d + 1) dat1, ?_, ?_⟩
            · rw [hkvp, List.get?_eq_getElem?, List.getElem?_set_self']
              simp [hp1lt]
            · exact lookupHdr_get_EXTNAME iv (d + 1)
          · refine ⟨w, ?_, hwname⟩
            rw [List.get?_eq_getElem?, List.getElem?_set_ne (fun hq => hkvp hq.symm),
              List.getElem?_set_ne (fun hq => hkvi hq.symm), ← List.get?_eq_getElem?]
            exact hwp
        cases hD : axisPhase dvals getdata dgfile wind i (d + 2) "DY" xv
            ((g.set i (eHalf e (d + 1) "DX" raw)).set p1 (mkHdu iv (d + 1) dat1)) with
        | error err =>
          simp only [hD] at hok
          exact absurd hok (by simp)
        | ok gD =>
          simp only [hD] at hok
          obtain ⟨ins2, iv2, dat2, ⟨pB, hpB, hpBins⟩, hiv2, hdat2, hshape2⟩ :=
            axisPhase_ok_char dvals getdata dgfile wind i (d + 2) "DY" xv _ gD
              (eHalf e (d + 1) "DX" raw) raw (Or.inr rfl) (by omega) hgBi
              hE1ex hprimB hwindB hD
          have hins2 : ins2 = ins := by
            rw [hgB0] at hpB
            have hpBe : pB = if i = 0 then eHalf e (d + 1) "DX" raw else p0 :=
              (Option.some.inj hpB).symm
            rw [hpBe] at hpBins
            by_cases hi0 : i = 0
            · rw [if_pos hi0, eHalf_INSTRUME e (d + 1) "DX" raw (Or.inl rfl),
                hinsE hi0] at hpBins
              exact (FVal.str.inj (Option.some.inj hpBins)).symm
            · rw [if_neg hi0, hinsP] at hpBins
              exact (FVal.str.inj (Option.some.inj hpBins)).symm
          rw [hins2] at hiv2
          have hiv2e : iv2 = iv := by
            rw [hiv] at hiv2; exact (Option.some.inj hiv2).symm
          rw [hiv2e] at hshape2
          rcases hshape2 with ⟨hwe2, _⟩ | ⟨p2, _, hdl2, hp2i, hp2lt, hgDeq⟩
          · exact absurd hwe2 hwne
          have hp2lt' : p2 < g.length := by simpa using hp2lt
          subst hgDeq
          have hnorm : (((g.set i (eHalf e (d + 1) "DX" raw)).set p1
              (mkHdu iv (d + 1) dat1)).set i
              (eHalf (eHalf e (d + 1) "DX" raw) (d + 2) "DY" raw)).set p2
              (mkHdu iv (d + 2) dat2) =
              ((g.set i (eHalf (eHalf e (d + 1) "DX" raw) (d + 2) "DY" raw)).set p1
              (mkHdu iv (d + 1) dat1)).set p2 (mkHdu iv (d + 2) dat2) := by
            rw [List.set_comm _ _ _ (fun hq => hp1i hq), List.set_set]
          rw [hnorm] at hok
          by_cases hp20 : p2 = 0
          · exfalso
            have hi0 : i ≠ 0 := fun hq => hp2i (hp20.trans hq.symm)
            have hgD0 : (((g.set i (eHalf (eHalf e (d + 1) "DX" raw) (d + 2) "DY"
                raw)).set p1 (mkHdu iv (d + 1) dat1)).set p2
                (mkHdu iv (d + 2) dat2)).head? = some (mkHdu iv (d + 2) dat2) := by
              subst hp20
              rw [← List.get?_zero, List.get?_eq_getElem?, List.getElem?_set_self']
              simp [hil, hp2lt']
            simp only [updateDGEOkw, hgD0, mkHdu_header, lookupHdr_get_DGEOFILE] at hok
            exact absurd hok (by simp)
          · have hgDi : (((g.set i (eHalf (eHalf e (d + 1) "DX" raw) (d + 2) "DY"
                raw)).set p1 (mkHdu iv (d + 1) dat1)).set p2
                (mkHdu iv (d + 2) dat2)).get? i =
                some (eHalf (eHalf e (d + 1) "DX" raw) (d + 2) "DY" raw) := by
              rw [List.get?_eq_getElem?, List.getElem?_set_ne hp2i,
                List.getElem?_set_ne hp1i, List.getElem?_set_self']
              simp [hil]
            have hprimD : PrimVal (((g.set i (eHalf (eHalf e (d + 1) "DX" raw)
                (d + 2) "DY" raw)).set p1 (mkHdu iv (d + 1) dat1)).set p2
                (mkHdu iv (d + 2) dat2)) raw := by
              refine ⟨if i = 0 then eHalf (eHalf e (d + 1) "DX" raw) (d + 2) "DY" raw
                else p0, ?_, ?_⟩
              · rw [List.get?_eq_getElem?, List.getElem?_set_ne (fun hq => hp20 hq),
                  List.getElem?_set_ne (fun hq => hp10 hq)]
                by_cases hi0 : i = 0
                · subst hi0
                  rw [List.getElem?_set_self']
                  simp [hil]
                · rw [List.getElem?_set_ne hi0, if_neg hi0, ← List.get?_eq_getElem?, hp0]
              · by_cases hi0 : i = 0
                · simp only [if_pos hi0]
                  exact eHalf_DGEOFILE _ (d + 2) "DY" raw
                · simp only [if_neg hi0]
                  exact hdg0
            rw [updateDGEOkw_ok _ i (eHalf (eHalf e (d + 1) "DX" raw) (d + 2) "DY"
              raw) raw hgDi hprimD] at hok
            have hlit : eFin (eHalf (eHalf e (d + 1) "DX" raw) (d + 2) "DY" raw)
                raw = annotExt e d raw := rfl
            rw [hlit] at hok
            have hfin : ((((g.set i (eHalf (eHalf e (d + 1) "DX" raw) (d + 2) "DY"
                raw)).set p1 (mkHdu iv (d + 1) dat1)).set p2
                (mkHdu iv (d + 2) dat2)).set i (annotExt e d raw)) =
                ((g.set i (annotExt e d raw)).set p1 (mkHdu iv (d + 1) dat1)).set p2
                (mkHdu iv (d + 2) dat2) := by
              rw [List.set_comm _ _ _ hp2i, List.set_comm _ _ _ hp1i, List.set_set]
            refine ⟨ins, iv, dat1, dat2, ⟨p0, hp0, hinsP⟩, hiv, hdat1, hdat2,
              Or.inr ⟨p1, p2, hwne, hdl1, hdl2, hp1i, hp2i, hp10, hp20, hp1lt,
                hp2lt', ?_⟩⟩
            have heq := Except.ok.inj hok
            rw [← heq, hfin]

/-! ## Concrete environment and fixtures -/

/-- Error message of a failed run. -/
def errMsg {α : Type} : Except (String × FileObj α) (FileObj α) → Option String
  | .error (m, _) => some m
  | .ok _ => none

/-- File-object state carried by a failed run. -/
def errSt {α : Type} : Except (String × FileObj α) (FileObj α) → Option (FileObj α)
  | .error (_, g) => some g
  | .ok _ => none

/-- A concrete instrument defaults table (`crpix1` and `crpix2` defaults
deliberately different). -/
def dvalsX : String → Option GridDefaults := fun s =>
  if s = "ACS" then
    some ⟨.int 65, .int 33, .int 1, .flt 2048, .flt 1024, .flt 64, .flt 65,
      .flt 2048, .flt 1023⟩
  else none

/-- A concrete reference-file reader: the data array records the path and
extension it was read from. -/
def getdataX : String → String → FVal → Option String := fun p en v =>
  match v with
  | .int n => some (p ++ ":" ++ en ++ ":" ++ toString n)
  | _ => none

/-- A concrete path resolver that changes the path. -/
def osfnX : String → String := fun s => "/ref/" ++ s

def primX : Ext String :=
  ⟨[⟨"DGEOFILE", .str "x.fits", "c0"⟩, ⟨"INSTRUME", .str "ACS", "c1"⟩], none⟩

def primNoDg : Ext String := ⟨[⟨"INSTRUME", .str "ACS", "c1"⟩], none⟩

def primBad : Ext String :=
  ⟨[⟨"DGEOFILE", .str "x.fits", "c0"⟩, ⟨"INSTRUME", .str "XYZ", "c1"⟩], none⟩

def sciX1 : Ext String :=
  ⟨[⟨"EXTNAME", .str "SCI", "c2"⟩, ⟨"EXTVER", .int 1, "c3"⟩,
    ⟨"HISTORY", .str "made", "c4"⟩], some "d1"⟩

def sciX2 : Ext String :=
  ⟨[⟨"EXTNAME", .str "SCI", "c2"⟩, ⟨"EXTVER", .int 5, "c3"⟩], some "d2"⟩

def wcsdX1 : Ext String :=
  ⟨[⟨"EXTNAME", .str "WCSDVARR", "c5"⟩, ⟨"EXTVER", .int 1, "c6"⟩], some "old"⟩

def wcsdLc : Ext String :=
  ⟨[⟨"EXTNAME", .str "wcsdvarr", "c5"⟩, ⟨"EXTVER", .int 1, "c6"⟩], some "old"⟩

/-! ## Claim theorems (first batch) -/

/-- C10: when the primary header lacks `DGEOFILE`, `applyDgeoCorr` raises
before the scan and the traversal: the error surfaces with the file object
exactly as it was passed in — every header and every data array, the
primary included, is untouched. -/
theorem c10_missing_dgeofile_aborts_unchanged {α : Type}
    (osfn : String → String) (dvals : String → Option GridDefaults)
    (getdata : String → String → FVal → Option α) (f : FileObj α) (p0 : Ext α)
    (h0 : f.head? = some p0) (hnd : hdrGet p0.header "DGEOFILE" = none) :
    applyDgeoCorr osfn dvals getdata f = .error ("KeyError: DGEOFILE", f) := by
  simp only [applyDgeoCorr, h0, hnd]

theorem c10_witness :
    ([primNoDg, sciX1] : FileObj String).head? = some primNoDg ∧
    hdrGet primNoDg.header "DGEOFILE" = none ∧
    applyDgeoCorr osfnX dvalsX getdataX [primNoDg, sciX1] =
      .error ("KeyError: DGEOFILE", [primNoDg, sciX1]) :=
  ⟨rfl, rfl,
    c10_missing_dgeofile_aborts_unchanged osfnX dvalsX getdataX
      [primNoDg, sciX1] primNoDg rfl rfl⟩

/-- C3 (code bug): on a file object that already holds the `WCSDVARR`
`EXTVER=1` slot but not the `EXTVER=2` slot, the spec promises the missing
slot is appended; the code instead raises `KeyError` out of
`wcsdvarr_ind[dgeover]` because the slot dictionary is non-empty but lacks
the key `2`. -/
theorem c3_partial_slots_keyerror :
    errMsg (applyDgeoCorr osfnX dvalsX getdataX [primX, wcsdX1, sciX1]) =
      some "KeyError: wcsdvarr_ind" ∧
    (applyDgeoCorr osfnX dvalsX getdataX [primX, wcsdX1, sciX1]).isOk = false := by
  decide

/-- C6 (code bug): with no override given, the constructed lookup header's
`CRPIX2` card receives the instrument's `crpix1` default (2048), not its
`crpix2` default (1024) — `dgeo.py` line 190 assigns `crpix1` to the
`'CRPIX2'` entry. -/
theorem c6_crpix2_takes_crpix1 :
    ((createDgeoHdr dvalsX ([primX] : FileObj String) (stdKw 1)).toOption.map
      (fun h => hdrGet h "CRPIX2")) = some (some (.flt 2048)) ∧
    (dvalsX "ACS").map GridDefaults.crpix2 = some (.flt 1024) ∧
    (FVal.flt 2048) ≠ (FVal.flt 1024) := by
  decide

/-- C5 counterexample: after a successful run with a path resolver that
changes the path, the science header's `DGEOFILE` records the raw primary
value `"x.fits"`, while the data placed in the lookup extension was read
from the resolved path `"/ref/x.fits"` — so the recorded value is not
"the path that was resolved and read from". -/
theorem c5_counterexample :
    ((applyDgeoCorr osfnX dvalsX getdataX [primX, sciX1]).toOption.bind
      (fun f => (f.get? 1).map (fun e => hdrGet e.header "DGEOFILE"))) =
      some (some (.str "x.fits")) ∧
    ((applyDgeoCorr osfnX dvalsX getdataX [primX, sciX1]).toOption.bind
      (fun f => (f.get? 2).map (fun e => e.data))) =
      some (some "/ref/x.fits:DX:1") ∧
    osfnX "x.fits" ≠ "x.fits" := by
  decide

/-- C7 counterexample: with an instrument absent from the defaults table,
the run does fail before placing any extension (the file object still has
its two original extensions), but the first science extension's header has
already been modified by `addSciExtKw` at the moment the error surfaces —
contradicting "no already-existing header content has been modified". -/
theorem c7_counterexample :
    errMsg (applyDgeoCorr osfnX dvalsX getdataX [primBad, sciX1]) =
      some "KeyError: dgeo_vals" ∧
    (errSt (applyDgeoCorr osfnX dvalsX getdataX [primBad, sciX1])).map
      List.length = some 2 ∧
    ((errSt (applyDgeoCorr osfnX dvalsX getdataX [primBad, sciX1])).bind
      (fun g => g.get? 1)) ≠ some sciX1 := by
  decide

/-- C9 counterexample: an extension whose `EXTNAME` is the case variant
`"wcsdvarr"` of `"WCSDVARR"` is not recognized by the `getwcsindex` scan
(the table comes back empty), so the run appends two new extensions
instead of overwriting — the scan is case-sensitive, contradicting the
claim that it recognizes any case variant. -/
theorem c9_counterexample :
    getwcsindex ([primX, wcsdLc, sciX1] : FileObj String) = .ok [] ∧
    hdrGet wcsdLc.header "EXTNAME" = some (.str "wcsdvarr") ∧
    strLower "wcsdvarr" = strLower "WCSDVARR" ∧
    (applyDgeoCorr osfnX dvalsX getdataX [primX, wcsdLc, sciX1]).toOption.map
      List.length = some 5 := by
  decide

/-! ## Read lemmas for the fully annotated science extension -/

/-- Keys outside the twelve axis keywords and `DGEOFILE` pass through the
whole annotation untouched (value and comment). -/
theorem annotExt_get_other {α : Type} (e : Ext α) (d : Nat) (raw : FVal) (k : String)
    (h0 : k ≠ "DGEOFILE")
    (h1 : k ≠ "CPERROR1") (h2 : k ≠ "CPDIS1") (h3 : k ≠ "DP1.EXTVER")
    (h4 : k ≠ "DP1.NAXES") (h5 : k ≠ "DP1.AXIS.1") (h6 : k ≠ "DP1.AXIS.2")
    (h7 : k ≠ "CPERROR2") (h8 : k ≠ "CPDIS2") (h9 : k ≠ "DP2.EXTVER")
    (h10 : k ≠ "DP2.NAXES") (h11 : k ≠ "DP2.AXIS.1") (h12 : k ≠ "DP2.AXIS.2") :
    hdrGet (annotExt e d raw).header k = hdrGet e.header k ∧
    hdrGetComment (annotExt e d raw).header k = hdrGetComment e.header k := by
  constructor <;>
    simp only [annotExt, eFin, eHalf, addSciKws_DX, addSciKws_DY,
      hdrGet_hdrUpdate_other _ _ _ _ _ h0, hdrGet_hdrUpdate_other _ _ _ _ _ h1,
      hdrGet_hdrUpdate_other _ _ _ _ _ h2, hdrGet_hdrUpdate_other _ _ _ _ _ h3,
      hdrGet_hdrUpdate_other _ _ _ _ _ h4, hdrGet_hdrUpdate_other _ _ _ _ _ h5,
      hdrGet_hdrUpdate_other _ _ _ _ _ h6, hdrGet_hdrUpdate_other _ _ _ _ _ h7,
      hdrGet_hdrUpdate_other _ _ _ _ _ h8, hdrGet_hdrUpdate_other _ _ _ _ _ h9,
      hdrGet_hdrUpdate_other _ _ _ _ _ h10, hdrGet_hdrUpdate_other _ _ _ _ _ h11,
      hdrGet_hdrUpdate_other _ _ _ _ _ h12,
      hdrGetComment_hdrUpdate_other _ _ _ _ _ h0,
      hdrGetComment_hdrUpdate_other _ _ _ _ _ h1,
      hdrGetComment_hdrUpdate_other _ _ _ _ _ h2,
      hdrGetComment_hdrUpdate_other _ _ _ _ _ h3,
      hdrGetComment_hdrUpdate_other _ _ _ _ _ h4,
      hdrGetComment_hdrUpdate_other _ _ _ _ _ h5,
      hdrGetComment_hdrUpdate_other _ _ _ _ _ h6,
      hdrGetComment_hdrUpdate_other _ _ _ _ _ h7,
      hdrGetComment_hdrUpdate_other _ _ _ _ _ h8,
      hdrGetComment_hdrUpdate_other _ _ _ _ _ h9,
      hdrGetComment_hdrUpdate_other _ _ _ _ _ h10,
      hdrGetComment_hdrUpdate_other _ _ _ _ _ h11,
      hdrGetComment_hdrUpdate_other _ _ _ _ _ h12]

theorem annotExt_EXTNAME {α : Type} (e : Ext α) (d : Nat) (raw : FVal) :
    hdrGet (annotExt e d raw).header "EXTNAME" = hdrGet e.header "EXTNAME" :=
  (annotExt_get_other e d raw "EXTNAME" (by decide) (by decide) (by decide)
    (by decide) (by decide) (by decide) (by decide) (by decide) (by decide)
    (by decide) (by decide) (by decide) (by decide)).1

theorem annotExt_EXTVER {α : Type} (e : Ext α) (d : Nat) (raw : FVal) :
    hdrGet (annotExt e d raw).header "EXTVER" = hdrGet e.header "EXTVER" :=
  (annotExt_get_other e d raw "EXTVER" (by decide) (by decide) (by decide)
    (by decide) (by decide) (by decide) (by decide) (by decide) (by decide)
    (by decide) (by decide) (by decide) (by decide)).1

theorem annotExt_INSTRUME {α : Type} (e : Ext α) (d : Nat) (raw : FVal) :
    hdrGet (annotExt e d raw).header "INSTRUME" = hdrGet e.header "INSTRUME" :=
  (annotExt_get_other e d raw "INSTRUME" (by decide) (by decide) (by decide)
    (by decide) (by decide) (by decide) (by decide) (by decide) (by decide)
    (by decide) (by decide) (by decide) (by decide)).1

theorem annotExt_data {α : Type} (e : Ext α) (d : Nat) (raw : FVal) :
    (annotExt e d raw).data = e.data := by
  simp only [annotExt, eFin, eHalf]

theorem annotExt_isSci {α : Type} (e : Ext α) (d : Nat) (raw : FVal) :
    isSci (annotExt e d raw) = isSci e := by
  unfold isSci
  rw [annotExt_EXTNAME]

theorem annotExt_isWcsd {α : Type} (e : Ext α) (d : Nat) (raw : FVal) :
    isWcsd (annotExt e d raw) = isWcsd e := by
  unfold isWcsd
  rw [annotExt_EXTNAME]

theorem annotExt_cperror1 {α : Type} (e : Ext α) (d : Nat) (raw : FVal) :
    hdrGet (annotExt e d raw).header "CPERROR1" = some (.flt 0) ∧
    hdrGetComment (annotExt e d raw).header "CPERROR1" = some (cperrComment (d + 1)) := by
  constructor <;>
    simp +decide [annotExt, eFin, eHalf, addSciKws_DX, addSciKws_DY,
      hdrGet_hdrUpdate_other, hdrGet_hdrUpdate_self,
      hdrGetComment_hdrUpdate_other, hdrGetComment_hdrUpdate_self]

theorem annotExt_cpdis1 {α : Type} (e : Ext α) (d : Nat) (raw : FVal) :
    hdrGet (annotExt e d raw).header "CPDIS1" = some (.str "Lookup") ∧
    hdrGetComment (annotExt e d raw).header "CPDIS1" = some "Prior distortion funcion type" := by
  constructor <;>
    simp +decide [annotExt, eFin, eHalf, addSciKws_DX, addSciKws_DY,
      hdrGet_hdrUpdate_other, hdrGet_hdrUpdate_self,
      hdrGetComment_hdrUpdate_other, hdrGetComment_hdrUpdate_self]

theorem annotExt_dp1extver {α : Type} (e : Ext α) (d : Nat) (raw : FVal) :
    hdrGet (annotExt e d raw).header "DP1.EXTVER" = some (.int (d + 1)) ∧
    hdrGetComment (annotExt e d raw).header "DP1.EXTVER" = some "Version number of WCSDVARR extension containing lookup distortion table" := by
  constructor <;>
    simp +decide [annotExt, eFin, eHalf, addSciKws_DX, addSciKws_DY,
      hdrGet_hdrUpdate_other, hdrGet_hdrUpdate_self,
      hdrGetComment_hdrUpdate_other, hdrGetComment_hdrUpdate_self]

theorem annotExt_dp1naxes {α : Type} (e : Ext α) (d : Nat) (raw : FVal) :
    hdrGet (annotExt e d raw).header "DP1.NAXES" = some (.int 2) ∧
    hdrGetComment (annotExt e d raw).header "DP1.NAXES" = some "Number of independent variables in distortion function" := by
  constructor <;>
    simp +decide [annotExt, eFin, eHalf, addSciKws_DX, addSciKws_DY,
      hdrGet_hdrUpdate_other, hdrGet_hdrUpdate_self,
      hdrGetComment_hdrUpdate_other, hdrGetComment_hdrUpdate_self]

theorem annotExt_dp1axis1 {α : Type} (e : Ext α) (d : Nat) (raw : FVal) :
    hdrGet (annotExt e d raw).header "DP1.AXIS.1" = some (.int 1) ∧
    hdrGetComment (annotExt e d raw).header "DP1.AXIS.1" = some "Axis number of the jth independent variable in a distortion function" := by
  constructor <;>
    simp +decide [annotExt, eFin, eHalf, addSciKws_DX, addSciKws_DY,
      hdrGet_hdrUpdate_other, hdrGet_hdrUpdate_self,
      hdrGetComment_hdrUpdate_other, hdrGetComment_hdrUpdate_self]

theorem annotExt_dp1axis2 {α : Type} (e : Ext α) (d : Nat) (raw : FVal) :
    hdrGet (annotExt e d raw).header "DP1.AXIS.2" = some (.int 2) ∧
    hdrGetComment (annotExt e d raw).header "DP1.AXIS.2" = some "Axis number of the jth independent variable in a distortion function" := by
  constructor <;>
    simp +decide [annotExt, eFin, eHalf, addSciKws_DX, addSciKws_DY,
      hdrGet_hdrUpdate_other, hdrGet_hdrUpdate_self,
      hdrGetComment_hdrUpdate_other, hdrGetComment_hdrUpdate_self]

theorem annotExt_cperror2 {α : Type} (e : Ext α) (d : Nat) (raw : FVal) :
    hdrGet (annotExt e d raw).header "CPERROR2" = some (.flt 0) ∧
    hdrGetComment (annotExt e d raw).header "CPERROR2" = some (cperrComment (d + 2)) := by
  constructor <;>
    simp +decide [annotExt, eFin, eHalf, addSciKws_DX, addSciKws_DY,
      hdrGet_hdrUpdate_other, hdrGet_hdrUpdate_self,
      hdrGetComment_hdrUpdate_other, hdrGetComment_hdrUpdate_self]

theorem annotExt_cpdis2 {α : Type} (e : Ext α) (d : Nat) (raw : FVal) :
    hdrGet (annotExt e d raw).header "CPDIS2" = some (.str "Lookup") ∧
    hdrGetComment (annotExt e d raw).header "CPDIS2" = some "Prior distortion funcion type" := by
  constructor <;>
    simp +decide [annotExt, eFin, eHalf, addSciKws_DX, addSciKws_DY,
      hdrGet_hdrUpdate_other, hdrGet_hdrUpdate_self,
      hdrGetComment_hdrUpdate_other, hdrGetComment_hdrUpdate_self]

theorem annotExt_dp2extver {α : Type} (e : Ext α) (d : Nat) (raw : FVal) :
    hdrGet (annotExt e d raw).header "DP2.EXTVER" = some (.int (d + 2)) ∧
    hdrGetComment (annotExt e d raw).header "DP2.EXTVER" = some "Version number of WCSDVARR extension containing lookup distortion table" := by
  constructor <;>
    simp +decide [annotExt, eFin, eHalf, addSciKws_DX, addSciKws_DY,
      hdrGet_hdrUpdate_other, hdrGet_hdrUpdate_self,
      hdrGetComment_hdrUpdate_other, hdrGetComment_hdrUpdate_self]

theorem annotExt_dp2naxes {α : Type} (e : Ext α) (d : Nat) (raw : FVal) :
    hdrGet (annotExt e d raw).header "DP2.NAXES" = some (.int 2) ∧
    hdrGetComment (annotExt e d raw).header "DP2.NAXES" = some "Number of independent variables in distortion function" := by
  constructor <;>
    simp +decide [annotExt, eFin, eHalf, addSciKws_DX, addSciKws_DY,
      hdrGet_hdrUpdate_other, hdrGet_hdrUpdate_self,
      hdrGetComment_hdrUpdate_other, hdrGetComment_hdrUpdate_self]

theorem annotExt_dp2axis1 {α : Type} (e : Ext α) (d : Nat) (raw : FVal) :
    hdrGet (annotExt e d raw).header "DP2.AXIS.1" = some (.int 1) ∧
    hdrGetComment (annotExt e d raw).header "DP2.AXIS.1" = some "Axis number of the jth independent variable in a distortion function" := by
  constructor <;>
    simp +decide [annotExt, eFin, eHalf, addSciKws_DX, addSciKws_DY,
      hdrGet_hdrUpdate_other, hdrGet_hdrUpdate_self,
      hdrGetComment_hdrUpdate_other, hdrGetComment_hdrUpdate_self]

theorem annotExt_dp2axis2 {α : Type} (e : Ext α) (d : Nat) (raw : FVal) :
    hdrGet (annotExt e d raw).header "DP2.AXIS.2" = some (.int 2) ∧
    hdrGetComment (annotExt e d raw).header "DP2.AXIS.2" = some "Axis number of the jth independent variable in a distortion function" := by
  constructor <;>
    simp +decide [annotExt, eFin, eHalf, addSciKws_DX, addSciKws_DY,
      hdrGet_hdrUpdate_other, hdrGet_hdrUpdate_self,
      hdrGetComment_hdrUpdate_other, hdrGetComment_hdrUpdate_self]

theorem annotExt_dgeofile {α : Type} (e : Ext α) (d : Nat) (raw : FVal) :
    hdrGet (annotExt e d raw).header "DGEOFILE" = some raw ∧
    hdrGetComment (annotExt e d raw).header "DGEOFILE" = some dgfComment := by
  constructor <;>
    simp +decide [annotExt, eFin, eHalf, addSciKws_DX, addSciKws_DY,
      hdrGet_hdrUpdate_other, hdrGet_hdrUpdate_self,
      hdrGetComment_hdrUpdate_other, hdrGetComment_hdrUpdate_self]

/-! ## Counting and list utilities -/

theorem setSame {β : Type} (l : List β) (q : Nat) (x : β)
    (h : l.get? q = some x) : l.set q x = l := by
  induction l generalizing q with
  | nil => rfl
  | cons a rest ih =>
    cases q with
    | zero =>
      have : a = x := Option.some.inj h
      rw [List.set]
      rw [this]
    | succ m =>
      rw [List.set]
      rw [ih m h]

theorem csb_of_le {α : Type} (g : FileObj α) (i j : Nat) (h : j ≤ i) :
    csb g i j = 0 := by
  unfold csb
  rw [List.length_eq_zero]
  rw [List.filter_eq_nil_iff]
  intro q hq
  have hqj : q < j := List.mem_range.1 hq
  simp only [Bool.and_eq_true, decide_eq_true_eq]
  intro hcon
  omega

theorem csb_succ_right {α : Type} (g : FileObj α) (i j : Nat) :
    csb g i (j + 1) = csb g i j + (if i ≤ j ∧ sciAt g j then 1 else 0) := by
  unfold csb
  rw [List.range_succ, List.filter_append, List.length_append]
  by_cases hc : i ≤ j ∧ sciAt g j
  · simp [hc.1, hc.2]
  · rw [if_neg hc]
    have : ¬ (decide (i ≤ j) && sciAt g j) = true := by
      simp only [Bool.and_eq_true, decide_eq_true_eq]
      exact hc
    simp [this]

theorem csb_left_step {α : Type} (g : FileObj α) (i j : Nat) (hij : i < j) :
    csb g i j = (if sciAt g i then 1 else 0) + csb g (i + 1) j := by
  induction j with
  | zero => omega
  | succ m ih =>
    by_cases him : i < m
    · rw [csb_succ_right, csb_succ_right, ih him]
      by_cases hs : sciAt g m = true
      · have e1 : (if i ≤ m ∧ sciAt g m = true then 1 else 0) = 1 :=
          if_pos ⟨by omega, hs⟩
        have e2 : (if i + 1 ≤ m ∧ sciAt g m = true then 1 else 0) = 1 :=
          if_pos ⟨by omega, hs⟩
        rw [e1, e2]
        omega
      · have e1 : (if i ≤ m ∧ sciAt g m = true then 1 else 0) = 0 :=
          if_neg (fun hq => hs hq.2)
        have e2 : (if i + 1 ≤ m ∧ sciAt g m = true then 1 else 0) = 0 :=
          if_neg (fun hq => hs hq.2)
        rw [e1, e2]
        omega
    · have him' : i = m := by omega
      subst him'
      rw [csb_succ_right, csb_succ_right, csb_of_le g i i le_rfl,
        csb_of_le g (i + 1) i (by omega)]
      have e2 : (if i + 1 ≤ i ∧ sciAt g i = true then 1 else 0) = 0 :=
        if_neg (fun hq => by omega)
      rw [e2]
      by_cases hs : sciAt g i = true
      · have e1 : (if i ≤ i ∧ sciAt g i = true then 1 else 0) = 1 :=
          if_pos ⟨le_rfl, hs⟩
        rw [e1, if_pos hs]
      · have e1 : (if i ≤ i ∧ sciAt g i = true then 1 else 0) = 0 :=
          if_neg (fun hq => hs hq.2)
        rw [e1, if_neg hs]

theorem csb_congr {α : Type} (g g' : FileObj α) (i j : Nat)
    (h : ∀ q, i ≤ q → q < j → sciAt g' q = sciAt g q) :
    csb g' i j = csb g i j := by
  unfold csb
  have : ∀ q ∈ List.range j,
      (decide (i ≤ q) && sciAt g' q) = (decide (i ≤ q) && sciAt g q) := by
    intro q hq
    have hqj : q < j := List.mem_range.1 hq
    by_cases hiq : i ≤ q
    · rw [h q hiq hqj]
    · simp [hiq]
  rw [List.filter_congr this]

theorem sciCountFrom_of_ge {α : Type} (g : FileObj α) (i : Nat)
    (h : g.length ≤ i) : sciCountFrom g i = 0 := by
  unfold sciCountFrom
  rw [List.drop_eq_nil_of_le h]
  rfl

theorem sciCountFrom_step {α : Type} (g : FileObj α) (i : Nat) (e : Ext α)
    (hg : g.get? i = some e) :
    sciCountFrom g i = (if isSci e then 1 else 0) + sciCountFrom g (i + 1) := by
  have hil : i < g.length := get?_some_lt g i e hg
  have hge : g[i] = e := by
    rw [List.get?_eq_getElem?] at hg
    exact Option.some.inj ((List.getElem?_eq_getElem hil).symm.trans hg)
  unfold sciCountFrom
  rw [List.drop_eq_getElem_cons hil, hge, List.filter_cons]
  by_cases hs : isSci e = true
  · simp [hs]
    omega
  · simp [hs]

/-- The `getwcsindex` scan only records positions whose extension is named
exactly `'WCSDVARR'` (stated with a running offset). -/
theorem getwcsindexAux_sound {α : Type} (l : FileObj α) (i0 : Nat)
    (w : List (FVal × Nat)) (hs : getwcsindexAux l i0 = .ok w) :
    ∀ kv ∈ w, i0 ≤ kv.2 ∧ ∃ e, l.get? (kv.2 - i0) = some e ∧
      hdrGet e.header "EXTNAME" = some (.str "WCSDVARR") ∧
      hdrGet e.header "EXTVER" = some kv.1 := by
  induction l generalizing i0 w with
  | nil =>
    simp only [getwcsindexAux] at hs
    intro kv hkv
    rw [← Except.ok.inj hs] at hkv
    exact absurd hkv (List.not_mem_nil kv)
  | cons e rest ih =>
    intro kv hkv
    rcases hname : hdrGet e.header "EXTNAME" with _ | nv
    · rw [getwcsindexAux, hname] at hs
      obtain ⟨h1, e', h2, h3, h4⟩ := ih (i0 + 1) w hs kv hkv
      refine ⟨by omega, e', ?_, h3, h4⟩
      have : kv.2 - i0 = (kv.2 - (i0 + 1)) + 1 := by omega
      rw [this]
      exact h2
    · by_cases hw : nv = .str "WCSDVARR"
      · subst hw
        rcases hver : hdrGet e.header "EXTVER" with _ | kvv
        · simp only [getwcsindexAux, hname] at hs
          simp only [hver] at hs
          exact absurd hs (by simp)
        · simp only [getwcsindexAux, hname] at hs
          simp only [hver] at hs
          cases hrest : getwcsindexAux rest (i0 + 1) with
          | error m => rw [hrest] at hs; exact absurd hs (by simp)
          | ok w' =>
            rw [hrest] at hs
            have hw' : (kvv, i0) :: w' = w := Except.ok.inj hs
            rw [← hw'] at hkv
            rcases List.mem_cons.1 hkv with hkv | hkv
            · subst hkv
              refine ⟨le_rfl, e, ?_, hname, hver⟩
              simp
            · obtain ⟨h1, e', h2, h3, h4⟩ := ih (i0 + 1) w' hrest kv hkv
              refine ⟨by omega, e', ?_, h3, h4⟩
              have : kv.2 - i0 = (kv.2 - (i0 + 1)) + 1 := by omega
              rw [this]
              exact h2
      · simp only [getwcsindexAux, hname] at hs
        rw [if_neg hw] at hs
        obtain ⟨h1, e', h2, h3, h4⟩ := ih (i0 + 1) w hs kv hkv
        refine ⟨by omega, e', ?_, h3, h4⟩
        have : kv.2 - i0 = (kv.2 - (i0 + 1)) + 1 := by omega
        rw [this]
        exact h2

/-- A successful scan yields a table pointing only at exactly-`'WCSDVARR'`
extensions. -/
theorem getwcsindex_windOK {α : Type} (f : FileObj α) (w : List (FVal × Nat))
    (hs : getwcsindex f = .ok w) : WindOK w f := by
  intro kv hkv
  obtain ⟨h1, e, h2, h3, h4⟩ := getwcsindexAux_sound f 0 w hs kv hkv
  exact ⟨e, by simpa using h2, h3⟩

/-- On a file with no exactly-`'WCSDVARR'` extension the scan succeeds and
comes back empty. -/
theorem getwcsindexAux_nil {α : Type} (l : FileObj α) (i0 : Nat)
    (h : ∀ e ∈ l, hdrGet e.header "EXTNAME" ≠ some (.str "WCSDVARR")) :
    getwcsindexAux l i0 = .ok [] := by
  induction l generalizing i0 with
  | nil => rfl
  | cons e rest ih =>
    have hrest : ∀ e' ∈ rest, hdrGet e'.header "EXTNAME" ≠ some (.str "WCSDVARR") :=
      fun e' he' => h e' (List.mem_cons_of_mem e he')
    rcases hname : hdrGet e.header "EXTNAME" with _ | nv
    · rw [getwcsindexAux, hname]
      exact ih (i0 + 1) hrest
    · have hnw : ¬ nv = .str "WCSDVARR" := by
        intro hq
        exact h e (List.mem_cons_self e rest) (by rw [hname, hq])
      simp only [getwcsindexAux, hname]
      rw [if_neg hnw]
      exact ih (i0 + 1) hrest

/-! ## Position, lookup-table and counting utilities -/

theorem get?_none_mono {β : Type} (l : List β) (i j : Nat)
    (h : l.get? i = none) (hij : i ≤ j) : l.get? j = none := by
  rw [List.get?_eq_none] at h ⊢
  omega

theorem sciAt_of_get {α : Type} (g : FileObj α) (q : Nat) (e : Ext α)
    (hg : g.get? q = some e) : sciAt g q = isSci e := by
  simp only [sciAt, hg]

theorem sciAt_none {α : Type} (g : FileObj α) (q : Nat)
    (hg : g.get? q = none) : sciAt g q = false := by
  simp only [sciAt, hg]

theorem wcsd_skippable {α : Type} (e : Ext α)
    (hw : hdrGet e.header "EXTNAME" = some (.str "WCSDVARR")) :
    skippable e = true := by
  simp only [skippable, hw]
  decide

theorem mkHdu_skippable {α : Type} (iv : GridDefaults) (d : Nat) (dat : α) :
    skippable (mkHdu iv d dat) = true :=
  wcsd_skippable _ (by rw [mkHdu_header]; exact lookupHdr_get_EXTNAME iv d)

/-- The primary header's value for a keyword (`self.fobj[0].header[k]`). -/
def hdrGetPrim {α : Type} (g : FileObj α) (k : String) : Option FVal :=
  match g.get? 0 with
  | some p => hdrGet p.header k
  | none => none

theorem hdrGetPrim_of_get {α : Type} (g : FileObj α) (p0 : Ext α) (k : String)
    (h0 : g.get? 0 = some p0) : hdrGetPrim g k = hdrGet p0.header k := by
  simp only [hdrGetPrim, h0]

theorem dictLookup_nil (k : FVal) : dictLookup [] k = none := rfl

theorem dictLookup_ne_nil (w : List (FVal × Nat)) (k : FVal) (p : Nat)
    (h : dictLookup w k = some p) : w ≠ [] := by
  intro hw
  subst hw
  exact Option.noConfusion h

/-- In a list of pairs with strictly increasing second components, the
second component determines the entry. -/
theorem pairwise_snd_inj (w : List (FVal × Nat))
    (hpw : w.Pairwise (fun a b => a.2 < b.2)) :
    ∀ a ∈ w, ∀ b ∈ w, a.2 = b.2 → a = b := by
  induction w with
  | nil =>
    intro a ha
    exact absurd ha (List.not_mem_nil a)
  | cons x rest ih =>
    rw [List.pairwise_cons] at hpw
    intro a ha b hb hab
    rcases List.mem_cons.1 ha with ha1 | ha1
    · rcases List.mem_cons.1 hb with hb1 | hb1
      · rw [ha1, hb1]
      · rw [ha1] at hab ⊢
        have := hpw.1 b hb1
        omega
    · rcases List.mem_cons.1 hb with hb1 | hb1
      · rw [hb1] at hab ⊢
        have := hpw.1 a ha1
        omega
      · exact ih hpw.2 a ha1 b hb1 hab

/-- The last entry of a strictly position-sorted list bounds every entry. -/
theorem getLast?_max (l : List (FVal × Nat))
    (hpw : l.Pairwise (fun a b => a.2 < b.2)) (g : FVal × Nat)
    (hg : l.getLast? = some g) : ∀ x ∈ l, x.2 ≤ g.2 := by
  induction l with
  | nil => exact absurd hg (by simp)
  | cons a rest ih =>
    rw [List.pairwise_cons] at hpw
    intro x hx
    cases rest with
    | nil =>
      have hag : a = g := by
        rw [List.getLast?_singleton] at hg
        exact Option.some.inj hg
      rcases List.mem_cons.1 hx with hx | hx
      · rw [hx, hag]
      · exact absurd hx (List.not_mem_nil x)
    | cons b rest' =>
      have hg' : (b :: rest').getLast? = some g := by
        rw [List.getLast?_cons_cons] at hg
        exact hg
      rcases List.mem_cons.1 hx with hx | hx
      · subst hx
        have hgm : g ∈ b :: rest' := List.mem_of_mem_getLast? hg'
        have := hpw.1 g hgm
        omega
      · exact ih hpw.2 hg' x hx

/-- A Python-dict lookup in a strictly position-sorted scan table returns
the entry with the largest position for the key. -/
theorem dictLookup_ge (w : List (FVal × Nat)) (k : FVal) (p q : Nat)
    (hpw : w.Pairwise (fun a b => a.2 < b.2))
    (hmem : (k, q) ∈ w) (hdl : dictLookup w k = some p) : q ≤ p := by
  unfold dictLookup at hdl
  cases hg : (w.filter (fun r => r.1 = k)).getLast? with
  | none =>
    rw [hg] at hdl
    exact absurd hdl (by simp)
  | some kv =>
    rw [hg] at hdl
    have hp : kv.2 = p := Option.some.inj hdl
    have hpwf : (w.filter (fun r => decide (r.1 = k))).Pairwise
        (fun a b => a.2 < b.2) := hpw.filter _
    have hmf : (k, q) ∈ w.filter (fun r => decide (r.1 = k)) :=
      List.mem_filter.2 ⟨hmem, by simp⟩
    have := getLast?_max _ hpwf kv hg (k, q) hmf
    omega

/-- Two keys whose lookups land on the same position are equal (the scan
table has one entry per position). -/
theorem dictLookup_key_unique (w : List (FVal × Nat)) (k1 k2 : FVal) (p : Nat)
    (hpw : w.Pairwise (fun a b => a.2 < b.2))
    (h1 : dictLookup w k1 = some p) (h2 : dictLookup w k2 = some p) : k1 = k2 := by
  obtain ⟨kv1, hm1, hk1, hp1⟩ := dictLookup_mem w k1 p h1
  obtain ⟨kv2, hm2, hk2, hp2⟩ := dictLookup_mem w k2 p h2
  have h12 : kv1 = kv2 := pairwise_snd_inj w hpw kv1 hm1 kv2 hm2 (by omega)
  rw [← hk1, h12, hk2]

/-- The scan table lists positions in strictly increasing order. -/
theorem getwcsindexAux_pairwise {α : Type} (l : FileObj α) (i0 : Nat)
    (w : List (FVal × Nat)) (hs : getwcsindexAux l i0 = .ok w) :
    w.Pairwise (fun a b => a.2 < b.2) := by
  induction l generalizing i0 w with
  | nil =>
    simp only [getwcsindexAux] at hs
    rw [← Except.ok.inj hs]
    exact List.Pairwise.nil
  | cons e rest ih =>
    rcases hname : hdrGet e.header "EXTNAME" with _ | nv
    · simp only [getwcsindexAux, hname] at hs
      exact ih (i0 + 1) w hs
    · by_cases hw : nv = .str "WCSDVARR"
      · subst hw
        rcases hver : hdrGet e.header "EXTVER" with _ | kvv
        · simp only [getwcsindexAux, hname] at hs
          simp only [hver] at hs
          exact absurd hs (by simp)
        · simp only [getwcsindexAux, hname] at hs
          simp only [hver] at hs
          cases hrest : getwcsindexAux rest (i0 + 1) with
          | error m =>
            rw [hrest] at hs
            exact absurd hs (by simp)
          | ok w' =>
            rw [hrest] at hs
            rw [← Except.ok.inj hs]
            rw [List.pairwise_cons]
            refine ⟨?_, ih (i0 + 1) w' hrest⟩
            intro b hb
            have := (getwcsindexAux_sound rest (i0 + 1) w' hrest b hb).1
            omega
      · simp only [getwcsindexAux, hname] at hs
        rw [if_neg hw] at hs
        exact ih (i0 + 1) w hs

/-- Completeness of the scan: every exactly-named `'WCSDVARR'` extension
with an `EXTVER` keyword appears in the table. -/
theorem getwcsindexAux_complete {α : Type} (l : FileObj α) :
    ∀ i0 w, getwcsindexAux l i0 = .ok w →
    ∀ t e, l.get? t = some e →
      hdrGet e.header "EXTNAME" = some (.str "WCSDVARR") →
      ∀ kv, hdrGet e.header "EXTVER" = some kv → (kv, i0 + t) ∈ w := by
  induction l with
  | nil =>
    intro i0 w hs t e hg
    exact absurd hg (by simp)
  | cons e0 rest ih =>
    intro i0 w hs t e hg hw kv hv
    cases t with
    | zero =>
      have he : e0 = e := Option.some.inj hg
      subst he
      simp only [getwcsindexAux, hw] at hs
      simp only [hv] at hs
      cases hrest : getwcsindexAux rest (i0 + 1) with
      | error m =>
        rw [hrest] at hs
        exact absurd hs (by simp)
      | ok w' =>
        rw [hrest] at hs
        rw [← Except.ok.inj hs]
        simp
    | succ t' =>
      rw [List.get?_cons_succ] at hg
      rcases hname : hdrGet e0.header "EXTNAME" with _ | nv
      · simp only [getwcsindexAux, hname] at hs
        have hmem := ih (i0 + 1) w hs t' e hg hw kv hv
        have harith : i0 + 1 + t' = i0 + (t' + 1) := by omega
        rw [harith] at hmem
        exact hmem
      · by_cases hnw : nv = .str "WCSDVARR"
        · subst hnw
          rcases hver : hdrGet e0.header "EXTVER" with _ | kv0
          · simp only [getwcsindexAux, hname] at hs
            simp only [hver] at hs
            exact absurd hs (by simp)
          · simp only [getwcsindexAux, hname] at hs
            simp only [hver] at hs
            cases hrest : getwcsindexAux rest (i0 + 1) with
            | error m =>
              rw [hrest] at hs
              exact absurd hs (by simp)
            | ok w' =>
              rw [hrest] at hs
              rw [← Except.ok.inj hs]
              have hmem := ih (i0 + 1) w' hrest t' e hg hw kv hv
              have harith : i0 + 1 + t' = i0 + (t' + 1) := by omega
              rw [harith] at hmem
              exact List.mem_cons_of_mem _ hmem
        · simp only [getwcsindexAux, hname] at hs
          rw [if_neg hnw] at hs
          have hmem := ih (i0 + 1) w hs t' e hg hw kv hv
          have harith : i0 + 1 + t' = i0 + (t' + 1) := by omega
          rw [harith] at hmem
          exact hmem

/-- The scan succeeds whenever every exactly-named `'WCSDVARR'` extension
carries `EXTVER`. -/
theorem getwcsindexAux_ok_exists {α : Type} (l : FileObj α) :
    ∀ i0, (∀ e ∈ l, hdrGet e.header "EXTNAME" = some (.str "WCSDVARR") →
      (hdrGet e.header "EXTVER").isSome) →
    ∃ w, getwcsindexAux l i0 = .ok w := by
  induction l with
  | nil => exact fun i0 _ => ⟨[], rfl⟩
  | cons e rest ih =>
    intro i0 h
    obtain ⟨w', hw'⟩ := ih (i0 + 1) (fun e' he' => h e' (List.mem_cons_of_mem e he'))
    rcases hname : hdrGet e.header "EXTNAME" with _ | nv
    · exact ⟨w', by simp only [getwcsindexAux, hname]; exact hw'⟩
    · by_cases hnw : nv = .str "WCSDVARR"
      · subst hnw
        have hv : (hdrGet e.header "EXTVER").isSome :=
          h e (List.mem_cons_self e rest) hname
        rcases hver : hdrGet e.header "EXTVER" with _ | kv
        · rw [hver] at hv
          exact absurd hv (by simp)
        · refine ⟨(kv, i0) :: w', ?_⟩
          simp only [getwcsindexAux, hname]
          simp only [hver, hw', if_true]
      · exact ⟨w', by simp only [getwcsindexAux, hname]; rw [if_neg hnw]; exact hw'⟩

/-- An empty scan result means no extension is exactly named `'WCSDVARR'`. -/
theorem getwcsindexAux_nil_inv {α : Type} (l : FileObj α) :
    ∀ i0, getwcsindexAux l i0 = .ok [] →
    ∀ e ∈ l, hdrGet e.header "EXTNAME" ≠ some (.str "WCSDVARR") := by
  induction l with
  | nil =>
    intro i0 hs e he
    exact absurd he (List.not_mem_nil e)
  | cons e0 rest ih =>
    intro i0 hs e he hw
    rcases List.mem_cons.1 he with he | he
    · subst he
      simp only [getwcsindexAux, hw] at hs
      rcases hver : hdrGet e.header "EXTVER" with _ | kv
      · simp only [hver] at hs
        exact absurd hs (by simp)
      · simp only [hver] at hs
        cases hrest : getwcsindexAux rest (i0 + 1) with
        | error m =>
          rw [hrest] at hs
          exact absurd hs (by simp)
        | ok w' =>
          rw [hrest] at hs
          exact absurd (Except.ok.inj hs) (by simp)
    · rcases hname : hdrGet e0.header "EXTNAME" with _ | nv
      · simp only [getwcsindexAux, hname] at hs
        exact ih (i0 + 1) hs e he hw
      · by_cases hnw : nv = .str "WCSDVARR"
        · subst hnw
          rcases hver : hdrGet e0.header "EXTVER" with _ | kv
          · simp only [getwcsindexAux, hname] at hs
            simp only [hver] at hs
            exact absurd hs (by simp)
          · simp only [getwcsindexAux, hname] at hs
            simp only [hver] at hs
            cases hrest : getwcsindexAux rest (i0 + 1) with
            | error m =>
              rw [hrest] at hs
              exact absurd hs (by simp)
            | ok w' =>
              rw [hrest] at hs
              exact absurd (Except.ok.inj hs) (by simp)
        · simp only [getwcsindexAux, hname] at hs
          rw [if_neg hnw] at hs
          exact ih (i0 + 1) hs e he hw

theorem sciCountFrom_succ {α : Type} (g : FileObj α) (q : Nat) :
    sciCountFrom g q = (if sciAt g q then 1 else 0) + sciCountFrom g (q + 1) := by
  cases hg : g.get? q with
  | none =>
    have hlen : g.length ≤ q := List.get?_eq_none.1 hg
    rw [sciAt_none g q hg, sciCountFrom_of_ge g q hlen,
      sciCountFrom_of_ge g (q + 1) (by omega)]
    simp
  | some e =>
    rw [sciCountFrom_step g q e hg, sciAt_of_get g q e hg]

theorem csb_add_sciCF {α : Type} (g : FileObj α) (i q : Nat) (h : i ≤ q) :
    csb g i q + sciCountFrom g q = sciCountFrom g i := by
  induction q with
  | zero =>
    have hi : i = 0 := by omega
    subst hi
    rw [csb_of_le g 0 0 le_rfl]
    omega
  | succ m ih =>
    by_cases him : i ≤ m
    · have h1 := ih him
      rw [csb_succ_right]
      by_cases hs : sciAt g m = true
      · rw [if_pos ⟨him, hs⟩]
        rw [sciCountFrom_succ g m, if_pos hs] at h1
        omega
      · rw [if_neg (fun hq => hs hq.2)]
        rw [sciCountFrom_succ g m, if_neg hs] at h1
        omega
    · have hi : i = m + 1 := by omega
      subst hi
      rw [csb_of_le g (m + 1) (m + 1) le_rfl]
      omega

theorem csb_lt_sciCF {α : Type} (g : FileObj α) (i q : Nat) (h : i ≤ q)
    (hs : sciAt g q = true) : csb g i q < sciCountFrom g i := by
  have h1 := csb_add_sciCF g i q h
  have h2 : 1 ≤ sciCountFrom g q := by
    cases hg : g.get? q with
    | none => rw [sciAt_none g q hg] at hs; exact absurd hs (by simp)
    | some e =>
      rw [sciCountFrom_step g q e hg]
      rw [sciAt_of_get g q e hg] at hs
      rw [hs, if_pos rfl]
      omega
  omega


/-! ## List-access helpers for the placement shapes -/

theorem get?_append2_lt {β : Type} (l : List β) (a b : β) (q : Nat)
    (hq : q < l.length) : (l ++ [a, b]).get? q = l.get? q := by
  rw [List.get?_eq_getElem?, List.get?_eq_getElem?, List.getElem?_append_left hq]

theorem get?_append2_fst {β : Type} (l : List β) (a b : β) :
    (l ++ [a, b]).get? l.length = some a := by
  rw [List.get?_eq_getElem?, List.getElem?_append_right le_rfl]
  simp

theorem get?_append2_snd {β : Type} (l : List β) (a b : β) :
    (l ++ [a, b]).get? (l.length + 1) = some b := by
  rw [List.get?_eq_getElem?, List.getElem?_append_right (by omega)]
  simp

theorem get?_append2_ge {β : Type} (l : List β) (a b : β) (q : Nat)
    (hq : l.length + 2 ≤ q) : (l ++ [a, b]).get? q = none := by
  rw [List.get?_eq_none]
  simp only [List.length_append, List.length_cons, List.length_nil]
  omega

theorem get?_set_self {β : Type} (l : List β) (i : Nat) (x : β)
    (hi : i < l.length) : (l.set i x).get? i = some x := by
  rw [List.get?_eq_getElem?]
  simp [List.getElem?_set_self', hi]

theorem get?_set_other {β : Type} (l : List β) (i : Nat) (x : β) (q : Nat)
    (hq : i ≠ q) : (l.set i x).get? q = l.get? q := by
  rw [List.get?_eq_getElem?, List.getElem?_set_ne hq, ← List.get?_eq_getElem?]

/-! ## Consolidated effects of one science iteration -/

/-- Everything later run-level arguments need about one successful science
iteration: the annotated slot, frame preservation, invariant preservation,
the science-position map, the overwrite/append alternative per position,
primary-`INSTRUME` invariance and the length accounting. -/
theorem sciStep_effects {α : Type} (dvals : String → Option GridDefaults)
    (getdata : String → String → FVal → Option α) (dgfile : String)
    (wind : List (FVal × Nat)) (i d : Nat) (xv : FVal)
    (g gE : FileObj α) (e : Ext α) (raw : FVal)
    (hg : g.get? i = some e) (hsci : isSci e = true)
    (hraw : PrimVal g raw) (hwind : WindOK wind g)
    (hok : sciStep dvals getdata dgfile wind i d xv g = .ok gE) :
    gE.get? i = some (annotExt e d raw) ∧
    (∀ q eq, q ≠ i → g.get? q = some eq →
      hdrGet eq.header "EXTNAME" ≠ some (.str "WCSDVARR") → gE.get? q = some eq) ∧
    PrimVal gE raw ∧
    WindOK wind gE ∧
    (∀ q, sciAt gE q = sciAt g q) ∧
    (∀ q eq, q ≠ i → g.get? q = some eq →
      gE.get? q = some eq ∨ (hdrGet eq.header "EXTNAME" = some (.str "WCSDVARR") ∧
        ∃ jv jd jdat, gE.get? q = some (mkHdu jv jd jdat))) ∧
    hdrGetPrim gE "INSTRUME" = hdrGetPrim g "INSTRUME" ∧
    g.length ≤ gE.length ∧
    (wind = [] → gE.length = g.length + 2) ∧
    (wind ≠ [] → gE.length = g.length) := by
  obtain ⟨ins, iv, dat1, dat2, ⟨pA, hpA, hpAins⟩, hiv, hd1, hd2, hshape⟩ :=
    sciStep_ok_char dvals getdata dgfile wind i d xv g gE e raw hg hsci hraw hwind hok
  obtain ⟨p0, hp0, hdg0⟩ := hraw
  have hil : i < g.length := get?_some_lt g i e hg
  have hsetlen : (g.set i (annotExt e d raw)).length = g.length := List.length_set g i _
  rcases hshape with ⟨hwe, hgEeq⟩ | ⟨p1, p2, hwne, hdl1, hdl2, hp1i, hp2i, hp10,
    hp20, hp1lt, hp2lt, hgEeq⟩
  · -- append mode
    subst hwe
    subst hgEeq
    have hEi : (g.set i (annotExt e d raw) ++
        [mkHdu iv (d + 1) dat1, mkHdu iv (d + 2) dat2]).get? i =
        some (annotExt e d raw) := by
      rw [get?_append2_lt _ _ _ i (by rw [hsetlen]; exact hil)]
      exact get?_set_self g i _ hil
    have hpresv : ∀ q, q ≠ i → (g.set i (annotExt e d raw) ++
        [mkHdu iv (d + 1) dat1, mkHdu iv (d + 2) dat2]).get? q = g.get? q ∨
        g.get? q = none := by
      intro q hq
      by_cases hlt : q < g.length
      · left
        rw [get?_append2_lt _ _ _ q (by rw [hsetlen]; exact hlt)]
        exact get?_set_other g i _ q (fun h => hq h.symm)
      · right
        exact List.get?_eq_none.2 (by omega)
    refine ⟨hEi, ?_, ?_, ?_, ?_, ?_, ?_, ?_, ?_, ?_⟩
    · intro q eq hq hgq _
      rcases hpresv q hq with hpv | hpv
      · rw [hpv, hgq]
      · rw [hpv] at hgq
        exact absurd hgq (by simp)
    · by_cases hi0 : i = 0
      · subst hi0
        have he : e = p0 := by rw [hg] at hp0; exact Option.some.inj hp0
        exact ⟨annotExt e d raw, hEi, (annotExt_dgeofile e d raw).1⟩
      · refine ⟨p0, ?_, hdg0⟩
        rcases hpresv 0 (fun h => hi0 h.symm) with hpv | hpv
        · rw [hpv, hp0]
        · rw [hpv] at hp0
          exact absurd hp0 (by simp)
    · intro kv hkv
      exact absurd hkv (List.not_mem_nil kv)
    · intro q
      by_cases hqi : q = i
      · subst hqi
        rw [sciAt_of_get _ q _ hEi, sciAt_of_get g q e hg, annotExt_isSci]
      · by_cases hlt : q < g.length
        · rcases hpresv q hqi with hpv | hpv
          · unfold sciAt
            rw [hpv]
          · exact absurd (List.get?_eq_none.1 hpv) (by omega)
        · have hgq : g.get? q = none := List.get?_eq_none.2 (by omega)
          rw [sciAt_none g q hgq]
          by_cases hq1 : q = g.length
          · subst hq1
            rw [sciAt_of_get _ _ _ (by
              have := get?_append2_fst (g.set i (annotExt e d raw))
                (mkHdu iv (d + 1) dat1) (mkHdu iv (d + 2) dat2)
              rw [hsetlen] at this
              exact this)]
            exact mkHdu_isSci iv (d + 1) dat1
          · by_cases hq2 : q = g.length + 1
            · subst hq2
              rw [sciAt_of_get _ _ _ (by
                have := get?_append2_snd (g.set i (annotExt e d raw))
                  (mkHdu iv (d + 1) dat1) (mkHdu iv (d + 2) dat2)
                rw [hsetlen] at this
                exact this)]
              exact mkHdu_isSci iv (d + 2) dat2
            · rw [sciAt_none _ q (get?_append2_ge _ _ _ q (by rw [hsetlen]; omega))]
    · intro q eq hq hgq
      left
      rcases hpresv q hq with hpv | hpv
      · rw [hpv, hgq]
      · rw [hpv] at hgq
        exact absurd hgq (by simp)
    · by_cases hi0 : i = 0
      · subst hi0
        rw [hdrGetPrim_of_get _ _ _ hEi, hdrGetPrim_of_get g _ _ hg,
          annotExt_INSTRUME]
      · rcases hpresv 0 (fun h => hi0 h.symm) with hpv | hpv
        · unfold hdrGetPrim
          rw [hpv]
        · rw [hpv] at hp0
          exact absurd hp0 (by simp)
    · simp only [List.length_append, List.length_set, List.length_cons,
        List.length_nil]
      omega
    · intro _
      simp only [List.length_append, List.length_set, List.length_cons,
        List.length_nil]
    · intro hne
      exact absurd rfl hne
  · -- overwrite mode
    subst hgEeq
    obtain ⟨kv1, hkv1m, hkv1k, hkv1p⟩ := dictLookup_mem wind (.int (d + 1)) p1 hdl1
    obtain ⟨kv2, hkv2m, hkv2k, hkv2p⟩ := dictLookup_mem wind (.int (d + 2)) p2 hdl2
    obtain ⟨w1, hw1g, hw1n⟩ := hwind kv1 hkv1m
    obtain ⟨w2, hw2g, hw2n⟩ := hwind kv2 hkv2m
    rw [hkv1p] at hw1g
    rw [hkv2p] at hw2g
    have hEi : (((g.set i (annotExt e d raw)).set p1 (mkHdu iv (d + 1) dat1)).set
        p2 (mkHdu iv (d + 2) dat2)).get? i = some (annotExt e d raw) := by
      rw [get?_set_other _ p2 _ i hp2i, get?_set_other _ p1 _ i hp1i]
      exact get?_set_self g i _ hil
    have hEp2 : (((g.set i (annotExt e d raw)).set p1 (mkHdu iv (d + 1) dat1)).set
        p2 (mkHdu iv (d + 2) dat2)).get? p2 = some (mkHdu iv (d + 2) dat2) := by
      apply get?_set_self
      simp only [List.length_set]
      exact hp2lt
    have hEp1 : p1 ≠ p2 → (((g.set i (annotExt e d raw)).set p1
        (mkHdu iv (d + 1) dat1)).set p2 (mkHdu iv (d + 2) dat2)).get? p1 =
        some (mkHdu iv (d + 1) dat1) := by
      intro h12
      rw [get?_set_other _ p2 _ p1 (fun h => h12 h.symm)]
      apply get?_set_self
      simp only [List.length_set]
      exact hp1lt
    have hEoth : ∀ q, q ≠ i → q ≠ p1 → q ≠ p2 →
        (((g.set i (annotExt e d raw)).set p1 (mkHdu iv (d + 1) dat1)).set
          p2 (mkHdu iv (d + 2) dat2)).get? q = g.get? q := by
      intro q hqi hqp1 hqp2
      rw [get?_set_other _ p2 _ q (fun h => hqp2 h.symm),
        get?_set_other _ p1 _ q (fun h => hqp1 h.symm),
        get?_set_other g i _ q (fun h => hqi h.symm)]
    refine ⟨hEi, ?_, ?_, ?_, ?_, ?_, ?_, ?_, ?_, ?_⟩
    · intro q eq hq hgq hnw
      have hqp1 : q ≠ p1 := by
        intro h
        rw [h, hw1g] at hgq
        rw [← Option.some.inj hgq] at hnw
        exact hnw hw1n
      have hqp2 : q ≠ p2 := by
        intro h
        rw [h, hw2g] at hgq
        rw [← Option.some.inj hgq] at hnw
        exact hnw hw2n
      rw [hEoth q hq hqp1 hqp2, hgq]
    · by_cases hi0 : i = 0
      · subst hi0
        have he : e = p0 := by rw [hg] at hp0; exact Option.some.inj hp0
        exact ⟨annotExt e d raw, hEi, (annotExt_dgeofile e d raw).1⟩
      · refine ⟨p0, ?_, hdg0⟩
        rw [hEoth 0 (fun h => hi0 h.symm) (fun h => hp10 h.symm)
          (fun h => hp20 h.symm), hp0]
    · intro kv hkv
      obtain ⟨w, hwg, hwn⟩ := hwind kv hkv
      by_cases hq2 : kv.2 = p2
      · refine ⟨mkHdu iv (d + 2) dat2, ?_, ?_⟩
        · rw [hq2]
          exact hEp2
        · rw [mkHdu_header]
          exact lookupHdr_get_EXTNAME iv (d + 2)
      · by_cases hq1 : kv.2 = p1
        · refine ⟨mkHdu iv (d + 1) dat1, ?_, ?_⟩
          · rw [hq1]
            exact hEp1 (fun h => hq2 (hq1 ▸ h))
          · rw [mkHdu_header]
            exact lookupHdr_get_EXTNAME iv (d + 1)
        · have hqi : kv.2 ≠ i := by
            intro h
            rw [h, hg] at hwg
            rw [← Option.some.inj hwg] at hwn
            exact isSci_not_wcsd e hsci hwn
          exact ⟨w, by rw [hEoth kv.2 hqi hq1 hq2]; exact hwg, hwn⟩
    · intro q
      by_cases hqi : q = i
      · subst hqi
        rw [sciAt_of_get _ q _ hEi, sciAt_of_get g q e hg, annotExt_isSci]
      · by_cases hqp2 : q = p2
        · subst hqp2
          rw [sciAt_of_get _ q _ hEp2, sciAt_of_get g q w2 hw2g, mkHdu_isSci]
          cases hws : isSci w2 with
          | false => rfl
          | true => exact absurd hw2n (fun h => isSci_not_wcsd w2 hws h)
        · by_cases hqp1 : q = p1
          · subst hqp1
            rw [sciAt_of_get _ q _ (hEp1 (fun h => hqp2 h)),
              sciAt_of_get g q w1 hw1g, mkHdu_isSci]
            cases hws : isSci w1 with
            | false => rfl
            | true => exact absurd hw1n (fun h => isSci_not_wcsd w1 hws h)
          · unfold sciAt
            rw [hEoth q hqi hqp1 hqp2]
    · intro q eq hq hgq
      by_cases hqp2 : q = p2
      · right
        have heq : eq = w2 := by
          rw [hqp2, hw2g] at hgq
          exact (Option.some.inj hgq).symm
        refine ⟨by rw [heq]; exact hw2n, iv, d + 2, dat2, ?_⟩
        rw [hqp2]
        exact hEp2
      · by_cases hqp1 : q = p1
        · right
          have heq : eq = w1 := by
            rw [hqp1, hw1g] at hgq
            exact (Option.some.inj hgq).symm
          refine ⟨by rw [heq]; exact hw1n, iv, d + 1, dat1, ?_⟩
          rw [hqp1]
          exact hEp1 (fun h => hqp2 (hqp1 ▸ h))
        · left
          rw [hEoth q hq hqp1 hqp2, hgq]
    · by_cases hi0 : i = 0
      · subst hi0
        rw [hdrGetPrim_of_get _ _ _ hEi, hdrGetPrim_of_get g _ _ hg,
          annotExt_INSTRUME]
      · rw [hdrGetPrim_of_get g _ _ hp0,
          hdrGetPrim_of_get _ p0 _ (by
            rw [hEoth 0 (fun h => hi0 h.symm) (fun h => hp10 h.symm)
              (fun h => hp20 h.symm)]
            exact hp0)]
    · simp only [List.length_set]
      omega
    · intro hwe
      exact absurd hwe hwne
    · intro _
      simp only [List.length_set]


/-! ## Classifying extensions by their `EXTNAME` -/

theorem isSci_of_str {α : Type} (e : Ext α) (s : String)
    (hname : hdrGet e.header "EXTNAME" = some (.str s)) :
    isSci e = (strLower s == "sci") := by
  simp only [isSci, hname]

theorem isSci_of_noname {α : Type} (e : Ext α)
    (hname : hdrGet e.header "EXTNAME" = none) : isSci e = false := by
  simp only [isSci, hname]

theorem skippable_of_str {α : Type} (e : Ext α) (s : String)
    (hname : hdrGet e.header "EXTNAME" = some (.str s))
    (h : ¬ strLower s = "sci") : skippable e = true := by
  simp only [skippable, hname]
  simp [h]

theorem skippable_of_noname {α : Type} (e : Ext α)
    (hname : hdrGet e.header "EXTNAME" = none) : skippable e = true := by
  simp only [skippable, hname]

/-! ## Run-level invariant preservation -/

/-- A successful traversal preserves the primary `DGEOFILE`/`INSTRUME`
facts, the scan-table invariant, the science-position map, and never
shrinks the file object. -/
theorem run_pres {α : Type} (dvals : String → Option GridDefaults)
    (getdata : String → String → FVal → Option α) (dgfile : String)
    (wind : List (FVal × Nat)) (raw : FVal) :
    ∀ fuel i d (g g' : FileObj α),
    runFrom dvals getdata dgfile wind fuel i d g = .ok g' →
    PrimVal g raw → WindOK wind g →
    PrimVal g' raw ∧ WindOK wind g' ∧
    hdrGetPrim g' "INSTRUME" = hdrGetPrim g "INSTRUME" ∧
    (∀ q, sciAt g' q = sciAt g q) ∧ g.length ≤ g'.length := by
  intro fuel
  induction fuel with
  | zero =>
    intro i d g g' hok
    exact absurd hok (by simp [runFrom])
  | succ fuel ih =>
    intro i d g g' hok hraw hwind
    cases hgi : g.get? i with
    | none =>
      simp only [runFrom, hgi] at hok
      have hge : g = g' := Except.ok.inj hok
      subst hge
      exact ⟨hraw, hwind, rfl, fun q => rfl, le_rfl⟩
    | some e =>
      rcases hname : hdrGet e.header "EXTNAME" with _ | nv
      · simp only [runFrom, hgi, hname] at hok
        exact ih (i + 1) d g g' hok hraw hwind
      · cases nv with
        | str s =>
          by_cases hsl : strLower s = "sci"
          · simp only [runFrom, hgi, hname] at hok
            rw [if_pos hsl] at hok
            rcases hver : hdrGet e.header "EXTVER" with _ | xv
            · simp only [hver] at hok
              exact absurd hok (by simp)
            · simp only [hver] at hok
              cases hstep : sciStep dvals getdata dgfile wind i d xv g with
              | error err =>
                rw [hstep] at hok
                exact absurd hok (by simp)
              | ok gE =>
                rw [hstep] at hok
                have hsci : isSci e = true := by
                  rw [isSci_of_str e s hname]
                  exact beq_iff_eq.2 hsl
                obtain ⟨_, _, hprE, hwdE, hsaE, _, hinsE, hlenE, _, _⟩ :=
                  sciStep_effects dvals getdata dgfile wind i d xv g gE e raw
                    hgi hsci hraw hwind hstep
                obtain ⟨hpr', hwd', hins', hsa', hlen'⟩ :=
                  ih (i + 1) (d + 2) gE g' hok hprE hwdE
                refine ⟨hpr', hwd', hins'.trans hinsE, ?_, le_trans hlenE hlen'⟩
                intro q
                rw [hsa' q, hsaE q]
          · simp only [runFrom, hgi, hname] at hok
            rw [if_neg hsl] at hok
            exact ih (i + 1) d g g' hok hraw hwind
        | int n =>
          simp only [runFrom, hgi, hname] at hok
          exact absurd hok (by simp)
        | flt qq =>
          simp only [runFrom, hgi, hname] at hok
          exact absurd hok (by simp)


/-- Frame property of the traversal: a position holding an extension that
is not exactly named `'WCSDVARR'` — and is not a science extension still to
be visited — is never touched. -/
theorem run_frame {α : Type} (dvals : String → Option GridDefaults)
    (getdata : String → String → FVal → Option α) (dgfile : String)
    (wind : List (FVal × Nat)) (raw : FVal) :
    ∀ fuel i d (g g' : FileObj α),
    runFrom dvals getdata dgfile wind fuel i d g = .ok g' →
    PrimVal g raw → WindOK wind g →
    ∀ q eq, g.get? q = some eq →
    hdrGet eq.header "EXTNAME" ≠ some (.str "WCSDVARR") →
    (i ≤ q → isSci eq = false) →
    g'.get? q = some eq := by
  intro fuel
  induction fuel with
  | zero =>
    intro i d g g' hok
    exact absurd hok (by simp [runFrom])
  | succ fuel ih =>
    intro i d g g' hok hraw hwind q eq hgq hnw hns
    cases hgi : g.get? i with
    | none =>
      simp only [runFrom, hgi] at hok
      rw [← Except.ok.inj hok]
      exact hgq
    | some e =>
      rcases hname : hdrGet e.header "EXTNAME" with _ | nv
      · simp only [runFrom, hgi, hname] at hok
        exact ih (i + 1) d g g' hok hraw hwind q eq hgq hnw
          (fun h => hns (by omega))
      · cases nv with
        | str s =>
          by_cases hsl : strLower s = "sci"
          · simp only [runFrom, hgi, hname] at hok
            rw [if_pos hsl] at hok
            rcases hver : hdrGet e.header "EXTVER" with _ | xv
            · simp only [hver] at hok
              exact absurd hok (by simp)
            · simp only [hver] at hok
              cases hstep : sciStep dvals getdata dgfile wind i d xv g with
              | error err =>
                rw [hstep] at hok
                exact absurd hok (by simp)
              | ok gE =>
                rw [hstep] at hok
                have hsci : isSci e = true := by
                  rw [isSci_of_str e s hname]
                  exact beq_iff_eq.2 hsl
                obtain ⟨_, hfrE, hprE, hwdE, _, _, _, _, _, _⟩ :=
                  sciStep_effects dvals getdata dgfile wind i d xv g gE e raw
                    hgi hsci hraw hwind hstep
                have hqi : q ≠ i := by
                  intro h
                  rw [h, hgi] at hgq
                  have hee : e = eq := Option.some.inj hgq
                  rw [← hee] at hns
                  rw [hns (by omega)] at hsci
                  exact Bool.noConfusion hsci
                exact ih (i + 1) (d + 2) gE g' hok hprE hwdE q eq
                  (hfrE q eq hqi hgq hnw) hnw (fun h => hns (by omega))
          · simp only [runFrom, hgi, hname] at hok
            rw [if_neg hsl] at hok
            exact ih (i + 1) d g g' hok hraw hwind q eq hgq hnw
              (fun h => hns (by omega))
        | int n =>
          simp only [runFrom, hgi, hname] at hok
          exact absurd hok (by simp)
        | flt qq =>
          simp only [runFrom, hgi, hname] at hok
          exact absurd hok (by simp)

/-- A non-science position either survives the traversal unchanged or —
only when it is exactly named `'WCSDVARR'` — ends up holding a freshly
built lookup HDU. -/
theorem run_nonsci_pos {α : Type} (dvals : String → Option GridDefaults)
    (getdata : String → String → FVal → Option α) (dgfile : String)
    (wind : List (FVal × Nat)) (raw : FVal) :
    ∀ fuel i d (g g' : FileObj α),
    runFrom dvals getdata dgfile wind fuel i d g = .ok g' →
    PrimVal g raw → WindOK wind g →
    ∀ q eq, g.get? q = some eq → isSci eq = false →
    g'.get? q = some eq ∨ (hdrGet eq.header "EXTNAME" = some (.str "WCSDVARR") ∧
      ∃ jv jd jdat, g'.get? q = some (mkHdu jv jd jdat)) := by
  intro fuel
  induction fuel with
  | zero =>
    intro i d g g' hok
    exact absurd hok (by simp [runFrom])
  | succ fuel ih =>
    intro i d g g' hok hraw hwind q eq hgq hns
    cases hgi : g.get? i with
    | none =>
      simp only [runFrom, hgi] at hok
      rw [← Except.ok.inj hok]
      exact Or.inl hgq
    | some e =>
      rcases hname : hdrGet e.header "EXTNAME" with _ | nv
      · simp only [runFrom, hgi, hname] at hok
        exact ih (i + 1) d g g' hok hraw hwind q eq hgq hns
      · cases nv with
        | str s =>
          by_cases hsl : strLower s = "sci"
          · simp only [runFrom, hgi, hname] at hok
            rw [if_pos hsl] at hok
            rcases hver : hdrGet e.header "EXTVER" with _ | xv
            · simp only [hver] at hok
              exact absurd hok (by simp)
            · simp only [hver] at hok
              cases hstep : sciStep dvals getdata dgfile wind i d xv g with
              | error err =>
                rw [hstep] at hok
                exact absurd hok (by simp)
              | ok gE =>
                rw [hstep] at hok
                have hsci : isSci e = true := by
                  rw [isSci_of_str e s hname]
                  exact beq_iff_eq.2 hsl
                obtain ⟨_, _, hprE, hwdE, _, horE, _, _, _, _⟩ :=
                  sciStep_effects dvals getdata dgfile wind i d xv g gE e raw
                    hgi hsci hraw hwind hstep
                have hqi : q ≠ i := by
                  intro h
                  rw [h, hgi] at hgq
                  rw [← Option.some.inj hgq] at hns
                  rw [hns] at hsci
                  exact Bool.noConfusion hsci
                rcases horE q eq hqi hgq with hpv | ⟨hwn, jv, jd, jdat, hmk⟩
                · exact ih (i + 1) (d + 2) gE g' hok hprE hwdE q eq hpv hns
                · rcases ih (i + 1) (d + 2) gE g' hok hprE hwdE q
                    (mkHdu jv jd jdat) hmk (mkHdu_isSci jv jd jdat) with
                    hpv2 | ⟨_, jv2, jd2, jdat2, hmk2⟩
                  · exact Or.inr ⟨hwn, jv, jd, jdat, hpv2⟩
                  · exact Or.inr ⟨hwn, jv2, jd2, jdat2, hmk2⟩
          · simp only [runFrom, hgi, hname] at hok
            rw [if_neg hsl] at hok
            exact ih (i + 1) d g g' hok hraw hwind q eq hgq hns
        | int n =>
          simp only [runFrom, hgi, hname] at hok
          exact absurd hok (by simp)
        | flt qq =>
          simp only [runFrom, hgi, hname] at hok
          exact absurd hok (by simp)

/-- Success of the traversal forces every position at or beyond the cursor
to be either silently skippable or a science extension (a non-string
`EXTNAME` would have raised). -/
theorem run_all_visited {α : Type} (dvals : String → Option GridDefaults)
    (getdata : String → String → FVal → Option α) (dgfile : String)
    (wind : List (FVal × Nat)) (raw : FVal) :
    ∀ fuel i d (g g' : FileObj α),
    runFrom dvals getdata dgfile wind fuel i d g = .ok g' →
    PrimVal g raw → WindOK wind g →
    ∀ q eq, i ≤ q → g.get? q = some eq →
    skippable eq = true ∨ isSci eq = true := by
  intro fuel
  induction fuel with
  | zero =>
    intro i d g g' hok
    exact absurd hok (by simp [runFrom])
  | succ fuel ih =>
    intro i d g g' hok hraw hwind q eq hiq hgq
    cases hgi : g.get? i with
    | none =>
      rw [get?_none_mono g i q hgi hiq] at hgq
      exact absurd hgq (by simp)
    | some e =>
      rcases hname : hdrGet e.header "EXTNAME" with _ | nv
      · simp only [runFrom, hgi, hname] at hok
        by_cases hqi : q = i
        · rw [hqi, hgi] at hgq
          rw [← Option.some.inj hgq]
          exact Or.inl (skippable_of_noname e hname)
        · exact ih (i + 1) d g g' hok hraw hwind q eq (by omega) hgq
      · cases nv with
        | str s =>
          by_cases hsl : strLower s = "sci"
          · simp only [runFrom, hgi, hname] at hok
            rw [if_pos hsl] at hok
            rcases hver : hdrGet e.header "EXTVER" with _ | xv
            · simp only [hver] at hok
              exact absurd hok (by simp)
            · simp only [hver] at hok
              cases hstep : sciStep dvals getdata dgfile wind i d xv g with
              | error err =>
                rw [hstep] at hok
                exact absurd hok (by simp)
              | ok gE =>
                rw [hstep] at hok
                have hsci : isSci e = true := by
                  rw [isSci_of_str e s hname]
                  exact beq_iff_eq.2 hsl
                by_cases hqi : q = i
                · rw [hqi, hgi] at hgq
                  rw [← Option.some.inj hgq]
                  exact Or.inr hsci
                · by_cases hwq : hdrGet eq.header "EXTNAME" = some (.str "WCSDVARR")
                  · exact Or.inl (wcsd_skippable eq hwq)
                  · obtain ⟨_, hfrE, hprE, hwdE, _, _, _, _, _, _⟩ :=
                      sciStep_effects dvals getdata dgfile wind i d xv g gE e raw
                        hgi hsci hraw hwind hstep
                    exact ih (i + 1) (d + 2) gE g' hok hprE hwdE q eq (by omega)
                      (hfrE q eq hqi hgq hwq)
          · simp only [runFrom, hgi, hname] at hok
            rw [if_neg hsl] at hok
            by_cases hqi : q = i
            · rw [hqi, hgi] at hgq
              rw [← Option.some.inj hgq]
              exact Or.inl (skippable_of_str e s hname hsl)
            · exact ih (i + 1) d g g' hok hraw hwind q eq (by omega) hgq
        | int n =>
          simp only [runFrom, hgi, hname] at hok
          exact absurd hok (by simp)
        | flt qq =>
          simp only [runFrom, hgi, hname] at hok
          exact absurd hok (by simp)


/-- The science extension at position `j` (the `csb g i j`-th one the
traversal meets from `i`) ends up fully annotated with the counter value
it is met at, and all the per-iteration reference-file/instrument lookups
it triggers succeed. -/
theorem run_sci_full {α : Type} (dvals : String → Option GridDefaults)
    (getdata : String → String → FVal → Option α) (dgfile : String)
    (wind : List (FVal × Nat)) (raw : FVal) :
    ∀ fuel i d (g g' : FileObj α),
    runFrom dvals getdata dgfile wind fuel i d g = .ok g' →
    PrimVal g raw → WindOK wind g →
    ∀ j e, i ≤ j → g.get? j = some e → isSci e = true →
    g'.get? j = some (annotExt e (d + 2 * csb g i j) raw) ∧
    ∃ xv ins iv dat1 dat2,
      hdrGet e.header "EXTVER" = some xv ∧
      hdrGetPrim g "INSTRUME" = some (.str ins) ∧
      dvals ins = some iv ∧
      getdata dgfile "DX" xv = some dat1 ∧
      getdata dgfile "DY" xv = some dat2 := by
  intro fuel
  induction fuel with
  | zero =>
    intro i d g g' hok
    exact absurd hok (by simp [runFrom])
  | succ fuel ih =>
    intro i d g g' hok hraw hwind j e hij hgj hscij
    cases hgi : g.get? i with
    | none =>
      rw [get?_none_mono g i j hgi hij] at hgj
      exact absurd hgj (by simp)
    | some e0 =>
      rcases hname : hdrGet e0.header "EXTNAME" with _ | nv
      · simp only [runFrom, hgi, hname] at hok
        have hji : j ≠ i := by
          intro h
          rw [h, hgi] at hgj
          rw [← Option.some.inj hgj] at hscij
          rw [isSci_of_noname e0 hname] at hscij
          exact Bool.noConfusion hscij
        have hres := ih (i + 1) d g g' hok hraw hwind j e (by omega) hgj hscij
        have hsa : sciAt g i = false := by
          rw [sciAt_of_get g i e0 hgi]
          exact isSci_of_noname e0 hname
        have hcsb : csb g i j = csb g (i + 1) j := by
          rw [csb_left_step g i j (by omega), hsa]
          simp
        rw [hcsb]
        exact hres
      · cases nv with
        | str s =>
          by_cases hsl : strLower s = "sci"
          · simp only [runFrom, hgi, hname] at hok
            rw [if_pos hsl] at hok
            rcases hver : hdrGet e0.header "EXTVER" with _ | xv
            · simp only [hver] at hok
              exact absurd hok (by simp)
            · simp only [hver] at hok
              cases hstep : sciStep dvals getdata dgfile wind i d xv g with
              | error err =>
                rw [hstep] at hok
                exact absurd hok (by simp)
              | ok gE =>
                rw [hstep] at hok
                have hsci0 : isSci e0 = true := by
                  rw [isSci_of_str e0 s hname]
                  exact beq_iff_eq.2 hsl
                obtain ⟨hEi, hfrE, hprE, hwdE, hsaE, _, hinsE, _, _, _⟩ :=
                  sciStep_effects dvals getdata dgfile wind i d xv g gE e0 raw
                    hgi hsci0 hraw hwind hstep
                obtain ⟨ins, iv, dat1, dat2, ⟨pA, hpA, hpAins⟩, hiv, hdx, hdy, _⟩ :=
                  sciStep_ok_char dvals getdata dgfile wind i d xv g gE e0 raw
                    hgi hsci0 hraw hwind hstep
                by_cases hji : j = i
                · subst hji
                  have hee : e0 = e := by
                    rw [hgi] at hgj
                    exact Option.some.inj hgj
                  subst hee
                  have hcsb : csb g j j = 0 := csb_of_le g j j le_rfl
                  rw [hcsb]
                  have hannw : hdrGet (annotExt e0 d raw).header "EXTNAME" ≠
                      some (.str "WCSDVARR") := by
                    intro hcon
                    rw [annotExt_EXTNAME] at hcon
                    exact isSci_not_wcsd e0 hsci0 hcon
                  have hfin := run_frame dvals getdata dgfile wind raw fuel
                    (j + 1) (d + 2) gE g' hok hprE hwdE j (annotExt e0 d raw)
                    hEi hannw (fun h => absurd h (by omega))
                  refine ⟨by rw [hfin]; simp, xv, ins, iv, dat1, dat2, hver,
                    ?_, hiv, hdx, hdy⟩
                  rw [hdrGetPrim_of_get g pA _ hpA]
                  exact hpAins
                · have hgEj : gE.get? j = some e := by
                    apply hfrE j e hji hgj
                    intro hcon
                    exact isSci_not_wcsd e hscij hcon
                  obtain ⟨hres1, hres2⟩ := ih (i + 1) (d + 2) gE g' hok hprE
                    hwdE j e (by omega) hgEj hscij
                  have hsa : sciAt g i = true := by
                    rw [sciAt_of_get g i e0 hgi]
                    exact hsci0
                  have hcsb1 : csb g i j = 1 + csb g (i + 1) j := by
                    rw [csb_left_step g i j (by omega), hsa, if_pos rfl]
                  have hcsbE : csb gE (i + 1) j = csb g (i + 1) j :=
                    csb_congr g gE (i + 1) j (fun q _ _ => hsaE q)
                  rw [hcsbE] at hres1
                  have hidx : d + 2 + 2 * csb g (i + 1) j =
                      d + 2 * csb g i j := by omega
                  rw [hidx] at hres1
                  refine ⟨hres1, ?_⟩
                  obtain ⟨xv2, ins2, iv2, dat12, dat22, hv2, hi2, hiv2, hx2, hy2⟩ :=
                    hres2
                  rw [hinsE] at hi2
                  exact ⟨xv2, ins2, iv2, dat12, dat22, hv2, hi2, hiv2, hx2, hy2⟩
          · simp only [runFrom, hgi, hname] at hok
            rw [if_neg hsl] at hok
            have hji : j ≠ i := by
              intro h
              rw [h, hgi] at hgj
              rw [← Option.some.inj hgj] at hscij
              rw [isSci_of_str e0 s hname] at hscij
              exact hsl (beq_iff_eq.1 hscij)
            have hres := ih (i + 1) d g g' hok hraw hwind j e (by omega) hgj hscij
            have hsa : sciAt g i = false := by
              rw [sciAt_of_get g i e0 hgi, isSci_of_str e0 s hname]
              exact beq_eq_false_iff_ne.2 hsl
            have hcsb : csb g i j = csb g (i + 1) j := by
              rw [csb_left_step g i j (by omega), hsa]
              simp
            rw [hcsb]
            exact hres
        | int n =>
          simp only [runFrom, hgi, hname] at hok
          exact absurd hok (by simp)
        | flt qq =>
          simp only [runFrom, hgi, hname] at hok
          exact absurd hok (by simp)


/-! ## Append-mode (empty scan table) run lemmas -/

theorem sciCountFrom_eq_csb {α : Type} (g : FileObj α) (i j : Nat)
    (hj : g.length ≤ j) : sciCountFrom g i = csb g i j := by
  induction j with
  | zero =>
    rw [sciCountFrom_of_ge g i (by omega), csb_of_le g i 0 (by omega)]
  | succ m ih =>
    by_cases hm : g.length ≤ m
    · rw [ih hm, csb_succ_right]
      have hsa : sciAt g m = false := sciAt_none g m (List.get?_eq_none.2 hm)
      rw [hsa]
      simp
    · by_cases hi : i ≤ m + 1
      · have hadd := csb_add_sciCF g i (m + 1) hi
        rw [sciCountFrom_of_ge g (m + 1) (by omega)] at hadd
        omega
      · rw [sciCountFrom_of_ge g i (by omega), csb_of_le g i (m + 1) (by omega)]

/-- With an empty scan table nothing is ever overwritten: every non-science
position keeps its extension. -/
theorem run_frame_A {α : Type} (dvals : String → Option GridDefaults)
    (getdata : String → String → FVal → Option α) (dgfile : String)
    (raw : FVal) :
    ∀ fuel i d (g g' : FileObj α),
    runFrom dvals getdata dgfile [] fuel i d g = .ok g' →
    PrimVal g raw →
    ∀ q eq, g.get? q = some eq → (i ≤ q → isSci eq = false) →
    g'.get? q = some eq := by
  intro fuel
  induction fuel with
  | zero =>
    intro i d g g' hok
    exact absurd hok (by simp [runFrom])
  | succ fuel ih =>
    intro i d g g' hok hraw q eq hgq hns
    have hwind : WindOK [] g := fun kv hkv => absurd hkv (List.not_mem_nil kv)
    cases hgi : g.get? i with
    | none =>
      simp only [runFrom, hgi] at hok
      rw [← Except.ok.inj hok]
      exact hgq
    | some e =>
      rcases hname : hdrGet e.header "EXTNAME" with _ | nv
      · simp only [runFrom, hgi, hname] at hok
        exact ih (i + 1) d g g' hok hraw q eq hgq (fun h => hns (by omega))
      · cases nv with
        | str s =>
          by_cases hsl : strLower s = "sci"
          · simp only [runFrom, hgi, hname] at hok
            rw [if_pos hsl] at hok
            rcases hver : hdrGet e.header "EXTVER" with _ | xv
            · simp only [hver] at hok
              exact absurd hok (by simp)
            · simp only [hver] at hok
              cases hstep : sciStep dvals getdata dgfile [] i d xv g with
              | error err =>
                rw [hstep] at hok
                exact absurd hok (by simp)
              | ok gE =>
                rw [hstep] at hok
                have hsci : isSci e = true := by
                  rw [isSci_of_str e s hname]
                  exact beq_iff_eq.2 hsl
                obtain ⟨_, _, hprE, _, _, _, _, _, _, _⟩ :=
                  sciStep_effects dvals getdata dgfile [] i d xv g gE e raw
                    hgi hsci hraw hwind hstep
                obtain ⟨ins, iv, dat1, dat2, _, _, _, _, hshape⟩ :=
                  sciStep_ok_char dvals getdata dgfile [] i d xv g gE e raw
                    hgi hsci hraw hwind hstep
                rcases hshape with ⟨_, hgEeq⟩ | ⟨p1, p2, hwne, _⟩
                swap
                · exact absurd rfl hwne
                have hqi : q ≠ i := by
                  intro h
                  rw [h, hgi] at hgq
                  rw [← Option.some.inj hgq] at hns
                  rw [hns (by omega)] at hsci
                  exact Bool.noConfusion hsci
                have hlt : q < g.length := get?_some_lt g q eq hgq
                have hgEq : gE.get? q = some eq := by
                  rw [hgEeq, get?_append2_lt _ _ _ q
                    (by rw [List.length_set]; exact hlt),
                    get?_set_other g i _ q (fun h => hqi h.symm)]
                  exact hgq
                exact ih (i + 1) (d + 2) gE g' hok hprE q eq hgEq
                  (fun h => hns (by omega))
          · simp only [runFrom, hgi, hname] at hok
            rw [if_neg hsl] at hok
            exact ih (i + 1) d g g' hok hraw q eq hgq (fun h => hns (by omega))
        | int n =>
          simp only [runFrom, hgi, hname] at hok
          exact absurd hok (by simp)
        | flt qq =>
          simp only [runFrom, hgi, hname] at hok
          exact absurd hok (by simp)

/-- With an empty scan table the run grows the file object by exactly two
extensions per science extension from the cursor on. -/
theorem run_len_A {α : Type} (dvals : String → Option GridDefaults)
    (getdata : String → String → FVal → Option α) (dgfile : String)
    (raw : FVal) :
    ∀ fuel i d (g g' : FileObj α),
    runFrom dvals getdata dgfile [] fuel i d g = .ok g' →
    PrimVal g raw →
    g'.length = g.length + 2 * sciCountFrom g i := by
  intro fuel
  induction fuel with
  | zero =>
    intro i d g g' hok
    exact absurd hok (by simp [runFrom])
  | succ fuel ih =>
    intro i d g g' hok hraw
    have hwind : WindOK [] g := fun kv hkv => absurd hkv (List.not_mem_nil kv)
    cases hgi : g.get? i with
    | none =>
      simp only [runFrom, hgi] at hok
      rw [← Except.ok.inj hok, sciCountFrom_of_ge g i (List.get?_eq_none.1 hgi)]
      omega
    | some e =>
      rcases hname : hdrGet e.header "EXTNAME" with _ | nv
      · simp only [runFrom, hgi, hname] at hok
        have hsa : sciAt g i = false := by
          rw [sciAt_of_get g i e hgi]
          exact isSci_of_noname e hname
        rw [ih (i + 1) d g g' hok hraw, sciCountFrom_succ g i, hsa]
        simp
      · cases nv with
        | str s =>
          by_cases hsl : strLower s = "sci"
          · simp only [runFrom, hgi, hname] at hok
            rw [if_pos hsl] at hok
            rcases hver : hdrGet e.header "EXTVER" with _ | xv
            · simp only [hver] at hok
              exact absurd hok (by simp)
            · simp only [hver] at hok
              cases hstep : sciStep dvals getdata dgfile [] i d xv g with
              | error err =>
                rw [hstep] at hok
                exact absurd hok (by simp)
              | ok gE =>
                rw [hstep] at hok
                have hsci : isSci e = true := by
                  rw [isSci_of_str e s hname]
                  exact beq_iff_eq.2 hsl
                obtain ⟨_, _, hprE, _, hsaE, _, _, _, hlenE, _⟩ :=
                  sciStep_effects dvals getdata dgfile [] i d xv g gE e raw
                    hgi hsci hraw hwind hstep
                have hlE : gE.length = g.length + 2 := hlenE rfl
                have hres := ih (i + 1) (d + 2) gE g' hok hprE
                have h1 : sciCountFrom gE (i + 1) = csb gE (i + 1) (g.length + 2) :=
                  sciCountFrom_eq_csb gE (i + 1) _ (by omega)
                have h2 : csb gE (i + 1) (g.length + 2) =
                    csb g (i + 1) (g.length + 2) :=
                  csb_congr g gE (i + 1) _ (fun q _ _ => hsaE q)
                have h3 : sciCountFrom g (i + 1) = csb g (i + 1) (g.length + 2) :=
                  sciCountFrom_eq_csb g (i + 1) _ (by omega)
                have hsa : sciAt g i = true := by
                  rw [sciAt_of_get g i e hgi]
                  exact hsci
                have h4 : sciCountFrom g i = 1 + sciCountFrom g (i + 1) := by
                  rw [sciCountFrom_succ g i, hsa, if_pos rfl]
                omega
          · simp only [runFrom, hgi, hname] at hok
            rw [if_neg hsl] at hok
            have hsa : sciAt g i = false := by
              rw [sciAt_of_get g i e hgi, isSci_of_str e s hname]
              exact beq_eq_false_iff_ne.2 hsl
            rw [ih (i + 1) d g g' hok hraw, sciCountFrom_succ g i, hsa]
            simp
        | int n =>
          simp only [runFrom, hgi, hname] at hok
          exact absurd hok (by simp)
        | flt qq =>
          simp only [runFrom, hgi, hname] at hok
          exact absurd hok (by simp)

/-- With an empty scan table every position beyond the original length of
the file object holds a freshly built lookup HDU whose `EXTVER` is fixed by
its offset. -/
theorem run_A_tail {α : Type} (dvals : String → Option GridDefaults)
    (getdata : String → String → FVal → Option α) (dgfile : String)
    (raw : FVal) :
    ∀ fuel i d (g g' : FileObj α),
    runFrom dvals getdata dgfile [] fuel i d g = .ok g' →
    PrimVal g raw →
    ∀ q, g.length ≤ q → ∀ e', g'.get? q = some e' →
    ∃ jv jdat, e' = mkHdu jv (d + (q - g.length) + 1) jdat := by
  intro fuel
  induction fuel with
  | zero =>
    intro i d g g' hok
    exact absurd hok (by simp [runFrom])
  | succ fuel ih =>
    intro i d g g' hok hraw q hq e' hq'
    have hwind : WindOK [] g := fun kv hkv => absurd hkv (List.not_mem_nil kv)
    cases hgi : g.get? i with
    | none =>
      simp only [runFrom, hgi] at hok
      rw [← Except.ok.inj hok] at hq'
      rw [List.get?_eq_none.2 (by omega)] at hq'
      exact absurd hq' (by simp)
    | some e =>
      rcases hname : hdrGet e.header "EXTNAME" with _ | nv
      · simp only [runFrom, hgi, hname] at hok
        exact ih (i + 1) d g g' hok hraw q hq e' hq'
      · cases nv with
        | str s =>
          by_cases hsl : strLower s = "sci"
          · simp only [runFrom, hgi, hname] at hok
            rw [if_pos hsl] at hok
            rcases hver : hdrGet e.header "EXTVER" with _ | xv
            · simp only [hver] at hok
              exact absurd hok (by simp)
            · simp only [hver] at hok
              cases hstep : sciStep dvals getdata dgfile [] i d xv g with
              | error err =>
                rw [hstep] at hok
                exact absurd hok (by simp)
              | ok gE =>
                rw [hstep] at hok
                have hsci : isSci e = true := by
                  rw [isSci_of_str e s hname]
                  exact beq_iff_eq.2 hsl
                obtain ⟨_, _, hprE, _, _, _, _, _, hlenE, _⟩ :=
                  sciStep_effects dvals getdata dgfile [] i d xv g gE e raw
                    hgi hsci hraw hwind hstep
                have hlE : gE.length = g.length + 2 := hlenE rfl
                obtain ⟨ins, iv, dat1, dat2, _, _, _, _, hshape⟩ :=
                  sciStep_ok_char dvals getdata dgfile [] i d xv g gE e raw
                    hgi hsci hraw hwind hstep
                rcases hshape with ⟨_, hgEeq⟩ | ⟨p1, p2, hwne, _⟩
                swap
                · exact absurd rfl hwne
                by_cases hq0 : q = g.length
                · have hgEq : gE.get? q = some (mkHdu iv (d + 1) dat1) := by
                    have hfst := get?_append2_fst (g.set i (annotExt e d raw))
                      (mkHdu iv (d + 1) dat1) (mkHdu iv (d + 2) dat2)
                    rw [List.length_set] at hfst
                    rw [hgEeq, hq0]
                    exact hfst
                  have hfin := run_frame_A dvals getdata dgfile raw fuel
                    (i + 1) (d + 2) gE g' hok hprE q (mkHdu iv (d + 1) dat1)
                    hgEq (fun _ => mkHdu_isSci iv (d + 1) dat1)
                  have he' : e' = mkHdu iv (d + 1) dat1 :=
                    Option.some.inj (hq'.symm.trans hfin)
                  refine ⟨iv, dat1, ?_⟩
                  rw [he', hq0]
                  have : g.length - g.length = 0 := by omega
                  rw [this]
                · by_cases hq1 : q = g.length + 1
                  · have hgEq : gE.get? q = some (mkHdu iv (d + 2) dat2) := by
                      have hsnd := get?_append2_snd (g.set i (annotExt e d raw))
                        (mkHdu iv (d + 1) dat1) (mkHdu iv (d + 2) dat2)
                      rw [List.length_set] at hsnd
                      rw [hgEeq, hq1]
                      exact hsnd
                    have hfin := run_frame_A dvals getdata dgfile raw fuel
                      (i + 1) (d + 2) gE g' hok hprE q (mkHdu iv (d + 2) dat2)
                      hgEq (fun _ => mkHdu_isSci iv (d + 2) dat2)
                    have he' : e' = mkHdu iv (d + 2) dat2 :=
                      Option.some.inj (hq'.symm.trans hfin)
                    refine ⟨iv, dat2, ?_⟩
                    rw [he', hq1]
                    have : g.length + 1 - g.length = 1 := by omega
                    rw [this]
                  · obtain ⟨jv, jdat, hj⟩ := ih (i + 1) (d + 2) gE g' hok hprE
                      q (by omega) e' hq'
                    refine ⟨jv, jdat, ?_⟩
                    rw [hj, hlE]
                    have harith : d + 2 + (q - (g.length + 2)) + 1 =
                        d + (q - g.length) + 1 := by omega
                    rw [harith]
          · simp only [runFrom, hgi, hname] at hok
            rw [if_neg hsl] at hok
            exact ih (i + 1) d g g' hok hraw q hq e' hq'
        | int n =>
          simp only [runFrom, hgi, hname] at hok
          exact absurd hok (by simp)
        | flt qq =>
          simp only [runFrom, hgi, hname] at hok
          exact absurd hok (by simp)

/-- With an empty scan table, the two lookup HDUs of the science extension
at `j` land at fixed offsets beyond the original length, with the right
`EXTVER` values and data arrays. -/
theorem run_append_slots {α : Type} (dvals : String → Option GridDefaults)
    (getdata : String → String → FVal → Option α) (dgfile : String)
    (raw : FVal) :
    ∀ fuel i d (g g' : FileObj α),
    runFrom dvals getdata dgfile [] fuel i d g = .ok g' →
    PrimVal g raw →
    ∀ j e, i ≤ j → g.get? j = some e → isSci e = true →
    ∃ xv ins iv dat1 dat2,
      hdrGet e.header "EXTVER" = some xv ∧
      hdrGetPrim g "INSTRUME" = some (.str ins) ∧
      dvals ins = some iv ∧
      getdata dgfile "DX" xv = some dat1 ∧
      getdata dgfile "DY" xv = some dat2 ∧
      g'.get? (g.length + 2 * csb g i j) =
        some (mkHdu iv (d + 2 * csb g i j + 1) dat1) ∧
      g'.get? (g.length + 2 * csb g i j + 1) =
        some (mkHdu iv (d + 2 * csb g i j + 2) dat2) := by
  intro fuel
  induction fuel with
  | zero =>
    intro i d g g' hok
    exact absurd hok (by simp [runFrom])
  | succ fuel ih =>
    intro i d g g' hok hraw j e hij hgj hscij
    have hwind : WindOK [] g := fun kv hkv => absurd hkv (List.not_mem_nil kv)
    cases hgi : g.get? i with
    | none =>
      rw [get?_none_mono g i j hgi hij] at hgj
      exact absurd hgj (by simp)
    | some e0 =>
      rcases hname : hdrGet e0.header "EXTNAME" with _ | nv
      · simp only [runFrom, hgi, hname] at hok
        have hji : j ≠ i := by
          intro h
          rw [h, hgi] at hgj
          rw [← Option.some.inj hgj] at hscij
          rw [isSci_of_noname e0 hname] at hscij
          exact Bool.noConfusion hscij
        have hsa : sciAt g i = false := by
          rw [sciAt_of_get g i e0 hgi]
          exact isSci_of_noname e0 hname
        have hcsb : csb g i j = csb g (i + 1) j := by
          rw [csb_left_step g i j (by omega), hsa]
          simp
        rw [hcsb]
        exact ih (i + 1) d g g' hok hraw j e (by omega) hgj hscij
      · cases nv with
        | str s =>
          by_cases hsl : strLower s = "sci"
          · simp only [runFrom, hgi, hname] at hok
            rw [if_pos hsl] at hok
            rcases hver : hdrGet e0.header "EXTVER" with _ | xv
            · simp only [hver] at hok
              exact absurd hok (by simp)
            · simp only [hver] at hok
              cases hstep : sciStep dvals getdata dgfile [] i d xv g with
              | error err =>
                rw [hstep] at hok
                exact absurd hok (by simp)
              | ok gE =>
                rw [hstep] at hok
                have hsci0 : isSci e0 = true := by
                  rw [isSci_of_str e0 s hname]
                  exact beq_iff_eq.2 hsl
                obtain ⟨_, hfrE, hprE, _, hsaE, _, hinsE, _, hlenE, _⟩ :=
                  sciStep_effects dvals getdata dgfile [] i d xv g gE e0 raw
                    hgi hsci0 hraw hwind hstep
                have hlE : gE.length = g.length + 2 := hlenE rfl
                obtain ⟨ins, iv, dat1, dat2, ⟨pA, hpA, hpAins⟩, hiv, hdx, hdy,
                  hshape⟩ :=
                  sciStep_ok_char dvals getdata dgfile [] i d xv g gE e0 raw
                    hgi hsci0 hraw hwind hstep
                rcases hshape with ⟨_, hgEeq⟩ | ⟨p1, p2, hwne, _⟩
                swap
                · exact absurd rfl hwne
                by_cases hji : j = i
                · subst hji
                  have hee : e0 = e := by
                    rw [hgi] at hgj
                    exact Option.some.inj hgj
                  subst hee
                  have hcsb : csb g j j = 0 := csb_of_le g j j le_rfl
                  rw [hcsb]
                  have hgE1 : gE.get? g.length = some (mkHdu iv (d + 1) dat1) := by
                    have hfst := get?_append2_fst (g.set j (annotExt e0 d raw))
                      (mkHdu iv (d + 1) dat1) (mkHdu iv (d + 2) dat2)
                    rw [List.length_set] at hfst
                    rw [hgEeq]
                    exact hfst
                  have hgE2 : gE.get? (g.length + 1) =
                      some (mkHdu iv (d + 2) dat2) := by
                    have hsnd := get?_append2_snd (g.set j (annotExt e0 d raw))
                      (mkHdu iv (d + 1) dat1) (mkHdu iv (d + 2) dat2)
                    rw [List.length_set] at hsnd
                    rw [hgEeq]
                    exact hsnd
                  have hf1 := run_frame_A dvals getdata dgfile raw fuel
                    (j + 1) (d + 2) gE g' hok hprE g.length _ hgE1
                    (fun _ => mkHdu_isSci iv (d + 1) dat1)
                  have hf2 := run_frame_A dvals getdata dgfile raw fuel
                    (j + 1) (d + 2) gE g' hok hprE (g.length + 1) _ hgE2
                    (fun _ => mkHdu_isSci iv (d + 2) dat2)
                  refine ⟨xv, ins, iv, dat1, dat2, hver,
                    by rw [hdrGetPrim_of_get g pA _ hpA]; exact hpAins,
                    hiv, hdx, hdy, ?_, ?_⟩
                  · rw [show g.length + 2 * 0 = g.length from by omega]
                    rw [show d + 2 * 0 + 1 = d + 1 from by omega]
                    exact hf1
                  · rw [show g.length + 2 * 0 + 1 = g.length + 1 from by omega]
                    rw [show d + 2 * 0 + 2 = d + 2 from by omega]
                    exact hf2
                · have hgEj : gE.get? j = some e := by
                    apply hfrE j e hji hgj
                    intro hcon
                    exact isSci_not_wcsd e hscij hcon
                  obtain ⟨xv2, ins2, iv2, dat12, dat22, hv2, hi2, hiv2, hx2,
                    hy2, hs1, hs2⟩ := ih (i + 1) (d + 2) gE g' hok hprE j e
                    (by omega) hgEj hscij
                  have hsa : sciAt g i = true := by
                    rw [sciAt_of_get g i e0 hgi]
                    exact hsci0
                  have hcsb1 : csb g i j = 1 + csb g (i + 1) j := by
                    rw [csb_left_step g i j (by omega), hsa, if_pos rfl]
                  have hcsbE : csb gE (i + 1) j = csb g (i + 1) j :=
                    csb_congr g gE (i + 1) j (fun q _ _ => hsaE q)
                  rw [hcsbE, hlE] at hs1 hs2
                  rw [hinsE] at hi2
                  refine ⟨xv2, ins2, iv2, dat12, dat22, hv2, hi2, hiv2, hx2,
                    hy2, ?_, ?_⟩
                  · rw [show g.length + 2 * csb g i j =
                      g.length + 2 + 2 * csb g (i + 1) j from by omega,
                      show d + 2 * csb g i j + 1 =
                      d + 2 + 2 * csb g (i + 1) j + 1 from by omega]
                    exact hs1
                  · rw [show g.length + 2 * csb g i j + 1 =
                      g.length + 2 + 2 * csb g (i + 1) j + 1 from by omega,
                      show d + 2 * csb g i j + 2 =
                      d + 2 + 2 * csb g (i + 1) j + 2 from by omega]
                    exact hs2
          · simp only [runFrom, hgi, hname] at hok
            rw [if_neg hsl] at hok
            have hji : j ≠ i := by
              intro h
              rw [h, hgi] at hgj
              rw [← Option.some.inj hgj] at hscij
              rw [isSci_of_str e0 s hname] at hscij
              exact hsl (beq_iff_eq.1 hscij)
            have hsa : sciAt g i = false := by
              rw [sciAt_of_get g i e0 hgi, isSci_of_str e0 s hname]
              exact beq_eq_false_iff_ne.2 hsl
            have hcsb : csb g i j = csb g (i + 1) j := by
              rw [csb_left_step g i j (by omega), hsa]
              simp
            rw [hcsb]
            exact ih (i + 1) d g g' hok hraw j e (by omega) hgj hscij
        | int n =>
          simp only [runFrom, hgi, hname] at hok
          exact absurd hok (by simp)
        | flt qq =>
          simp only [runFrom, hgi, hname] at hok
          exact absurd hok (by simp)


/-! ## Overwrite-mode (non-empty scan table) run lemmas -/

/-- With a non-empty scan table the run never changes the length of the
file object. -/
theorem run_len_B {α : Type} (dvals : String → Option GridDefaults)
    (getdata : String → String → FVal → Option α) (dgfile : String)
    (wind : List (FVal × Nat)) (raw : FVal) (hwne : wind ≠ []) :
    ∀ fuel i d (g g' : FileObj α),
    runFrom dvals getdata dgfile wind fuel i d g = .ok g' →
    PrimVal g raw → WindOK wind g →
    g'.length = g.length := by
  intro fuel
  induction fuel with
  | zero =>
    intro i d g g' hok
    exact absurd hok (by simp [runFrom])
  | succ fuel ih =>
    intro i d g g' hok hraw hwind
    cases hgi : g.get? i with
    | none =>
      simp only [runFrom, hgi] at hok
      rw [← Except.ok.inj hok]
    | some e =>
      rcases hname : hdrGet e.header "EXTNAME" with _ | nv
      · simp only [runFrom, hgi, hname] at hok
        exact ih (i + 1) d g g' hok hraw hwind
      · cases nv with
        | str s =>
          by_cases hsl : strLower s = "sci"
          · simp only [runFrom, hgi, hname] at hok
            rw [if_pos hsl] at hok
            rcases hver : hdrGet e.header "EXTVER" with _ | xv
            · simp only [hver] at hok
              exact absurd hok (by simp)
            · simp only [hver] at hok
              cases hstep : sciStep dvals getdata dgfile wind i d xv g with
              | error err =>
                rw [hstep] at hok
                exact absurd hok (by simp)
              | ok gE =>
                rw [hstep] at hok
                have hsci : isSci e = true := by
                  rw [isSci_of_str e s hname]
                  exact beq_iff_eq.2 hsl
                obtain ⟨_, _, hprE, hwdE, _, _, _, _, _, hlenB⟩ :=
                  sciStep_effects dvals getdata dgfile wind i d xv g gE e raw
                    hgi hsci hraw hwind hstep
                rw [ih (i + 1) (d + 2) gE g' hok hprE hwdE]
                exact hlenB hwne
          · simp only [runFrom, hgi, hname] at hok
            rw [if_neg hsl] at hok
            exact ih (i + 1) d g g' hok hraw hwind
        | int n =>
          simp only [runFrom, hgi, hname] at hok
          exact absurd hok (by simp)
        | flt qq =>
          simp only [runFrom, hgi, hname] at hok
          exact absurd hok (by simp)

/-- Overwrite-mode frame: a non-science position whose index the scan
table never returns for any counter value still to come is preserved. -/
theorem run_frame_B {α : Type} (dvals : String → Option GridDefaults)
    (getdata : String → String → FVal → Option α) (dgfile : String)
    (wind : List (FVal × Nat)) (raw : FVal) (hwne : wind ≠ []) :
    ∀ fuel i d (g g' : FileObj α),
    runFrom dvals getdata dgfile wind fuel i d g = .ok g' →
    PrimVal g raw → WindOK wind g →
    ∀ p ep, g.get? p = some ep → isSci ep = false →
    (∀ dd, d < dd → dictLookup wind (.int dd) ≠ some p) →
    g'.get? p = some ep := by
  intro fuel
  induction fuel with
  | zero =>
    intro i d g g' hok
    exact absurd hok (by simp [runFrom])
  | succ fuel ih =>
    intro i d g g' hok hraw hwind p ep hgp hns hdd
    cases hgi : g.get? i with
    | none =>
      simp only [runFrom, hgi] at hok
      rw [← Except.ok.inj hok]
      exact hgp
    | some e =>
      rcases hname : hdrGet e.header "EXTNAME" with _ | nv
      · simp only [runFrom, hgi, hname] at hok
        exact ih (i + 1) d g g' hok hraw hwind p ep hgp hns hdd
      · cases nv with
        | str s =>
          by_cases hsl : strLower s = "sci"
          · simp only [runFrom, hgi, hname] at hok
            rw [if_pos hsl] at hok
            rcases hver : hdrGet e.header "EXTVER" with _ | xv
            · simp only [hver] at hok
              exact absurd hok (by simp)
            · simp only [hver] at hok
              cases hstep : sciStep dvals getdata dgfile wind i d xv g with
              | error err =>
                rw [hstep] at hok
                exact absurd hok (by simp)
              | ok gE =>
                rw [hstep] at hok
                have hsci : isSci e = true := by
                  rw [isSci_of_str e s hname]
                  exact beq_iff_eq.2 hsl
                obtain ⟨_, _, hprE, hwdE, _, _, _, _, _, _⟩ :=
                  sciStep_effects dvals getdata dgfile wind i d xv g gE e raw
                    hgi hsci hraw hwind hstep
                obtain ⟨ins, iv, dat1, dat2, _, _, _, _, hshape⟩ :=
                  sciStep_ok_char dvals getdata dgfile wind i d xv g gE e raw
                    hgi hsci hraw hwind hstep
                rcases hshape with ⟨hwe, _⟩ | ⟨p1, p2, _, hdl1, hdl2, _, _, _,
                  _, _, _, hgEeq⟩
                · exact absurd hwe hwne
                have hpi : p ≠ i := by
                  intro h
                  rw [h, hgi] at hgp
                  rw [← Option.some.inj hgp] at hns
                  rw [hns] at hsci
                  exact Bool.noConfusion hsci
                have hpp1 : p ≠ p1 := by
                  intro h
                  apply hdd (d + 1) (by omega)
                  have hkey : ((d + 1 : Nat) : Int) = (d : Int) + 1 := by
                    push_cast
                    ring
                  rw [hkey, hdl1, h]
                have hpp2 : p ≠ p2 := by
                  intro h
                  apply hdd (d + 2) (by omega)
                  have hkey : ((d + 2 : Nat) : Int) = (d : Int) + 2 := by
                    push_cast
                    ring
                  rw [hkey, hdl2, h]
                have hgEp : gE.get? p = some ep := by
                  rw [hgEeq, get?_set_other _ p2 _ p (fun h => hpp2 h.symm),
                    get?_set_other _ p1 _ p (fun h => hpp1 h.symm),
                    get?_set_other g i _ p (fun h => hpi h.symm)]
                  exact hgp
                exact ih (i + 1) (d + 2) gE g' hok hprE hwdE p ep hgEp hns
                  (fun dd hd => hdd dd (by omega))
          · simp only [runFrom, hgi, hname] at hok
            rw [if_neg hsl] at hok
            exact ih (i + 1) d g g' hok hraw hwind p ep hgp hns hdd
        | int n =>
          simp only [runFrom, hgi, hname] at hok
          exact absurd hok (by simp)
        | flt qq =>
          simp only [runFrom, hgi, hname] at hok
          exact absurd hok (by simp)

/-- In overwrite mode, the two lookup HDUs of the science extension at `j`
land exactly at the slots the scan table names for its two counter values,
and stay there. -/
theorem run_overwrite_slots {α : Type} (dvals : String → Option GridDefaults)
    (getdata : String → String → FVal → Option α) (dgfile : String)
    (wind : List (FVal × Nat)) (raw : FVal) (hwne : wind ≠ [])
    (hpw : wind.Pairwise (fun a b => a.2 < b.2)) :
    ∀ fuel i d (g g' : FileObj α),
    runFrom dvals getdata dgfile wind fuel i d g = .ok g' →
    PrimVal g raw → WindOK wind g →
    ∀ j e, i ≤ j → g.get? j = some e → isSci e = true →
    ∃ xv ins iv dat1 dat2 p1 p2,
      hdrGet e.header "EXTVER" = some xv ∧
      hdrGetPrim g "INSTRUME" = some (.str ins) ∧
      dvals ins = some iv ∧
      getdata dgfile "DX" xv = some dat1 ∧
      getdata dgfile "DY" xv = some dat2 ∧
      dictLookup wind (.int (d + 2 * csb g i j + 1)) = some p1 ∧
      dictLookup wind (.int (d + 2 * csb g i j + 2)) = some p2 ∧
      g'.get? p1 = some (mkHdu iv (d + 2 * csb g i j + 1) dat1) ∧
      g'.get? p2 = some (mkHdu iv (d + 2 * csb g i j + 2) dat2) := by
  intro fuel
  induction fuel with
  | zero =>
    intro i d g g' hok
    exact absurd hok (by simp [runFrom])
  | succ fuel ih =>
    intro i d g g' hok hraw hwind j e hij hgj hscij
    cases hgi : g.get? i with
    | none =>
      rw [get?_none_mono g i j hgi hij] at hgj
      exact absurd hgj (by simp)
    | some e0 =>
      rcases hname : hdrGet e0.header "EXTNAME" with _ | nv
      · simp only [runFrom, hgi, hname] at hok
        have hji : j ≠ i := by
          intro h
          rw [h, hgi] at hgj
          rw [← Option.some.inj hgj] at hscij
          rw [isSci_of_noname e0 hname] at hscij
          exact Bool.noConfusion hscij
        have hsa : sciAt g i = false := by
          rw [sciAt_of_get g i e0 hgi]
          exact isSci_of_noname e0 hname
        have hcsb : csb g i j = csb g (i + 1) j := by
          rw [csb_left_step g i j (by omega), hsa]
          simp
        rw [hcsb]
        exact ih (i + 1) d g g' hok hraw hwind j e (by omega) hgj hscij
      · cases nv with
        | str s =>
          by_cases hsl : strLower s = "sci"
          · simp only [runFrom, hgi, hname] at hok
            rw [if_pos hsl] at hok
            rcases hver : hdrGet e0.header "EXTVER" with _ | xv
            · simp only [hver] at hok
              exact absurd hok (by simp)
            · simp only [hver] at hok
              cases hstep : sciStep dvals getdata dgfile wind i d xv g with
              | error err =>
                rw [hstep] at hok
                exact absurd hok (by simp)
              | ok gE =>
                rw [hstep] at hok
                have hsci0 : isSci e0 = true := by
                  rw [isSci_of_str e0 s hname]
                  exact beq_iff_eq.2 hsl
                obtain ⟨_, hfrE, hprE, hwdE, hsaE, _, hinsE, _, _, _⟩ :=
                  sciStep_effects dvals getdata dgfile wind i d xv g gE e0 raw
                    hgi hsci0 hraw hwind hstep
                obtain ⟨ins, iv, dat1, dat2, ⟨pA, hpA, hpAins⟩, hiv, hdx, hdy,
                  hshape⟩ :=
                  sciStep_ok_char dvals getdata dgfile wind i d xv g gE e0 raw
                    hgi hsci0 hraw hwind hstep
                rcases hshape with ⟨hwe, _⟩ | ⟨p1, p2, _, hdl1, hdl2, hp1i,
                  hp2i, hp10, hp20, hp1lt, hp2lt, hgEeq⟩
                · exact absurd hwe hwne
                by_cases hji : j = i
                · subst hji
                  have hee : e0 = e := by
                    rw [hgi] at hgj
                    exact Option.some.inj hgj
                  subst hee
                  have hcsb : csb g j j = 0 := csb_of_le g j j le_rfl
                  rw [hcsb]
                  have hp12 : p1 ≠ p2 := by
                    intro h
                    have := dictLookup_key_unique wind (.int (d + 1))
                      (.int (d + 2)) p2 hpw (by rw [← h]; exact hdl1) hdl2
                    have h2 : (d : Int) + 1 = (d : Int) + 2 := FVal.int.inj this
                    omega
                  have hgE1 : gE.get? p1 = some (mkHdu iv (d + 1) dat1) := by
                    rw [hgEeq, get?_set_other _ p2 _ p1 (fun h => hp12 h.symm)]
                    apply get?_set_self
                    simp only [List.length_set]
                    exact hp1lt
                  have hgE2 : gE.get? p2 = some (mkHdu iv (d + 2) dat2) := by
                    rw [hgEeq]
                    apply get?_set_self
                    simp only [List.length_set]
                    exact hp2lt
                  have hnd1 : ∀ dd, d + 2 < dd →
                      dictLookup wind (.int dd) ≠ some p1 := by
                    intro dd hd hcon
                    have := dictLookup_key_unique wind (.int dd)
                      (.int (d + 1)) p1 hpw hcon hdl1
                    have h2 : (dd : Int) = (d : Int) + 1 := FVal.int.inj this
                    omega
                  have hnd2 : ∀ dd, d + 2 < dd →
                      dictLookup wind (.int dd) ≠ some p2 := by
                    intro dd hd hcon
                    have := dictLookup_key_unique wind (.int dd)
                      (.int (d + 2)) p2 hpw hcon hdl2
                    have h2 : (dd : Int) = (d : Int) + 2 := FVal.int.inj this
                    omega
                  have hf1 := run_frame_B dvals getdata dgfile wind raw hwne
                    fuel (j + 1) (d + 2) gE g' hok hprE hwdE p1 _ hgE1
                    (mkHdu_isSci iv (d + 1) dat1) hnd1
                  have hf2 := run_frame_B dvals getdata dgfile wind raw hwne
                    fuel (j + 1) (d + 2) gE g' hok hprE hwdE p2 _ hgE2
                    (mkHdu_isSci iv (d + 2) dat2) hnd2
                  refine ⟨xv, ins, iv, dat1, dat2, p1, p2, hver,
                    by rw [hdrGetPrim_of_get g pA _ hpA]; exact hpAins,
                    hiv, hdx, hdy, ?_, ?_, ?_, ?_⟩
                  · convert hdl1 using 3
                  · convert hdl2 using 3
                  · rw [show d + 2 * 0 + 1 = d + 1 from by omega]
                    exact hf1
                  · rw [show d + 2 * 0 + 2 = d + 2 from by omega]
                    exact hf2
                · have hgEj : gE.get? j = some e := by
                    apply hfrE j e hji hgj
                    intro hcon
                    exact isSci_not_wcsd e hscij hcon
                  obtain ⟨xv2, ins2, iv2, dat12, dat22, q1, q2, hv2, hi2, hiv2,
                    hx2, hy2, hl1, hl2, hs1, hs2⟩ := ih (i + 1) (d + 2) gE g'
                    hok hprE hwdE j e (by omega) hgEj hscij
                  have hsa : sciAt g i = true := by
                    rw [sciAt_of_get g i e0 hgi]
                    exact hsci0
                  have hcsb1 : csb g i j = 1 + csb g (i + 1) j := by
                    rw [csb_left_step g i j (by omega), hsa, if_pos rfl]
                  have hcsbE : csb gE (i + 1) j = csb g (i + 1) j :=
                    csb_congr g gE (i + 1) j (fun q _ _ => hsaE q)
                  rw [hcsbE] at hl1 hl2 hs1 hs2
                  rw [hinsE] at hi2
                  refine ⟨xv2, ins2, iv2, dat12, dat22, q1, q2, hv2, hi2, hiv2,
                    hx2, hy2, ?_, ?_, ?_, ?_⟩
                  · convert hl1 using 3
                    omega
                  · convert hl2 using 3
                    omega
                  · rw [show d + 2 * csb g i j + 1 =
                      d + 2 + 2 * csb g (i + 1) j + 1 from by omega]
                    exact hs1
                  · rw [show d + 2 * csb g i j + 2 =
                      d + 2 + 2 * csb g (i + 1) j + 2 from by omega]
                    exact hs2
          · simp only [runFrom, hgi, hname] at hok
            rw [if_neg hsl] at hok
            have hji : j ≠ i := by
              intro h
              rw [h, hgi] at hgj
              rw [← Option.some.inj hgj] at hscij
              rw [isSci_of_str e0 s hname] at hscij
              exact hsl (beq_iff_eq.1 hscij)
            have hsa : sciAt g i = false := by
              rw [sciAt_of_get g i e0 hgi, isSci_of_str e0 s hname]
              exact beq_eq_false_iff_ne.2 hsl
            have hcsb : csb g i j = csb g (i + 1) j := by
              rw [csb_left_step g i j (by omega), hsa]
              simp
            rw [hcsb]
            exact ih (i + 1) d g g' hok hraw hwind j e (by omega) hgj hscij
        | int n =>
          simp only [runFrom, hgi, hname] at hok
          exact absurd hok (by simp)
        | flt qq =>
          simp only [runFrom, hgi, hname] at hok
          exact absurd hok (by simp)


/-! ## Top-level inversion and `wcsdExtvers` computation helpers -/

/-- Inversion of a successful `applyDgeoCorr` call. -/
theorem applyDgeoCorr_ok_inv {α : Type} (osfn : String → String)
    (dvals : String → Option GridDefaults)
    (getdata : String → String → FVal → Option α) (f f' : FileObj α)
    (hok : applyDgeoCorr osfn dvals getdata f = .ok f') :
    ∃ rawS wind, PrimVal f (.str rawS) ∧ getwcsindex f = .ok wind ∧
      WindOK wind f ∧
      runFrom dvals getdata (osfn rawS) wind (3 * f.length + 1) 0 0 f =
        .ok f' := by
  cases hh : f.head? with
  | none =>
    simp only [applyDgeoCorr, hh] at hok
    exact absurd hok (by simp)
  | some p0 =>
    rcases hdg : hdrGet p0.header "DGEOFILE" with _ | rv
    · simp only [applyDgeoCorr, hh, hdg] at hok
      exact absurd hok (by simp)
    · cases rv with
      | str rawS =>
        cases hsc : getwcsindex f with
        | error m =>
          simp only [applyDgeoCorr, hh, hdg, hsc] at hok
          exact absurd hok (by simp)
        | ok wind =>
          simp only [applyDgeoCorr, hh, hdg, hsc] at hok
          refine ⟨rawS, wind, ⟨p0, ?_, hdg⟩, rfl,
            getwcsindex_windOK f wind hsc, hok⟩
          rw [List.get?_zero, hh]
      | int n =>
        simp only [applyDgeoCorr, hh, hdg] at hok
        exact absurd hok (by simp)
      | flt qq =>
        simp only [applyDgeoCorr, hh, hdg] at hok
        exact absurd hok (by simp)

theorem sciCountFrom_zero {α : Type} (g : FileObj α) :
    sciCountFrom g 0 = sciCount g := by
  unfold sciCountFrom sciCount
  rw [List.drop_zero]

theorem wcsdExtvers_append {α : Type} (l1 l2 : FileObj α) :
    wcsdExtvers (l1 ++ l2) = wcsdExtvers l1 ++ wcsdExtvers l2 := by
  unfold wcsdExtvers
  rw [List.filter_append, List.map_append]

theorem wcsdExtvers_nil_of_none {α : Type} (l : FileObj α)
    (h : ∀ q e, l.get? q = some e → isWcsd e = false) :
    wcsdExtvers l = [] := by
  unfold wcsdExtvers
  have hf : l.filter isWcsd = [] := by
    rw [List.filter_eq_nil_iff]
    intro a ha
    obtain ⟨n, hn⟩ := List.get?_of_mem ha
    rw [h n a hn]
    simp
  rw [hf]
  rfl

/-- A file object that is all lookup extensions pointwise has its
`EXTVER` column given pointwise. -/
theorem wcsdExtvers_all {α : Type} :
    ∀ (l : FileObj α) (F : Nat → Option FVal),
    (∀ t e', l.get? t = some e' →
      isWcsd e' = true ∧ hdrGet e'.header "EXTVER" = F t) →
    wcsdExtvers l = (List.range l.length).map F := by
  intro l
  induction l with
  | nil =>
    intro F h
    rfl
  | cons e rest ih =>
    intro F h
    obtain ⟨hw0, hv0⟩ := h 0 e rfl
    have hrest := ih (fun t => F (t + 1))
      (fun t e' ht => h (t + 1) e' (by rw [List.get?_cons_succ]; exact ht))
    unfold wcsdExtvers at hrest ⊢
    rw [List.filter_cons, if_pos hw0, List.map_cons, hrest,
      List.length_cons, List.range_succ_eq_map, List.map_cons, List.map_map]
    rw [hv0]
    rfl


/-! ## Claim theorems C1, C2, C8 -/

/-- C1: on a file object with no pre-existing `WCSDVARR` extension, a
successful annotation leaves exactly `2 N` lookup extensions (where `N`
counts the science extensions), whose `EXTVER` values are, in file order,
exactly `1, 2, ..., 2 N` — each value assigned once, none skipped or
duplicated. -/
theorem c1_lookup_extvers {α : Type} (osfn : String → String)
    (dvals : String → Option GridDefaults)
    (getdata : String → String → FVal → Option α) (f f' : FileObj α)
    (hok : applyDgeoCorr osfn dvals getdata f = .ok f')
    (hnow : ∀ e ∈ f, hdrGet e.header "EXTNAME" ≠ some (.str "WCSDVARR")) :
    wcsdExtvers f' = (List.range (2 * sciCount f)).map
      (fun t => some (.int (t + 1))) := by
  obtain ⟨rawS, wind, hraw, hsc, hwind, hrun⟩ :=
    applyDgeoCorr_ok_inv osfn dvals getdata f f' hok
  have hnil : getwcsindexAux f 0 = .ok [] := getwcsindexAux_nil f 0 hnow
  have hwe : wind = [] := Except.ok.inj (hsc.symm.trans hnil)
  subst hwe
  have hlen : f'.length = f.length + 2 * sciCount f := by
    rw [← sciCountFrom_zero]
    exact run_len_A dvals getdata (osfn rawS) (.str rawS) (3 * f.length + 1)
      0 0 f f' hrun hraw
  have htake : wcsdExtvers (f'.take f.length) = [] := by
    apply wcsdExtvers_nil_of_none
    intro q e' hq
    have hqlt : q < f.length := by
      by_contra hcon
      have hlt : (f'.take f.length).length ≤ q := by
        rw [List.length_take]
        omega
      rw [List.get?_eq_none.2 hlt] at hq
      exact Option.noConfusion hq
    have hq' : f'.get? q = some e' := by
      rw [← List.get?_take hqlt]
      exact hq
    cases hfq : f.get? q with
    | none =>
      rw [List.get?_eq_none] at hfq
      omega
    | some eq =>
      have hmem : eq ∈ f := List.get?_mem hfq
      have hnwq : hdrGet eq.header "EXTNAME" ≠ some (.str "WCSDVARR") :=
        hnow eq hmem
      cases hscq : isSci eq with
      | true =>
        obtain ⟨hannot, _⟩ := run_sci_full dvals getdata (osfn rawS) []
          (.str rawS) (3 * f.length + 1) 0 0 f f' hrun hraw
          (fun kv hkv => absurd hkv (List.not_mem_nil kv)) q eq (by omega)
          hfq hscq
        have he' : e' = annotExt eq (0 + 2 * csb f 0 q) (.str rawS) :=
          Option.some.inj (hq'.symm.trans hannot)
        rw [he']
        rw [annotExt_isWcsd]
        unfold isWcsd
        exact beq_eq_false_iff_ne.2 hnwq
      | false =>
        have hfin := run_frame_A dvals getdata (osfn rawS) (.str rawS)
          (3 * f.length + 1) 0 0 f f' hrun hraw q eq hfq (fun _ => hscq)
        have he' : e' = eq := Option.some.inj (hq'.symm.trans hfin)
        rw [he']
        unfold isWcsd
        exact beq_eq_false_iff_ne.2 hnwq
  have hdlen : (f'.drop f.length).length = 2 * sciCount f := by
    rw [List.length_drop, hlen]
    omega
  have hdrop := wcsdExtvers_all (f'.drop f.length)
    (fun t => some (.int (t + 1))) (by
      intro t e' ht
      rw [List.get?_drop] at ht
      obtain ⟨jv, jdat, hj⟩ := run_A_tail dvals getdata (osfn rawS)
        (.str rawS) (3 * f.length + 1) 0 0 f f' hrun hraw (f.length + t)
        (by omega) e' ht
      have hidx : 0 + (f.length + t - f.length) + 1 = t + 1 := by omega
      rw [hidx] at hj
      rw [hj]
      refine ⟨mkHdu_isWcsd jv (t + 1) jdat, ?_⟩
      rw [mkHdu_header, lookupHdr_get_EXTVER]
      norm_cast)
  rw [hdlen] at hdrop
  rw [← List.take_append_drop f.length f', wcsdExtvers_append, htake,
    List.nil_append]
  exact hdrop

/-- C2: a science extension sitting at position `j` — the `k`-th science
extension in file order with `k = csb f 0 j + 1` — ends up with
`DP1.EXTVER = 2 k − 1` and `DP2.EXTVER = 2 k`, independently of its own
`EXTVER` value. -/
theorem c2_dp_extver {α : Type} (osfn : String → String)
    (dvals : String → Option GridDefaults)
    (getdata : String → String → FVal → Option α) (f f' : FileObj α)
    (hok : applyDgeoCorr osfn dvals getdata f = .ok f')
    (j : Nat) (e : Ext α) (hj : f.get? j = some e) (hsci : isSci e = true) :
    ∃ e', f'.get? j = some e' ∧
      hdrGet e'.header "DP1.EXTVER" = some (.int (2 * (csb f 0 j + 1) - 1)) ∧
      hdrGet e'.header "DP2.EXTVER" = some (.int (2 * (csb f 0 j + 1))) := by
  obtain ⟨rawS, wind, hraw, hsc, hwind, hrun⟩ :=
    applyDgeoCorr_ok_inv osfn dvals getdata f f' hok
  obtain ⟨hannot, _⟩ := run_sci_full dvals getdata (osfn rawS) wind
    (.str rawS) (3 * f.length + 1) 0 0 f f' hrun hraw hwind j e (by omega)
    hj hsci
  refine ⟨annotExt e (0 + 2 * csb f 0 j) (.str rawS), hannot, ?_, ?_⟩
  · rw [(annotExt_dp1extver e (0 + 2 * csb f 0 j) (.str rawS)).1]
    congr 2
    omega
  · rw [(annotExt_dp2extver e (0 + 2 * csb f 0 j) (.str rawS)).1]
    congr 2
    omega

/-- C8: every non-science position — including those with no `EXTNAME`
keyword at all, which are skipped silently — is either completely
untouched (header and data) or, only when its extension is named exactly
`'WCSDVARR'`, replaced by a freshly built lookup HDU. -/
theorem c8_nonsci_untouched {α : Type} (osfn : String → String)
    (dvals : String → Option GridDefaults)
    (getdata : String → String → FVal → Option α) (f f' : FileObj α)
    (hok : applyDgeoCorr osfn dvals getdata f = .ok f')
    (q : Nat) (eq : Ext α) (hq : f.get? q = some eq)
    (hns : isSci eq = false) :
    f'.get? q = some eq ∨ (hdrGet eq.header "EXTNAME" = some (.str "WCSDVARR") ∧
      ∃ jv jd jdat, f'.get? q = some (mkHdu jv jd jdat)) := by
  obtain ⟨rawS, wind, hraw, hsc, hwind, hrun⟩ :=
    applyDgeoCorr_ok_inv osfn dvals getdata f f' hok
  exact run_nonsci_pos dvals getdata (osfn rawS) wind (.str rawS)
    (3 * f.length + 1) 0 0 f f' hrun hraw hwind q eq hq hns

/-! ## Fixtures and witnesses for C1, C2, C8 -/

def wcsdX2 : Ext String :=
  ⟨[⟨"EXTNAME", .str "WCSDVARR", "c5"⟩, ⟨"EXTVER", .int 2, "c6"⟩], some "old2"⟩

def extraX : Ext String := ⟨[⟨"FOO", .int 1, "c7"⟩], some "d0"⟩

def fC1 : FileObj String := [primX, sciX1, sciX2]

def fC1res : FileObj String :=
  match applyDgeoCorr osfnX dvalsX getdataX fC1 with
  | .ok r => r
  | .error e => e.2

def fC8 : FileObj String := [primX, extraX, sciX1, wcsdX1, wcsdX2]

def fC8res : FileObj String :=
  match applyDgeoCorr osfnX dvalsX getdataX fC8 with
  | .ok r => r
  | .error e => e.2

theorem c1_witness :
    wcsdExtvers fC1res = (List.range (2 * sciCount fC1)).map
      (fun t => some (.int (t + 1))) :=
  c1_lookup_extvers osfnX dvalsX getdataX fC1 fC1res (by decide) (by decide)

theorem c2_witness :
    ∃ e', fC1res.get? 2 = some e' ∧
      hdrGet e'.header "DP1.EXTVER" = some (.int (2 * (csb fC1 0 2 + 1) - 1)) ∧
      hdrGet e'.header "DP2.EXTVER" = some (.int (2 * (csb fC1 0 2 + 1))) :=
  c2_dp_extver osfnX dvalsX getdataX fC1 fC1res (by decide) 2 sciX2
    (by decide) (by decide)

theorem c8_witness :
    fC8res.get? 1 = some extraX ∨
      (hdrGet extraX.header "EXTNAME" = some (.str "WCSDVARR") ∧
        ∃ jv jd jdat, fC8res.get? 1 = some (mkHdu jv jd jdat)) :=
  c8_nonsci_untouched osfnX dvalsX getdataX fC8 fC8res (by decide) 1 extraX
    (by decide) (by decide)


/-! ## Header-index lemmas: placement before the `HISTORY` block -/

theorem hdrIdx_isSome (h : Header) (k : String) :
    hdrHasKey h k = (hdrIdx h k).isSome := by
  induction h with
  | nil => rfl
  | cons cd rest ih =>
    by_cases hk : cd.key = k <;> simp [hdrHasKey, hdrIdx, hk, ih]

theorem hdrIdx_cons_pos (cd : Card) (rest : Header) (k : String)
    (h : cd.key = k) : hdrIdx (cd :: rest) k = some 0 := by
  simp only [hdrIdx, if_pos h]

theorem hdrIdx_cons_neg (cd : Card) (rest : Header) (k : String)
    (h : ¬ cd.key = k) :
    hdrIdx (cd :: rest) k = (hdrIdx rest k).map (· + 1) := by
  simp only [hdrIdx, if_neg h]

theorem hdrIdx_lt_length (h : Header) (k : String) (b : Nat)
    (hb : hdrIdx h k = some b) : b < h.length := by
  induction h generalizing b with
  | nil => exact Option.noConfusion hb
  | cons cd rest ih =>
    by_cases hk : cd.key = k
    · rw [hdrIdx_cons_pos cd rest k hk] at hb
      rw [← Option.some.inj hb]
      simp
    · rw [hdrIdx_cons_neg cd rest k hk] at hb
      cases hrest : hdrIdx rest k with
      | none =>
        rw [hrest] at hb
        exact Option.noConfusion hb
      | some a =>
        rw [hrest] at hb
        have hb' : a + 1 = b := Option.some.inj hb
        have := ih a hrest
        simp only [List.length_cons]
        omega

theorem hdrIdx_updFirst (h : Header) (k : String) (v : FVal) (c : String)
    (k' : String) : hdrIdx (updFirst h k v c) k' = hdrIdx h k' := by
  induction h with
  | nil => rfl
  | cons cd rest ih =>
    by_cases hk : cd.key = k
    · simp [updFirst, hdrIdx, hk]
    · simp [updFirst, hdrIdx, hk, ih]

theorem hdrHasKey_updFirst (h : Header) (k : String) (v : FVal) (c : String)
    (k' : String) : hdrHasKey (updFirst h k v c) k' = hdrHasKey h k' := by
  rw [hdrIdx_isSome, hdrIdx_isSome, hdrIdx_updFirst]

theorem hdrHasKey_insertAt (n : Nat) (card : Card) (h : Header) (k' : String) :
    hdrHasKey (insertAt n card h) k' = ((card.key == k') || hdrHasKey h k') := by
  induction h generalizing n with
  | nil =>
    simp [insertAt, hdrHasKey]
    by_cases hk : card.key = k' <;> simp [hk]
  | cons cd rest ih =>
    cases n with
    | zero =>
      simp only [insertAt, hdrHasKey]
      by_cases hk : card.key = k' <;> simp [hk]
    | succ m =>
      simp only [insertAt, hdrHasKey]
      by_cases hk : cd.key = k'
      · simp [hk]
      · simp only [if_neg hk, ih m]

theorem hdrIdx_insertAt_self (h : Header) (k : String) (v : FVal) (c : String)
    (b : Nat) (hfresh : hdrHasKey h k = false) (hb : b ≤ h.length) :
    hdrIdx (insertAt b (⟨k, v, c⟩ : Card) h) k = some b := by
  induction h generalizing b with
  | nil =>
    have hb0 : b = 0 := by
      simp only [List.length_nil] at hb
      omega
    subst hb0
    exact hdrIdx_cons_pos _ _ _ rfl
  | cons cd rest ih =>
    have hck : ¬ cd.key = k := by
      intro hcon
      simp only [hdrHasKey, if_pos hcon] at hfresh
      exact Bool.noConfusion hfresh
    have hfr : hdrHasKey rest k = false := by
      simp only [hdrHasKey, if_neg hck] at hfresh
      exact hfresh
    cases b with
    | zero =>
      rw [show insertAt 0 (⟨k, v, c⟩ : Card) (cd :: rest) =
        ⟨k, v, c⟩ :: cd :: rest from rfl]
      exact hdrIdx_cons_pos _ _ _ rfl
    | succ m =>
      rw [show insertAt (m + 1) (⟨k, v, c⟩ : Card) (cd :: rest) =
        cd :: insertAt m ⟨k, v, c⟩ rest from rfl,
        hdrIdx_cons_neg _ _ _ hck,
        ih m hfr (by simp only [List.length_cons] at hb; omega)]
      rfl

theorem hdrIdx_insertAt_before (h : Header) (card : Card) (k' : String)
    (a b : Nat) (ha : hdrIdx h k' = some a) (hab : a < b) :
    hdrIdx (insertAt b card h) k' = some a := by
  induction h generalizing a b with
  | nil => exact Option.noConfusion ha
  | cons cd rest ih =>
    cases b with
    | zero => omega
    | succ m =>
      by_cases hk : cd.key = k'
      · rw [hdrIdx_cons_pos cd rest k' hk] at ha
        rw [show insertAt (m + 1) card (cd :: rest) =
          cd :: insertAt m card rest from rfl, hdrIdx_cons_pos cd _ k' hk]
        exact ha
      · rw [hdrIdx_cons_neg cd rest k' hk] at ha
        cases hrest : hdrIdx rest k' with
        | none =>
          rw [hrest] at ha
          exact Option.noConfusion ha
        | some a' =>
          rw [hrest] at ha
          have haa : a' + 1 = a := Option.some.inj ha
          rw [show insertAt (m + 1) card (cd :: rest) =
            cd :: insertAt m card rest from rfl,
            hdrIdx_cons_neg cd _ k' hk, ih a' m hrest (by omega), ← haa]
          rfl

theorem hdrIdx_insertAt_shift (h : Header) (card : Card) (k' : String)
    (a b : Nat) (ha : hdrIdx h k' = some a) (hba : b ≤ a)
    (hck : card.key ≠ k') :
    hdrIdx (insertAt b card h) k' = some (a + 1) := by
  induction h generalizing a b with
  | nil => exact Option.noConfusion ha
  | cons cd rest ih =>
    cases b with
    | zero =>
      rw [show insertAt 0 card (cd :: rest) = card :: cd :: rest from rfl,
        hdrIdx_cons_neg card _ k' hck, ha]
      rfl
    | succ m =>
      by_cases hk : cd.key = k'
      · rw [hdrIdx_cons_pos cd rest k' hk] at ha
        have ha0 : (0 : Nat) = a := Option.some.inj ha
        omega
      · rw [hdrIdx_cons_neg cd rest k' hk] at ha
        cases hrest : hdrIdx rest k' with
        | none =>
          rw [hrest] at ha
          exact Option.noConfusion ha
        | some a' =>
          rw [hrest] at ha
          have haa : a' + 1 = a := Option.some.inj ha
          rw [show insertAt (m + 1) card (cd :: rest) =
            cd :: insertAt m card rest from rfl,
            hdrIdx_cons_neg cd _ k' hk, ih a' m hrest (by omega), ← haa]
          rfl

/-- The thirteen keywords one science iteration writes, in the order the
source writes them. -/
def c5Keys : List String :=
  ["CPERROR1", "CPDIS1", "DP1.EXTVER", "DP1.NAXES", "DP1.AXIS.1",
   "DP1.AXIS.2", "DGEOFILE", "CPERROR2", "CPDIS2", "DP2.EXTVER",
   "DP2.NAXES", "DP2.AXIS.1", "DP2.AXIS.2"]

/-- All the keys in `done` sit strictly before the first `HISTORY` card. -/
def BeforeHist (h : Header) (done : List String) : Prop :=
  ∃ b, hdrIdx h "HISTORY" = some b ∧
    ∀ k ∈ done, ∃ a, hdrIdx h k = some a ∧ a < b

/-- One `Header.update` with a fresh key inserts it before the `HISTORY`
block, keeps the previously inserted keys there, and leaves the remaining
pending keys absent. -/
theorem beforeHist_step_fresh (h : Header) (done pending : List String)
    (k : String) (v : FVal) (c : String)
    (hQ : BeforeHist h done)
    (hpend : ∀ k' ∈ k :: pending, hdrHasKey h k' = false)
    (hkh : k ≠ "HISTORY") (hkd : ∀ k' ∈ done, k' ≠ k) (hkp : k ∉ pending) :
    BeforeHist (hdrUpdate h k v c) (k :: done) ∧
    (∀ k' ∈ pending, hdrHasKey (hdrUpdate h k v c) k' = false) := by
  obtain ⟨b, hbidx, hall⟩ := hQ
  have hkK : hdrHasKey h k = false := hpend k (List.mem_cons_self k pending)
  have hupd : hdrUpdate h k v c = insertAt b ⟨k, v, c⟩ h := by
    unfold hdrUpdate
    rw [hkK, hbidx]
    rfl
  rw [hupd]
  refine ⟨⟨b + 1, ?_, ?_⟩, ?_⟩
  · exact hdrIdx_insertAt_shift h ⟨k, v, c⟩ "HISTORY" b b hbidx le_rfl hkh
  · intro k' hk'
    rcases List.mem_cons.1 hk' with hk' | hk'
    · subst hk'
      exact ⟨b, hdrIdx_insertAt_self h k' v c b hkK
        (le_of_lt (hdrIdx_lt_length h "HISTORY" b hbidx)), by omega⟩
    · obtain ⟨a, haidx, hab⟩ := hall k' hk'
      exact ⟨a, hdrIdx_insertAt_before h ⟨k, v, c⟩ k' a b haidx hab, by omega⟩
  · intro k' hk'
    rw [hdrHasKey_insertAt]
    have hkk' : ¬ (k = k') := fun hcon => hkp (hcon ▸ hk')
    have hp' : hdrHasKey h k' = false := hpend k' (List.mem_cons_of_mem k hk')
    rw [hp']
    simp [hkk']

/-- One `Header.update` on a key already placed before `HISTORY` updates
it in place: no index moves. -/
theorem beforeHist_step_exists (h : Header) (done pending : List String)
    (k : String) (v : FVal) (c : String)
    (hQ : BeforeHist h done)
    (hpend : ∀ k' ∈ pending, hdrHasKey h k' = false)
    (hk : k ∈ done) :
    BeforeHist (hdrUpdate h k v c) done ∧
    (∀ k' ∈ pending, hdrHasKey (hdrUpdate h k v c) k' = false) := by
  obtain ⟨b, hbidx, hall⟩ := hQ
  obtain ⟨a, haidx, hab⟩ := hall k hk
  have hkK : hdrHasKey h k = true := by
    rw [hdrIdx_isSome, haidx]
    rfl
  have hupd : hdrUpdate h k v c = updFirst h k v c := by
    unfold hdrUpdate
    rw [hkK]
    rfl
  rw [hupd]
  refine ⟨⟨b, ?_, ?_⟩, ?_⟩
  · rw [hdrIdx_updFirst]
    exact hbidx
  · intro k' hk'
    obtain ⟨a', ha', hab'⟩ := hall k' hk'
    exact ⟨a', by rw [hdrIdx_updFirst]; exact ha', hab'⟩
  · intro k' hk'
    rw [hdrHasKey_updFirst]
    exact hpend k' hk'

/-- All thirteen keywords of a full science-iteration annotation sit
strictly before the first `HISTORY` card when they were all absent and a
`HISTORY` card was present. -/
theorem annotExt_before_history {α : Type} (e : Ext α) (d : Nat) (raw : FVal)
    (hfresh : ∀ k ∈ c5Keys, hdrHasKey e.header k = false)
    (hhist : hdrHasKey e.header "HISTORY" = true) :
    ∃ b, hdrIdx (annotExt e d raw).header "HISTORY" = some b ∧
      ∀ k ∈ c5Keys, ∃ a, hdrIdx (annotExt e d raw).header k = some a ∧
        a < b := by
  have hb0 : ∃ b0, hdrIdx e.header "HISTORY" = some b0 := by
    rw [hdrIdx_isSome] at hhist
    cases hx : hdrIdx e.header "HISTORY" with
    | none =>
      rw [hx] at hhist
      exact absurd hhist (by simp)
    | some b0 => exact ⟨b0, rfl⟩
  obtain ⟨b0, hb0idx⟩ := hb0
  have q0 : BeforeHist e.header [] :=
    ⟨b0, hb0idx, fun k hk => absurd hk (List.not_mem_nil k)⟩
  have q1 := beforeHist_step_fresh e.header [] (c5Keys.drop 1) "CPERROR1"
    (.flt 0) (cperrComment (d + 1)) q0 hfresh (by decide)
    (fun k' hk' => absurd hk' (List.not_mem_nil k')) (by decide)
  have q2 := beforeHist_step_fresh _ _ (c5Keys.drop 2) "CPDIS1"
    (.str "Lookup") "Prior distortion funcion type" q1.1 q1.2 (by decide)
    (by decide) (by decide)
  have q3 := beforeHist_step_fresh _ _ (c5Keys.drop 3) "DP1.EXTVER"
    (.int ((d + 1 : Nat) : Int))
    "Version number of WCSDVARR extension containing lookup distortion table"
    q2.1 q2.2 (by decide) (by decide) (by decide)
  have q4 := beforeHist_step_fresh _ _ (c5Keys.drop 4) "DP1.NAXES" (.int 2)
    "Number of independent variables in distortion function" q3.1 q3.2
    (by decide) (by decide) (by decide)
  have q5 := beforeHist_step_fresh _ _ (c5Keys.drop 5) "DP1.AXIS.1" (.int 1)
    "Axis number of the jth independent variable in a distortion function"
    q4.1 q4.2 (by decide) (by decide) (by decide)
  have q6 := beforeHist_step_fresh _ _ (c5Keys.drop 6) "DP1.AXIS.2" (.int 2)
    "Axis number of the jth independent variable in a distortion function"
    q5.1 q5.2 (by decide) (by decide) (by decide)
  have q7 := beforeHist_step_fresh _ _ (c5Keys.drop 7) "DGEOFILE" raw
    dgfComment q6.1 q6.2 (by decide) (by decide) (by decide)
  have q8 := beforeHist_step_fresh _ _ (c5Keys.drop 8) "CPERROR2" (.flt 0)
    (cperrComment (d + 2)) q7.1 q7.2 (by decide) (by decide) (by decide)
  have q9 := beforeHist_step_fresh _ _ (c5Keys.drop 9) "CPDIS2"
    (.str "Lookup") "Prior distortion funcion type" q8.1 q8.2 (by decide)
    (by decide) (by decide)
  have q10 := beforeHist_step_fresh _ _ (c5Keys.drop 10) "DP2.EXTVER"
    (.int ((d + 2 : Nat) : Int))
    "Version number of WCSDVARR extension containing lookup distortion table"
    q9.1 q9.2 (by decide) (by decide) (by decide)
  have q11 := beforeHist_step_fresh _ _ (c5Keys.drop 11) "DP2.NAXES" (.int 2)
    "Number of independent variables in distortion function" q10.1 q10.2
    (by decide) (by decide) (by decide)
  have q12 := beforeHist_step_fresh _ _ (c5Keys.drop 12) "DP2.AXIS.1"
    (.int 1)
    "Axis number of the jth independent variable in a distortion function"
    q11.1 q11.2 (by decide) (by decide) (by decide)
  have q13 := beforeHist_step_fresh _ _ (c5Keys.drop 13) "DP2.AXIS.2"
    (.int 2)
    "Axis number of the jth independent variable in a distortion function"
    q12.1 q12.2 (by decide) (by decide) (by decide)
  have q14 := beforeHist_step_exists _ _ (c5Keys.drop 13) "DGEOFILE" raw
    dgfComment q13.1 q13.2 (by decide)
  have q15 := beforeHist_step_exists _ _ (c5Keys.drop 13) "DGEOFILE" raw
    dgfComment q14.1 q14.2 (by decide)
  obtain ⟨b, hbidx, hall⟩ := q15.1
  have hsub : ∀ k ∈ c5Keys, k ∈ ("DP2.AXIS.2" :: "DP2.AXIS.1" ::
    "DP2.NAXES" :: "DP2.EXTVER" :: "CPDIS2" :: "CPERROR2" :: "DGEOFILE" ::
    "DP1.AXIS.2" :: "DP1.AXIS.1" :: "DP1.NAXES" :: "DP1.EXTVER" ::
    "CPDIS1" :: "CPERROR1" :: ([] : List String)) := by decide
  simp only [← addSciKws_DX, ← addSciKws_DY] at hbidx hall
  simp only [annotExt, eFin, eHalf]
  exact ⟨b, hbidx, fun k hk => hall k (hsub k hk)⟩


/-- C5 (amended): each science extension receives, per axis `j ∈ {1, 2}`,
the six keywords `CPERRORj = 0.0`, `CPDISj = 'Lookup'`,
`DPj.EXTVER = lookupVersion`, `DPj.NAXES = 2`, `DPj.AXIS.1 = 1`,
`DPj.AXIS.2 = 2`; when the thirteen written keywords were absent and a
`HISTORY` card present, all of them are inserted strictly before the first
`HISTORY` card; and the final `DGEOFILE` record holds the primary header's
raw `DGEOFILE` value — not the resolved path the reference data was read
from. -/
theorem c5_keywords {α : Type} (osfn : String → String)
    (dvals : String → Option GridDefaults)
    (getdata : String → String → FVal → Option α) (f f' : FileObj α)
    (p0 : Ext α) (rawS : String)
    (hok : applyDgeoCorr osfn dvals getdata f = .ok f')
    (hp0 : f.get? 0 = some p0)
    (hdg : hdrGet p0.header "DGEOFILE" = some (.str rawS))
    (j : Nat) (e : Ext α) (hj : f.get? j = some e) (hsci : isSci e = true) :
    ∃ e', f'.get? j = some e' ∧
      hdrGet e'.header "CPERROR1" = some (.flt 0) ∧
      hdrGet e'.header "CPDIS1" = some (.str "Lookup") ∧
      hdrGet e'.header "DP1.EXTVER" = some (.int (2 * csb f 0 j + 1)) ∧
      hdrGet e'.header "DP1.NAXES" = some (.int 2) ∧
      hdrGet e'.header "DP1.AXIS.1" = some (.int 1) ∧
      hdrGet e'.header "DP1.AXIS.2" = some (.int 2) ∧
      hdrGet e'.header "CPERROR2" = some (.flt 0) ∧
      hdrGet e'.header "CPDIS2" = some (.str "Lookup") ∧
      hdrGet e'.header "DP2.EXTVER" = some (.int (2 * csb f 0 j + 2)) ∧
      hdrGet e'.header "DP2.NAXES" = some (.int 2) ∧
      hdrGet e'.header "DP2.AXIS.1" = some (.int 1) ∧
      hdrGet e'.header "DP2.AXIS.2" = some (.int 2) ∧
      hdrGet e'.header "DGEOFILE" = some (.str rawS) ∧
      ((∀ k ∈ c5Keys, hdrHasKey e.header k = false) →
        hdrHasKey e.header "HISTORY" = true →
        ∃ b, hdrIdx e'.header "HISTORY" = some b ∧
          ∀ k ∈ c5Keys, ∃ a, hdrIdx e'.header k = some a ∧ a < b) := by
  obtain ⟨rawS2, wind, hraw, hsc, hwind, hrun⟩ :=
    applyDgeoCorr_ok_inv osfn dvals getdata f f' hok
  have hraws : rawS2 = rawS := by
    obtain ⟨p02, hp02, hdg2⟩ := hraw
    rw [hp0] at hp02
    rw [← Option.some.inj hp02] at hdg2
    rw [hdg] at hdg2
    exact (FVal.str.inj (Option.some.inj hdg2)).symm
  subst rawS2
  obtain ⟨hannot, _⟩ := run_sci_full dvals getdata (osfn rawS) wind
    (.str rawS) (3 * f.length + 1) 0 0 f f' hrun hraw hwind j e (by omega)
    hj hsci
  refine ⟨annotExt e (0 + 2 * csb f 0 j) (.str rawS), hannot,
    (annotExt_cperror1 e _ _).1, (annotExt_cpdis1 e _ _).1, ?_,
    (annotExt_dp1naxes e _ _).1, (annotExt_dp1axis1 e _ _).1,
    (annotExt_dp1axis2 e _ _).1, (annotExt_cperror2 e _ _).1,
    (annotExt_cpdis2 e _ _).1, ?_, (annotExt_dp2naxes e _ _).1,
    (annotExt_dp2axis1 e _ _).1, (annotExt_dp2axis2 e _ _).1,
    (annotExt_dgeofile e _ _).1, ?_⟩
  · rw [(annotExt_dp1extver e (0 + 2 * csb f 0 j) (.str rawS)).1]
    congr 2
    omega
  · rw [(annotExt_dp2extver e (0 + 2 * csb f 0 j) (.str rawS)).1]
    congr 2
    omega
  · intro hfresh hhist
    exact annotExt_before_history e (0 + 2 * csb f 0 j) (.str rawS) hfresh
      hhist

theorem c5_witness :
    ∃ e', fC1res.get? 1 = some e' ∧
      hdrGet e'.header "CPERROR1" = some (.flt 0) ∧
      hdrGet e'.header "CPDIS1" = some (.str "Lookup") ∧
      hdrGet e'.header "DP1.EXTVER" = some (.int (2 * csb fC1 0 1 + 1)) ∧
      hdrGet e'.header "DP1.NAXES" = some (.int 2) ∧
      hdrGet e'.header "DP1.AXIS.1" = some (.int 1) ∧
      hdrGet e'.header "DP1.AXIS.2" = some (.int 2) ∧
      hdrGet e'.header "CPERROR2" = some (.flt 0) ∧
      hdrGet e'.header "CPDIS2" = some (.str "Lookup") ∧
      hdrGet e'.header "DP2.EXTVER" = some (.int (2 * csb fC1 0 1 + 2)) ∧
      hdrGet e'.header "DP2.NAXES" = some (.int 2) ∧
      hdrGet e'.header "DP2.AXIS.1" = some (.int 1) ∧
      hdrGet e'.header "DP2.AXIS.2" = some (.int 2) ∧
      hdrGet e'.header "DGEOFILE" = some (.str "x.fits") ∧
      ((∀ k ∈ c5Keys, hdrHasKey sciX1.header k = false) →
        hdrHasKey sciX1.header "HISTORY" = true →
        ∃ b, hdrIdx e'.header "HISTORY" = some b ∧
          ∀ k ∈ c5Keys, ∃ a, hdrIdx e'.header k = some a ∧ a < b) :=
  c5_keywords osfnX dvalsX getdataX fC1 fC1res primX "x.fits" (by decide)
    (by decide) (by decide) 1 sciX1 (by decide) (by decide)


/-- `createDgeoHDU` raises `KeyError` out of `dgeo_vals` when the primary
header's instrument is not in the defaults table. -/
theorem createDgeoHDU_err {α : Type} (dvals : String → Option GridDefaults)
    (getdata : String → String → FVal → Option α) (dgfile : String)
    (dd : Nat) (en : String) (xv : FVal) (g : FileObj α) (pA : Ext α)
    (ins : String)
    (h0 : g.get? 0 = some pA)
    (hins : hdrGet pA.header "INSTRUME" = some (.str ins))
    (hbad : dvals ins = none) :
    createDgeoHDU dvals getdata dgfile dd en xv g =
      .error "KeyError: dgeo_vals" := by
  have hh : g.head? = some pA := by rw [← List.get?_zero, h0]
  simp only [createDgeoHDU, createDgeoHdr, hh, hins, hbad]

/-- The traversal walks silently over a window of skippable extensions,
trading one unit of fuel per position. -/
theorem run_skip_to {α : Type} (dvals : String → Option GridDefaults)
    (getdata : String → String → FVal → Option α) (dgfile : String)
    (wind : List (FVal × Nat)) :
    ∀ n fuel i d (g : FileObj α), 1 ≤ fuel →
    (∀ q, i ≤ q → q < i + n → ∀ eq, g.get? q = some eq →
      skippable eq = true) →
    runFrom dvals getdata dgfile wind (fuel + n) i d g =
      runFrom dvals getdata dgfile wind fuel (i + n) d g := by
  intro n
  induction n with
  | zero =>
    intro fuel i d g _ _
    rfl
  | succ m ih =>
    intro fuel i d g hfuel hskip
    cases hgi : g.get? i with
    | none =>
      obtain ⟨f1, hf1⟩ : ∃ f1, fuel = f1 + 1 := ⟨fuel - 1, by omega⟩
      rw [hf1]
      have hL : runFrom dvals getdata dgfile wind (f1 + 1 + (m + 1)) i d g =
          .ok g := by
        have harith : f1 + 1 + (m + 1) = (f1 + m + 1) + 1 := by omega
        rw [harith]
        simp only [runFrom, hgi]
      have hR : runFrom dvals getdata dgfile wind (f1 + 1) (i + (m + 1)) d g =
          .ok g := by
        simp only [runFrom, get?_none_mono g i (i + (m + 1)) hgi (by omega)]
      rw [hL, hR]
    | some e =>
      have hsk : skippable e = true := hskip i le_rfl (by omega) e hgi
      rcases hname : hdrGet e.header "EXTNAME" with _ | nv
      · have harith : fuel + (m + 1) = (fuel + m) + 1 := by omega
        rw [harith]
        have hL : runFrom dvals getdata dgfile wind ((fuel + m) + 1) i d g =
            runFrom dvals getdata dgfile wind (fuel + m) (i + 1) d g := by
          simp only [runFrom, hgi, hname]
        rw [hL, ih fuel (i + 1) d g hfuel
          (fun q h1 h2 eq hq => hskip q (by omega) (by omega) eq hq)]
        have harith2 : i + 1 + m = i + (m + 1) := by omega
        rw [harith2]
      · cases nv with
        | str s =>
          have hsl : ¬ strLower s = "sci" := by
            simp only [skippable, hname] at hsk
            intro hcon
            rw [hcon] at hsk
            simp at hsk
          have harith : fuel + (m + 1) = (fuel + m) + 1 := by omega
          rw [harith]
          have hL : runFrom dvals getdata dgfile wind ((fuel + m) + 1) i d g =
              runFrom dvals getdata dgfile wind (fuel + m) (i + 1) d g := by
            simp only [runFrom, hgi, hname]
            rw [if_neg hsl]
          rw [hL, ih fuel (i + 1) d g hfuel
            (fun q h1 h2 eq hq => hskip q (by omega) (by omega) eq hq)]
          have harith2 : i + 1 + m = i + (m + 1) := by omega
          rw [harith2]
        | int n2 =>
          simp only [skippable, hname] at hsk
          exact absurd hsk (by simp)
        | flt q2 =>
          simp only [skippable, hname] at hsk
          exact absurd hsk (by simp)

/-- C7 (amended): with an instrument missing from the defaults table, the
operation does fail — it raises `KeyError` out of `dgeo_vals` at the first
science extension — but NOT before mutating: at the moment the error
surfaces, that science extension's header has already received the `DX`
keyword block and the `DGEOFILE` record (`eHalf`); the failure is not
atomic. -/
theorem c7_unknown_instrument {α : Type} (osfn : String → String)
    (dvals : String → Option GridDefaults)
    (getdata : String → String → FVal → Option α) (f : FileObj α)
    (p0 e : Ext α) (rawS ins : String) (xv : FVal)
    (wind : List (FVal × Nat)) (j : Nat)
    (hp0 : f.get? 0 = some p0)
    (hdg : hdrGet p0.header "DGEOFILE" = some (.str rawS))
    (hins : hdrGet p0.header "INSTRUME" = some (.str ins))
    (hbad : dvals ins = none)
    (hsc : getwcsindex f = .ok wind)
    (hj : f.get? j = some e) (hsci : isSci e = true)
    (hxv : hdrGet e.header "EXTVER" = some xv)
    (hskips : ∀ q, q < j → ∀ eq, f.get? q = some eq →
      skippable eq = true) :
    applyDgeoCorr osfn dvals getdata f =
      .error ("KeyError: dgeo_vals",
        f.set j (eHalf e 1 "DX" (.str rawS))) := by
  have hjlt : j < f.length := get?_some_lt f j e hj
  have hhead : f.head? = some p0 := by rw [← List.get?_zero, hp0]
  rcases hname : hdrGet e.header "EXTNAME" with _ | nv
  · rw [isSci_of_noname e hname] at hsci
    exact absurd hsci (by simp)
  · cases nv with
    | int n2 =>
      simp only [isSci, hname] at hsci
      exact Bool.noConfusion hsci
    | flt q2 =>
      simp only [isSci, hname] at hsci
      exact Bool.noConfusion hsci
    | str s =>
      have hsl : strLower s = "sci" := by
        rw [isSci_of_str e s hname] at hsci
        exact beq_iff_eq.1 hsci
      have hA := addSciExtKw_ok f j 1 "DX" e (.str rawS) (Or.inl rfl) hj
        ⟨p0, hp0, hdg⟩
      have hpA : ∃ pA, (f.set j (eHalf e 1 "DX" (.str rawS))).get? 0 =
          some pA ∧ hdrGet pA.header "INSTRUME" = some (.str ins) := by
        by_cases hj0 : j = 0
        · subst hj0
          have hpe : p0 = e := by
            rw [hj] at hp0
            exact (Option.some.inj hp0).symm
          refine ⟨eHalf e 1 "DX" (.str rawS), get?_set_self f 0 _ hjlt, ?_⟩
          rw [eHalf_INSTRUME e 1 "DX" (.str rawS) (Or.inl rfl), ← hpe]
          exact hins
        · exact ⟨p0, by rw [get?_set_other f j _ 0 hj0]; exact hp0, hins⟩
      obtain ⟨pA, hpA0, hpAins⟩ := hpA
      have hC := createDgeoHDU_err dvals getdata (osfn rawS) 1 "DX" xv
        (f.set j (eHalf e 1 "DX" (.str rawS))) pA ins hpA0 hpAins hbad
      have hstep : sciStep dvals getdata (osfn rawS) wind j 0 xv f =
          .error ("KeyError: dgeo_vals",
            f.set j (eHalf e 1 "DX" (.str rawS))) := by
        simp only [sciStep, axisPhase, hA, hC]
      have hfs : 3 * f.length + 1 = (3 * f.length + 1 - j) + j := by omega
      have hrun1 : runFrom dvals getdata (osfn rawS) wind
          (3 * f.length + 1) 0 0 f =
          runFrom dvals getdata (osfn rawS) wind (3 * f.length + 1 - j)
            j 0 f := by
        conv_lhs => rw [hfs]
        rw [run_skip_to dvals getdata (osfn rawS) wind j
          (3 * f.length + 1 - j) 0 0 f (by omega)
          (fun q h1 h2 eq hq => hskips q (by omega) eq hq)]
        rw [Nat.zero_add]
      obtain ⟨m, hm⟩ : ∃ m, 3 * f.length + 1 - j = m + 1 :=
        ⟨3 * f.length - j, by omega⟩
      have hrun2 : runFrom dvals getdata (osfn rawS) wind (m + 1) j 0 f =
          .error ("KeyError: dgeo_vals",
            f.set j (eHalf e 1 "DX" (.str rawS))) := by
        simp only [runFrom, hj, hname]
        rw [if_pos hsl]
        simp only [hxv, hstep]
      simp only [applyDgeoCorr, hhead, hdg, hsc]
      rw [hrun1, hm, hrun2]

def fC7 : FileObj String := [primBad, extraX, sciX2]

theorem c7_witness :
    applyDgeoCorr osfnX dvalsX getdataX fC7 =
      .error ("KeyError: dgeo_vals",
        fC7.set 2 (eHalf sciX2 1 "DX" (.str "x.fits"))) :=
  c7_unknown_instrument osfnX dvalsX getdataX fC7 primBad sciX2 "x.fits"
    "XYZ" (.int 5) [] 2 (by decide) (by decide) (by decide) (by decide)
    (by decide) (by decide) (by decide) (by decide)
    (by
      intro q hq eq hqe
      rcases q with _ | q
      · rw [← Option.some.inj hqe]
        decide
      · rcases q with _ | q
        · rw [← Option.some.inj hqe]
          decide
        · omega)

def sciMixed : Ext String :=
  ⟨[⟨"EXTNAME", .str "Sci", "c2"⟩, ⟨"EXTVER", .int 2, "c3"⟩], some "dm"⟩

def fC9 : FileObj String := [primX, sciMixed, wcsdLc]

def fC9res : FileObj String :=
  match applyDgeoCorr osfnX dvalsX getdataX fC9 with
  | .ok r => r
  | .error e => e.2

/-- C9 (amended): the science-extension match is case-insensitive — any
`EXTNAME` string lowercasing to `'sci'` gets the annotation — but the
`getwcsindex` scan is case-SENSITIVE: every entry of the table points at
an extension whose `EXTNAME` is exactly `'WCSDVARR'`, so other case
variants of the name are never recognized as existing lookup extensions. -/
theorem c9_case_sensitivity {α : Type} (osfn : String → String)
    (dvals : String → Option GridDefaults)
    (getdata : String → String → FVal → Option α) (f f' : FileObj α)
    (hok : applyDgeoCorr osfn dvals getdata f = .ok f') :
    (∀ j e s, f.get? j = some e →
      hdrGet e.header "EXTNAME" = some (.str s) → strLower s = "sci" →
      ∃ e', f'.get? j = some e' ∧
        hdrGet e'.header "CPDIS1" = some (.str "Lookup") ∧
        hdrGet e'.header "CPDIS2" = some (.str "Lookup")) ∧
    (∀ w, getwcsindex f = .ok w → ∀ kv ∈ w, ∃ e, f.get? kv.2 = some e ∧
      hdrGet e.header "EXTNAME" = some (.str "WCSDVARR")) := by
  obtain ⟨rawS, wind, hraw, hsc, hwind, hrun⟩ :=
    applyDgeoCorr_ok_inv osfn dvals getdata f f' hok
  constructor
  · intro j e s hj hname hsl
    have hsci : isSci e = true := by
      rw [isSci_of_str e s hname]
      exact beq_iff_eq.2 hsl
    obtain ⟨hannot, _⟩ := run_sci_full dvals getdata (osfn rawS) wind
      (.str rawS) (3 * f.length + 1) 0 0 f f' hrun hraw hwind j e (by omega)
      hj hsci
    exact ⟨annotExt e (0 + 2 * csb f 0 j) (.str rawS), hannot,
      (annotExt_cpdis1 e _ _).1, (annotExt_cpdis2 e _ _).1⟩
  · intro w hw kv hkv
    exact getwcsindex_windOK f w hw kv hkv

theorem c9_witness :
    ∃ e', fC9res.get? 1 = some e' ∧
      hdrGet e'.header "CPDIS1" = some (.str "Lookup") ∧
      hdrGet e'.header "CPDIS2" = some (.str "Lookup") :=
  (c9_case_sensitivity osfnX dvalsX getdataX fC9 fC9res (by decide)).1
    1 sciMixed "Sci" (by decide) (by decide) (by decide)


/-! ## Idempotence: a fully annotated science extension is a fixed point -/

/-- The thirteen (value, comment) facts `annotExt` guarantees; a header
satisfying them absorbs a further annotation pass at the same counter. -/
def SciDone {α : Type} (e : Ext α) (d : Nat) (raw : FVal) : Prop :=
  (hdrGet e.header "CPERROR1" = some (.flt 0) ∧
   hdrGetComment e.header "CPERROR1" = some (cperrComment (d + 1))) ∧
  (hdrGet e.header "CPDIS1" = some (.str "Lookup") ∧
   hdrGetComment e.header "CPDIS1" = some "Prior distortion funcion type") ∧
  (hdrGet e.header "DP1.EXTVER" = some (.int (d + 1)) ∧
   hdrGetComment e.header "DP1.EXTVER" = some "Version number of WCSDVARR extension containing lookup distortion table") ∧
  (hdrGet e.header "DP1.NAXES" = some (.int 2) ∧
   hdrGetComment e.header "DP1.NAXES" = some "Number of independent variables in distortion function") ∧
  (hdrGet e.header "DP1.AXIS.1" = some (.int 1) ∧
   hdrGetComment e.header "DP1.AXIS.1" = some "Axis number of the jth independent variable in a distortion function") ∧
  (hdrGet e.header "DP1.AXIS.2" = some (.int 2) ∧
   hdrGetComment e.header "DP1.AXIS.2" = some "Axis number of the jth independent variable in a distortion function") ∧
  (hdrGet e.header "CPERROR2" = some (.flt 0) ∧
   hdrGetComment e.header "CPERROR2" = some (cperrComment (d + 2))) ∧
  (hdrGet e.header "CPDIS2" = some (.str "Lookup") ∧
   hdrGetComment e.header "CPDIS2" = some "Prior distortion funcion type") ∧
  (hdrGet e.header "DP2.EXTVER" = some (.int (d + 2)) ∧
   hdrGetComment e.header "DP2.EXTVER" = some "Version number of WCSDVARR extension containing lookup distortion table") ∧
  (hdrGet e.header "DP2.NAXES" = some (.int 2) ∧
   hdrGetComment e.header "DP2.NAXES" = some "Number of independent variables in distortion function") ∧
  (hdrGet e.header "DP2.AXIS.1" = some (.int 1) ∧
   hdrGetComment e.header "DP2.AXIS.1" = some "Axis number of the jth independent variable in a distortion function") ∧
  (hdrGet e.header "DP2.AXIS.2" = some (.int 2) ∧
   hdrGetComment e.header "DP2.AXIS.2" = some "Axis number of the jth independent variable in a distortion function") ∧
  (hdrGet e.header "DGEOFILE" = some raw ∧
   hdrGetComment e.header "DGEOFILE" = some dgfComment)

theorem annotExt_SciDone {α : Type} (e : Ext α) (d : Nat) (raw : FVal) :
    SciDone (annotExt e d raw) d raw :=
  ⟨annotExt_cperror1 e d raw, annotExt_cpdis1 e d raw,
   annotExt_dp1extver e d raw, annotExt_dp1naxes e d raw,
   annotExt_dp1axis1 e d raw, annotExt_dp1axis2 e d raw,
   annotExt_cperror2 e d raw, annotExt_cpdis2 e d raw,
   annotExt_dp2extver e d raw, annotExt_dp2naxes e d raw,
   annotExt_dp2axis1 e d raw, annotExt_dp2axis2 e d raw,
   annotExt_dgeofile e d raw⟩

theorem SciDone_eHalf_DX {α : Type} (e : Ext α) (d : Nat) (raw : FVal)
    (hS : SciDone e d raw) : eHalf e (d + 1) "DX" raw = e := by
  obtain ⟨h1, h2, h3, h4, h5, h6, _, _, _, _, _, _, h13⟩ := hS
  unfold eHalf
  rw [addSciKws_DX,
    hdrUpdate_same _ _ _ _ h1.1 h1.2,
    hdrUpdate_same _ _ _ _ h2.1 h2.2,
    hdrUpdate_same _ _ _ _ (by exact_mod_cast h3.1) h3.2,
    hdrUpdate_same _ _ _ _ h4.1 h4.2,
    hdrUpdate_same _ _ _ _ h5.1 h5.2,
    hdrUpdate_same _ _ _ _ h6.1 h6.2,
    hdrUpdate_same _ _ _ _ h13.1 h13.2]

theorem SciDone_eHalf_DY {α : Type} (e : Ext α) (d : Nat) (raw : FVal)
    (hS : SciDone e d raw) : eHalf e (d + 2) "DY" raw = e := by
  obtain ⟨_, _, _, _, _, _, h7, h8, h9, h10, h11, h12, h13⟩ := hS
  unfold eHalf
  rw [addSciKws_DY,
    hdrUpdate_same _ _ _ _ h7.1 h7.2,
    hdrUpdate_same _ _ _ _ h8.1 h8.2,
    hdrUpdate_same _ _ _ _ (by exact_mod_cast h9.1) h9.2,
    hdrUpdate_same _ _ _ _ h10.1 h10.2,
    hdrUpdate_same _ _ _ _ h11.1 h11.2,
    hdrUpdate_same _ _ _ _ h12.1 h12.2,
    hdrUpdate_same _ _ _ _ h13.1 h13.2]

theorem SciDone_eFin {α : Type} (e : Ext α) (d : Nat) (raw : FVal)
    (hS : SciDone e d raw) : eFin e raw = e := by
  obtain ⟨_, _, _, _, _, _, _, _, _, _, _, _, h13⟩ := hS
  unfold eFin
  rw [hdrUpdate_same _ _ _ _ h13.1 h13.2]

theorem skippable_not_sci {α : Type} (e : Ext α)
    (hsk : skippable e = true) : isSci e = false := by
  rcases hname : hdrGet e.header "EXTNAME" with _ | nv
  · exact isSci_of_noname e hname
  · cases nv with
    | str s =>
      simp only [skippable, hname] at hsk
      rw [isSci_of_str e s hname]
      simp only [Bool.not_eq_true'] at hsk
      exact hsk
    | int n =>
      simp only [skippable, hname] at hsk
      exact absurd hsk (by simp)
    | flt q =>
      simp only [skippable, hname] at hsk
      exact absurd hsk (by simp)


/-- A successful scan forces every exactly-named `'WCSDVARR'` extension to
carry `EXTVER`. -/
theorem getwcsindexAux_ok_ver {α : Type} (l : FileObj α) :
    ∀ i0 w, getwcsindexAux l i0 = .ok w →
    ∀ e ∈ l, hdrGet e.header "EXTNAME" = some (.str "WCSDVARR") →
    (hdrGet e.header "EXTVER").isSome := by
  induction l with
  | nil =>
    intro i0 w hs e he
    exact absurd he (List.not_mem_nil e)
  | cons e0 rest ih =>
    intro i0 w hs e he hw
    rcases List.mem_cons.1 he with he | he
    · subst he
      simp only [getwcsindexAux, hw] at hs
      rcases hver : hdrGet e.header "EXTVER" with _ | kv
      · simp only [hver] at hs
        exact absurd hs (by simp)
      · rfl
    · rcases hname : hdrGet e0.header "EXTNAME" with _ | nv
      · simp only [getwcsindexAux, hname] at hs
        exact ih (i0 + 1) w hs e he hw
      · by_cases hnw : nv = .str "WCSDVARR"
        · subst hnw
          rcases hver : hdrGet e0.header "EXTVER" with _ | kv
          · simp only [getwcsindexAux, hname] at hs
            simp only [hver] at hs
            exact absurd hs (by simp)
          · simp only [getwcsindexAux, hname] at hs
            simp only [hver] at hs
            cases hrest : getwcsindexAux rest (i0 + 1) with
            | error m =>
              rw [hrest] at hs
              exact absurd hs (by simp)
            | ok w' =>
              exact ih (i0 + 1) w' hrest e he hw
        · simp only [getwcsindexAux, hname] at hs
          rw [if_neg hnw] at hs
          exact ih (i0 + 1) w hs e he hw

/-- The scan-table lookup returns the last position whose extension is
exactly named `'WCSDVARR'` and carries the requested `EXTVER`. -/
theorem getwcsindex_dictLookup {α : Type} (g : FileObj α)
    (w : List (FVal × Nat)) (hs : getwcsindex g = .ok w) (k : FVal) (p : Nat)
    (ep : Ext α) (hp : g.get? p = some ep)
    (hw : hdrGet ep.header "EXTNAME" = some (.str "WCSDVARR"))
    (hv : hdrGet ep.header "EXTVER" = some k)
    (hlast : ∀ p', p < p' → ∀ ep', g.get? p' = some ep' →
      hdrGet ep'.header "EXTNAME" = some (.str "WCSDVARR") →
      hdrGet ep'.header "EXTVER" ≠ some k) :
    dictLookup w k = some p := by
  have hmem : (k, p) ∈ w := by
    have := getwcsindexAux_complete g 0 w hs p ep hp hw k hv
    simpa using this
  cases hdl : dictLookup w k with
  | none =>
    unfold dictLookup at hdl
    cases hg : (w.filter (fun r => r.1 = k)).getLast? with
    | some kv =>
      rw [hg] at hdl
      exact absurd hdl (by simp)
    | none =>
      have hfn : w.filter (fun r => decide (r.1 = k)) = [] :=
        List.getLast?_eq_none_iff.1 hg
      have hmf : (k, p) ∈ w.filter (fun r => decide (r.1 = k)) :=
        List.mem_filter.2 ⟨hmem, by simp⟩
      rw [hfn] at hmf
      exact absurd hmf (List.not_mem_nil _)
  | some p2 =>
    have hge : p ≤ p2 :=
      dictLookup_ge w k p2 p (getwcsindexAux_pairwise g 0 w hs) hmem hdl
    obtain ⟨kv, hkvm, hkv1, hkv2⟩ := dictLookup_mem w k p2 hdl
    obtain ⟨_, e2, he2, he2n, he2v⟩ := getwcsindexAux_sound g 0 w hs kv hkvm
    by_cases hpp : p2 = p
    · rw [hpp]
    · have hlt : p < p2 := by omega
      have hcontra := hlast p2 hlt e2 (by
        have : kv.2 - 0 = p2 := by omega
        rw [← this]
        exact he2) he2n
      rw [hkv1] at he2v
      exact absurd he2v hcontra

/-- Overwrite-mode position characterization: a non-science position either
survives unchanged, or holds a lookup HDU whose `EXTVER` names the very
scan-table slot the position came from. -/
theorem run_B_pos_char {α : Type} (dvals : String → Option GridDefaults)
    (getdata : String → String → FVal → Option α) (dgfile : String)
    (wind : List (FVal × Nat)) (raw : FVal) (hwne : wind ≠ []) :
    ∀ fuel i d (g g' : FileObj α),
    runFrom dvals getdata dgfile wind fuel i d g = .ok g' →
    PrimVal g raw → WindOK wind g →
    ∀ q eq, g.get? q = some eq → isSci eq = false →
    g'.get? q = some eq ∨ (∃ jv jd jdat,
      g'.get? q = some (mkHdu jv jd jdat) ∧
      dictLookup wind (.int jd) = some q ∧ d < jd) := by
  intro fuel
  induction fuel with
  | zero =>
    intro i d g g' hok
    exact absurd hok (by simp [runFrom])
  | succ fuel ih =>
    intro i d g g' hok hraw hwind q eq hgq hns
    cases hgi : g.get? i with
    | none =>
      simp only [runFrom, hgi] at hok
      rw [← Except.ok.inj hok]
      exact Or.inl hgq
    | some e =>
      rcases hname : hdrGet e.header "EXTNAME" with _ | nv
      · simp only [runFrom, hgi, hname] at hok
        exact ih (i + 1) d g g' hok hraw hwind q eq hgq hns
      · cases nv with
        | str s =>
          by_cases hsl : strLower s = "sci"
          · simp only [runFrom, hgi, hname] at hok
            rw [if_pos hsl] at hok
            rcases hver : hdrGet e.header "EXTVER" with _ | xv
            · simp only [hver] at hok
              exact absurd hok (by simp)
            · simp only [hver] at hok
              cases hstep : sciStep dvals getdata dgfile wind i d xv g with
              | error err =>
                rw [hstep] at hok
                exact absurd hok (by simp)
              | ok gE =>
                rw [hstep] at hok
                have hsci : isSci e = true := by
                  rw [isSci_of_str e s hname]
                  exact beq_iff_eq.2 hsl
                obtain ⟨_, _, hprE, hwdE, _, _, _, _, _, _⟩ :=
                  sciStep_effects dvals getdata dgfile wind i d xv g gE e raw
                    hgi hsci hraw hwind hstep
                obtain ⟨ins, iv, dat1, dat2, _, _, _, _, hshape⟩ :=
                  sciStep_ok_char dvals getdata dgfile wind i d xv g gE e raw
                    hgi hsci hraw hwind hstep
                rcases hshape with ⟨hwe, _⟩ | ⟨p1, p2, _, hdl1, hdl2, hp1i,
                  hp2i, _, _, hp1lt, hp2lt, hgEeq⟩
                · exact absurd hwe hwne
                have hqi : q ≠ i := by
                  intro h
                  rw [h, hgi] at hgq
                  rw [← Option.some.inj hgq] at hns
                  rw [hns] at hsci
                  exact Bool.noConfusion hsci
                have hrest : ∀ eq2, gE.get? q = some eq2 → isSci eq2 = false →
                    g'.get? q = some eq2 ∨ (∃ jv jd jdat,
                      g'.get? q = some (mkHdu jv jd jdat) ∧
                      dictLookup wind (.int jd) = some q ∧ d + 2 < jd) :=
                  fun eq2 h1 h2 =>
                    ih (i + 1) (d + 2) gE g' hok hprE hwdE q eq2 h1 h2
                by_cases hqp2 : q = p2
                · have hgEq : gE.get? q = some (mkHdu iv (d + 2) dat2) := by
                    rw [hgEeq, hqp2]
                    apply get?_set_self
                    simp only [List.length_set]
                    exact hp2lt
                  rcases hrest (mkHdu iv (d + 2) dat2) hgEq
                    (mkHdu_isSci iv (d + 2) dat2) with hpv | ⟨jv, jd, jdat,
                      hmk, hdlq, hdd⟩
                  · refine Or.inr ⟨iv, d + 2, dat2, hpv, ?_, by omega⟩
                    rw [hqp2]
                    exact hdl2
                  · exact Or.inr ⟨jv, jd, jdat, hmk, hdlq, by omega⟩
                · by_cases hqp1 : q = p1
                  · have hgEq : gE.get? q = some (mkHdu iv (d + 1) dat1) := by
                      rw [hgEeq, get?_set_other _ p2 _ q
                        (fun h => hqp2 h.symm), hqp1]
                      apply get?_set_self
                      simp only [List.length_set]
                      exact hp1lt
                    rcases hrest (mkHdu iv (d + 1) dat1) hgEq
                      (mkHdu_isSci iv (d + 1) dat1) with hpv | ⟨jv, jd, jdat,
                        hmk, hdlq, hdd⟩
                    · refine Or.inr ⟨iv, d + 1, dat1, hpv, ?_, by omega⟩
                      rw [hqp1]
                      exact hdl1
                    · exact Or.inr ⟨jv, jd, jdat, hmk, hdlq, by omega⟩
                  · have hgEq : gE.get? q = some eq := by
                      rw [hgEeq, get?_set_other _ p2 _ q
                        (fun h => hqp2 h.symm), get?_set_other _ p1 _ q
                        (fun h => hqp1 h.symm), get?_set_other g i _ q
                        (fun h => hqi h.symm)]
                      exact hgq
                    rcases hrest eq hgEq hns with hpv | ⟨jv, jd, jdat, hmk,
                      hdlq, hdd⟩
                    · exact Or.inl hpv
                    · exact Or.inr ⟨jv, jd, jdat, hmk, hdlq, by omega⟩
          · simp only [runFrom, hgi, hname] at hok
            rw [if_neg hsl] at hok
            exact ih (i + 1) d g g' hok hraw hwind q eq hgq hns
        | int n =>
          simp only [runFrom, hgi, hname] at hok
          exact absurd hok (by simp)
        | flt qq =>
          simp only [runFrom, hgi, hname] at hok
          exact absurd hok (by simp)


/-- Invariant for the second annotation pass: every science extension from
the cursor on is already fully annotated for the counter value it will be
met at, and the scan table sends its two counter values to slots that
already hold exactly the lookup HDUs this iteration would build. -/
def StableInv {α : Type} (dvals : String → Option GridDefaults)
    (getdata : String → String → FVal → Option α) (dgfile : String)
    (wind2 : List (FVal × Nat)) (raw : FVal) (g : FileObj α)
    (i d : Nat) : Prop :=
  ∀ q e, i ≤ q → g.get? q = some e → isSci e = true →
    SciDone e (d + 2 * csb g i q) raw ∧
    ∃ xv ins iv dat1 dat2 p1 p2,
      hdrGet e.header "EXTVER" = some xv ∧
      hdrGetPrim g "INSTRUME" = some (.str ins) ∧
      dvals ins = some iv ∧
      getdata dgfile "DX" xv = some dat1 ∧
      getdata dgfile "DY" xv = some dat2 ∧
      dictLookup wind2 (.int ((d + 2 * csb g i q + 1 : Nat) : Int)) =
        some p1 ∧
      dictLookup wind2 (.int ((d + 2 * csb g i q + 2 : Nat) : Int)) =
        some p2 ∧
      g.get? p1 = some (mkHdu iv (d + 2 * csb g i q + 1) dat1) ∧
      g.get? p2 = some (mkHdu iv (d + 2 * csb g i q + 2) dat2)

theorem StableInv_skip {α : Type} (dvals : String → Option GridDefaults)
    (getdata : String → String → FVal → Option α) (dgfile : String)
    (wind2 : List (FVal × Nat)) (raw : FVal) (g : FileObj α) (i d : Nat)
    (hsa : sciAt g i = false)
    (hS : StableInv dvals getdata dgfile wind2 raw g i d) :
    StableInv dvals getdata dgfile wind2 raw g (i + 1) d := by
  intro q e hq hgq hsci
  have hres := hS q e (by omega) hgq hsci
  have hcsb : csb g i q = csb g (i + 1) q := by
    rw [csb_left_step g i q (by omega), hsa]
    simp
  rw [← hcsb]
  exact hres

theorem StableInv_sci {α : Type} (dvals : String → Option GridDefaults)
    (getdata : String → String → FVal → Option α) (dgfile : String)
    (wind2 : List (FVal × Nat)) (raw : FVal) (g : FileObj α) (i d : Nat)
    (hsa : sciAt g i = true)
    (hS : StableInv dvals getdata dgfile wind2 raw g i d) :
    StableInv dvals getdata dgfile wind2 raw g (i + 1) (d + 2) := by
  intro q e hq hgq hsci
  have hres := hS q e (by omega) hgq hsci
  have hcsb : csb g i q = 1 + csb g (i + 1) q := by
    rw [csb_left_step g i q (by omega), hsa, if_pos rfl]
  have hidx : d + 2 + 2 * csb g (i + 1) q = d + 2 * csb g i q := by omega
  rw [hidx]
  exact hres

/-- A state satisfying the stability invariant is a fixed point of the
traversal: the second pass recomputes every write and every placement to
the value already there. -/
theorem run_stable {α : Type} (dvals : String → Option GridDefaults)
    (getdata : String → String → FVal → Option α) (dgfile : String)
    (wind2 : List (FVal × Nat)) (raw : FVal) :
    ∀ fuel i d (g : FileObj α), 1 ≤ fuel → g.length + 1 ≤ fuel + i →
    PrimVal g raw →
    StableInv dvals getdata dgfile wind2 raw g i d →
    (∀ q e, i ≤ q → g.get? q = some e →
      skippable e = true ∨ isSci e = true) →
    runFrom dvals getdata dgfile wind2 fuel i d g = .ok g := by
  intro fuel
  induction fuel with
  | zero =>
    intro i d g h1
    exact absurd h1 (by omega)
  | succ fuel ih =>
    intro i d g _ hfl hprim hS hskip
    cases hgi : g.get? i with
    | none => simp only [runFrom, hgi]
    | some e =>
      have hil : i < g.length := get?_some_lt g i e hgi
      rcases hname : hdrGet e.header "EXTNAME" with _ | nv
      · simp only [runFrom, hgi, hname]
        have hsa : sciAt g i = false := by
          rw [sciAt_of_get g i e hgi]
          exact isSci_of_noname e hname
        exact ih (i + 1) d g (by omega) (by omega) hprim
          (StableInv_skip dvals getdata dgfile wind2 raw g i d hsa hS)
          (fun q e' hq hg' => hskip q e' (by omega) hg')
      · cases nv with
        | int n =>
          rcases hskip i e le_rfl hgi with hsk | hsci
          · simp only [skippable, hname] at hsk
            exact absurd hsk (by simp)
          · simp only [isSci, hname] at hsci
            exact Bool.noConfusion hsci
        | flt qq =>
          rcases hskip i e le_rfl hgi with hsk | hsci
          · simp only [skippable, hname] at hsk
            exact absurd hsk (by simp)
          · simp only [isSci, hname] at hsci
            exact Bool.noConfusion hsci
        | str s =>
          by_cases hsl : strLower s = "sci"
          · have hsci : isSci e = true := by
              rw [isSci_of_str e s hname]
              exact beq_iff_eq.2 hsl
            obtain ⟨hSD, xv, ins, iv, dat1, dat2, p1, p2, hxv, hins, hiv,
              hdx, hdy, hdl1, hdl2, hgp1, hgp2⟩ := hS i e le_rfl hgi hsci
            have hc0 : csb g i i = 0 := csb_of_le g i i le_rfl
            rw [hc0] at hSD hdl1 hdl2 hgp1 hgp2
            simp only [Nat.mul_zero, Nat.add_zero] at hSD hdl1 hdl2 hgp1 hgp2
            obtain ⟨p0, hp0, hdg0⟩ := hprim
            have hins0 : hdrGet p0.header "INSTRUME" = some (.str ins) := by
              rw [hdrGetPrim_of_get g p0 _ hp0] at hins
              exact hins
            have hwne : wind2.isEmpty = false := by
              cases hwc : wind2 with
              | nil =>
                rw [hwc, dictLookup_nil] at hdl1
                exact Option.noConfusion hdl1
              | cons a l => rfl
            have hA := addSciExtKw_ok g i (d + 1) "DX" e raw (Or.inl rfl)
              hgi ⟨p0, hp0, hdg0⟩
            rw [SciDone_eHalf_DX e d raw hSD, setSame g i e hgi] at hA
            have hC1 := createDgeoHDU_ok dvals getdata dgfile g p0 ins iv
              (d + 1) "DX" xv dat1 (by omega) hp0 hins0 hiv hdx
            have hP1 : placeHdu wind2 g (d + 1) (mkHdu iv (d + 1) dat1) =
                .ok g := by
              simp only [placeHdu, hwne, Bool.false_eq_true, if_false, hdl1]
              rw [setSame g p1 _ hgp1]
            have hax1 : axisPhase dvals getdata dgfile wind2 i (d + 1) "DX"
                xv g = .ok g := by
              simp only [axisPhase, hA, hC1]
              exact hP1
            have hA2 := addSciExtKw_ok g i (d + 2) "DY" e raw (Or.inr rfl)
              hgi ⟨p0, hp0, hdg0⟩
            rw [SciDone_eHalf_DY e d raw hSD, setSame g i e hgi] at hA2
            have hC2 := createDgeoHDU_ok dvals getdata dgfile g p0 ins iv
              (d + 2) "DY" xv dat2 (by omega) hp0 hins0 hiv hdy
            have hP2 : placeHdu wind2 g (d + 2) (mkHdu iv (d + 2) dat2) =
                .ok g := by
              simp only [placeHdu, hwne, Bool.false_eq_true, if_false, hdl2]
              rw [setSame g p2 _ hgp2]
            have hax2 : axisPhase dvals getdata dgfile wind2 i (d + 2) "DY"
                xv g = .ok g := by
              simp only [axisPhase, hA2, hC2]
              exact hP2
            have hupd : updateDGEOkw g i = .ok g := by
              rw [updateDGEOkw_ok g i e raw hgi ⟨p0, hp0, hdg0⟩,
                SciDone_eFin e d raw hSD, setSame g i e hgi]
            have hstep : sciStep dvals getdata dgfile wind2 i d xv g =
                .ok g := by
              simp only [sciStep, hax1, hax2]
              exact hupd
            simp only [runFrom, hgi, hname]
            rw [if_pos hsl]
            simp only [hxv, hstep]
            have hsa : sciAt g i = true := by
              rw [sciAt_of_get g i e hgi]
              exact hsci
            exact ih (i + 1) (d + 2) g (by omega) (by omega)
              ⟨p0, hp0, hdg0⟩
              (StableInv_sci dvals getdata dgfile wind2 raw g i d hsa hS)
              (fun q e' hq hg' => hskip q e' (by omega) hg')
          · simp only [runFrom, hgi, hname]
            rw [if_neg hsl]
            have hsa : sciAt g i = false := by
              rw [sciAt_of_get g i e hgi, isSci_of_str e s hname]
              exact beq_eq_false_iff_ne.2 hsl
            exact ih (i + 1) d g (by omega) (by omega) hprim
              (StableInv_skip dvals getdata dgfile wind2 raw g i d hsa hS)
              (fun q e' hq hg' => hskip q e' (by omega) hg')


/-- After an append-mode run (no pre-existing exactly-named `'WCSDVARR'`
extension), the result state satisfies the stability invariant for a fresh
scan of itself. -/
theorem stable_after_append {α : Type} (dvals : String → Option GridDefaults)
    (getdata : String → String → FVal → Option α) (dgfile : String)
    (raw : FVal) (F : Nat) (f f' : FileObj α)
    (hrun : runFrom dvals getdata dgfile [] F 0 0 f = .ok f')
    (hraw : PrimVal f raw)
    (hnw : ∀ e ∈ f, hdrGet e.header "EXTNAME" ≠ some (.str "WCSDVARR")) :
    ∃ wind2, getwcsindex f' = .ok wind2 ∧
      StableInv dvals getdata dgfile wind2 raw f' 0 0 ∧
      (∀ q e, f'.get? q = some e →
        skippable e = true ∨ isSci e = true) := by
  have hwind : WindOK [] f := fun kv hkv => absurd hkv (List.not_mem_nil kv)
  obtain ⟨hraw', hwind', hins', hsa', hlen'⟩ :=
    run_pres dvals getdata dgfile [] raw F 0 0 f f' hrun hraw hwind
  have htail : ∀ q, f.length ≤ q → ∀ e', f'.get? q = some e' →
      ∃ jv jdat, e' = mkHdu jv (0 + (q - f.length) + 1) jdat :=
    fun q hq e' he' => run_A_tail dvals getdata dgfile raw F 0 0 f f' hrun
      hraw q hq e' he'
  obtain ⟨wind2, hsc2⟩ := getwcsindexAux_ok_exists f' 0 (by
    intro e' he' hwn
    obtain ⟨n, hn⟩ := List.get?_of_mem he'
    by_cases hnL : n < f.length
    · cases hfq : f.get? n with
      | none =>
        rw [List.get?_eq_none] at hfq
        omega
      | some e0 =>
        cases hsci0 : isSci e0 with
        | true =>
          obtain ⟨hannot, _⟩ := run_sci_full dvals getdata dgfile [] raw F
            0 0 f f' hrun hraw hwind n e0 (by omega) hfq hsci0
          have he : e' = annotExt e0 (0 + 2 * csb f 0 n) raw :=
            Option.some.inj (hn.symm.trans hannot)
          rw [he, annotExt_EXTNAME] at hwn
          exact absurd hwn (hnw e0 (List.get?_mem hfq))
        | false =>
          have hfin := run_frame_A dvals getdata dgfile raw F 0 0 f f' hrun
            hraw n e0 hfq (fun _ => hsci0)
          have he : e' = e0 := Option.some.inj (hn.symm.trans hfin)
          rw [he] at hwn
          exact absurd hwn (hnw e0 (List.get?_mem hfq))
    · obtain ⟨jv, jdat, hj⟩ := htail n (by omega) e' hn
      rw [hj, mkHdu_header, lookupHdr_get_EXTVER]
      rfl)
  refine ⟨wind2, hsc2, ?_, ?_⟩
  · intro q e' hq hge' hsci'
    by_cases hqL : q < f.length
    swap
    · obtain ⟨jv, jdat, hj⟩ := htail q (by omega) e' hge'
      rw [hj, mkHdu_isSci] at hsci'
      exact absurd hsci' (by simp)
    · cases hfq : f.get? q with
      | none =>
        rw [List.get?_eq_none] at hfq
        omega
      | some e0 =>
        have hsci0 : isSci e0 = true := by
          have h1 : sciAt f' q = sciAt f q := hsa' q
          rw [sciAt_of_get f' q e' hge', sciAt_of_get f q e0 hfq] at h1
          rw [← h1]
          exact hsci'
        obtain ⟨hannot, xv, ins, iv, dat1, dat2, hxv0, hins0, hiv0, hdx0,
          hdy0⟩ := run_sci_full dvals getdata dgfile [] raw F 0 0 f f' hrun
            hraw hwind q e0 (by omega) hfq hsci0
        have he : e' = annotExt e0 (0 + 2 * csb f 0 q) raw :=
          Option.some.inj (hge'.symm.trans hannot)
        obtain ⟨xv2, ins2, iv2, dat12, dat22, hxv2, hins2, hiv2, hdx2, hdy2,
          hs1, hs2⟩ := run_append_slots dvals getdata dgfile raw F 0 0 f f'
            hrun hraw q e0 (by omega) hfq hsci0
        have exv : xv2 = xv := Option.some.inj (hxv2.symm.trans hxv0)
        have eins : ins2 = ins := by
          have h2 := hins2.symm.trans hins0
          exact FVal.str.inj (Option.some.inj h2)
        rw [eins] at hiv2
        rw [exv] at hdx2 hdy2
        have eiv : iv2 = iv := Option.some.inj (hiv2.symm.trans hiv0)
        rw [eiv] at hs1 hs2
        have edat1 : dat12 = dat1 := Option.some.inj (hdx2.symm.trans hdx0)
        have edat2 : dat22 = dat2 := Option.some.inj (hdy2.symm.trans hdy0)
        rw [edat1] at hs1
        rw [edat2] at hs2
        have hcs : csb f' 0 q = csb f 0 q :=
          csb_congr f f' 0 q (fun r _ _ => hsa' r)
        rw [hcs]
        constructor
        · rw [he]
          exact annotExt_SciDone e0 (0 + 2 * csb f 0 q) raw
        · refine ⟨xv, ins, iv, dat1, dat2, f.length + 2 * csb f 0 q,
            f.length + 2 * csb f 0 q + 1, ?_, ?_, hiv0, hdx0, hdy0,
            ?_, ?_, hs1, hs2⟩
          · rw [he, annotExt_EXTVER]
            exact hxv0
          · rw [hins']
            exact hins0
          · refine getwcsindex_dictLookup f' wind2 hsc2 _ _ _ hs1
              (by rw [mkHdu_header]; exact lookupHdr_get_EXTNAME _ _)
              (by rw [mkHdu_header]; exact lookupHdr_get_EXTVER _ _) ?_
            intro p' hpp' ep' hpe hwn2
            obtain ⟨jv, jdat, hj⟩ := htail p' (by omega) ep' hpe
            rw [hj, mkHdu_header, lookupHdr_get_EXTVER]
            intro hcon
            have h3 := FVal.int.inj (Option.some.inj hcon)
            omega
          · refine getwcsindex_dictLookup f' wind2 hsc2 _ _ _ hs2
              (by rw [mkHdu_header]; exact lookupHdr_get_EXTNAME _ _)
              (by rw [mkHdu_header]; exact lookupHdr_get_EXTVER _ _) ?_
            intro p' hpp' ep' hpe hwn2
            obtain ⟨jv, jdat, hj⟩ := htail p' (by omega) ep' hpe
            rw [hj, mkHdu_header, lookupHdr_get_EXTVER]
            intro hcon
            have h3 := FVal.int.inj (Option.some.inj hcon)
            omega
  · intro q e' hge'
    by_cases hqL : q < f.length
    · cases hfq : f.get? q with
      | none =>
        rw [List.get?_eq_none] at hfq
        omega
      | some e0 =>
        rcases run_all_visited dvals getdata dgfile [] raw F 0 0 f f' hrun
          hraw hwind q e0 (by omega) hfq with hsk0 | hsci0
        · have hfin := run_frame_A dvals getdata dgfile raw F 0 0 f f' hrun
            hraw q e0 hfq (fun _ => skippable_not_sci e0 hsk0)
          have he : e' = e0 := Option.some.inj (hge'.symm.trans hfin)
          rw [he]
          exact Or.inl hsk0
        · obtain ⟨hannot, _⟩ := run_sci_full dvals getdata dgfile [] raw F
            0 0 f f' hrun hraw hwind q e0 (by omega) hfq hsci0
          have he : e' = annotExt e0 (0 + 2 * csb f 0 q) raw :=
            Option.some.inj (hge'.symm.trans hannot)
          rw [he]
          right
          rw [annotExt_isSci]
          exact hsci0
    · obtain ⟨jv, jdat, hj⟩ := htail q (by omega) e' hge'
      rw [hj]
      exact Or.inl (mkHdu_skippable _ _ _)


/-- After an overwrite-mode run, the result state satisfies the stability
invariant for a fresh scan of itself. -/
theorem stable_after_overwrite {α : Type} (dvals : String → Option GridDefaults)
    (getdata : String → String → FVal → Option α) (dgfile : String)
    (raw : FVal) (F : Nat) (f f' : FileObj α) (wind : List (FVal × Nat))
    (hwne : wind ≠ [])
    (hsc : getwcsindex f = .ok wind)
    (hrun : runFrom dvals getdata dgfile wind F 0 0 f = .ok f')
    (hraw : PrimVal f raw) :
    ∃ wind2, getwcsindex f' = .ok wind2 ∧
      StableInv dvals getdata dgfile wind2 raw f' 0 0 ∧
      (∀ q e, f'.get? q = some e →
        skippable e = true ∨ isSci e = true) := by
  have hwind : WindOK wind f := getwcsindex_windOK f wind hsc
  have hpw : wind.Pairwise (fun a b => a.2 < b.2) :=
    getwcsindexAux_pairwise f 0 wind hsc
  obtain ⟨hraw', hwind', hins', hsa', hlen'⟩ :=
    run_pres dvals getdata dgfile wind raw F 0 0 f f' hrun hraw hwind
  have hlenB : f'.length = f.length :=
    run_len_B dvals getdata dgfile wind raw hwne F 0 0 f f' hrun hraw hwind
  obtain ⟨wind2, hsc2⟩ := getwcsindexAux_ok_exists f' 0 (by
    intro e' he' hwn
    obtain ⟨n, hn⟩ := List.get?_of_mem he'
    have hnL : n < f.length := by
      have := get?_some_lt f' n e' hn
      omega
    cases hfq : f.get? n with
    | none =>
      rw [List.get?_eq_none] at hfq
      omega
    | some e0 =>
      cases hsci0 : isSci e0 with
      | true =>
        obtain ⟨hannot, _⟩ := run_sci_full dvals getdata dgfile wind raw F
          0 0 f f' hrun hraw hwind n e0 (by omega) hfq hsci0
        have he : e' = annotExt e0 (0 + 2 * csb f 0 n) raw :=
          Option.some.inj (hn.symm.trans hannot)
        rw [he, annotExt_EXTNAME] at hwn
        exact (isSci_not_wcsd e0 hsci0 hwn).elim
      | false =>
        rcases run_nonsci_pos dvals getdata dgfile wind raw F 0 0 f f' hrun
          hraw hwind n e0 hfq hsci0 with hpv | ⟨hwn0, jv, jd, jdat, hmk⟩
        · have he : e' = e0 := Option.some.inj (hn.symm.trans hpv)
          rw [he] at hwn ⊢
          exact getwcsindexAux_ok_ver f 0 wind hsc e0 (List.get?_mem hfq) hwn
        · have he : e' = mkHdu jv jd jdat := Option.some.inj (hn.symm.trans hmk)
          rw [he, mkHdu_header, lookupHdr_get_EXTVER]
          rfl)
  refine ⟨wind2, hsc2, ?_, ?_⟩
  · intro q e' hq0 hge' hsci'
    have hqL : q < f.length := by
      have := get?_some_lt f' q e' hge'
      omega
    cases hfq : f.get? q with
    | none =>
      rw [List.get?_eq_none] at hfq
      omega
    | some e0 =>
      have hsci0 : isSci e0 = true := by
        have h1 : sciAt f' q = sciAt f q := hsa' q
        rw [sciAt_of_get f' q e' hge', sciAt_of_get f q e0 hfq] at h1
        rw [← h1]
        exact hsci'
      obtain ⟨hannot, xv, ins, iv, dat1, dat2, hxv0, hins0, hiv0, hdx0,
        hdy0⟩ := run_sci_full dvals getdata dgfile wind raw F 0 0 f f' hrun
          hraw hwind q e0 (by omega) hfq hsci0
      have he : e' = annotExt e0 (0 + 2 * csb f 0 q) raw :=
        Option.some.inj (hge'.symm.trans hannot)
      obtain ⟨xv2, ins2, iv2, dat12, dat22, p1, p2, hxv2, hins2, hiv2, hdx2,
        hdy2, hdl1, hdl2, hs1, hs2⟩ := run_overwrite_slots dvals getdata
          dgfile wind raw hwne hpw F 0 0 f f' hrun hraw hwind q e0
          (by omega) hfq hsci0
      have exv : xv2 = xv := Option.some.inj (hxv2.symm.trans hxv0)
      have eins : ins2 = ins := by
        have h2 := hins2.symm.trans hins0
        exact FVal.str.inj (Option.some.inj h2)
      rw [eins] at hiv2
      rw [exv] at hdx2 hdy2
      have eiv : iv2 = iv := Option.some.inj (hiv2.symm.trans hiv0)
      rw [eiv] at hs1 hs2
      have edat1 : dat12 = dat1 := Option.some.inj (hdx2.symm.trans hdx0)
      have edat2 : dat22 = dat2 := Option.some.inj (hdy2.symm.trans hdy0)
      rw [edat1] at hs1
      rw [edat2] at hs2
      have hdl1c : dictLookup wind
          (.int ((0 + 2 * csb f 0 q + 1 : Nat) : Int)) = some p1 := by
        convert hdl1 using 3
      have hdl2c : dictLookup wind
          (.int ((0 + 2 * csb f 0 q + 2 : Nat) : Int)) = some p2 := by
        convert hdl2 using 3
      have hcs : csb f' 0 q = csb f 0 q :=
        csb_congr f f' 0 q (fun r _ _ => hsa' r)
      rw [hcs]
      constructor
      · rw [he]
        exact annotExt_SciDone e0 (0 + 2 * csb f 0 q) raw
      · refine ⟨xv, ins, iv, dat1, dat2, p1, p2, ?_, ?_, hiv0, hdx0, hdy0,
          ?_, ?_, hs1, hs2⟩
        · rw [he, annotExt_EXTVER]
          exact hxv0
        · rw [hins']
          exact hins0
        · refine getwcsindex_dictLookup f' wind2 hsc2 _ _ _ hs1
            (by rw [mkHdu_header]; exact lookupHdr_get_EXTNAME _ _)
            (by rw [mkHdu_header]; exact lookupHdr_get_EXTVER _ _) ?_
          intro p' hpp' ep' hpe hwn2
          have hp'L : p' < f.length := by
            have := get?_some_lt f' p' ep' hpe
            omega
          cases hfp' : f.get? p' with
          | none =>
            rw [List.get?_eq_none] at hfp'
            omega
          | some ep0 =>
            cases hscip' : isSci ep0 with
            | true =>
              obtain ⟨hannot', _⟩ := run_sci_full dvals getdata dgfile wind
                raw F 0 0 f f' hrun hraw hwind p' ep0 (by omega) hfp' hscip'
              have hep : ep' = annotExt ep0 (0 + 2 * csb f 0 p') raw :=
                Option.some.inj (hpe.symm.trans hannot')
              rw [hep, annotExt_EXTNAME] at hwn2
              exact (isSci_not_wcsd ep0 hscip' hwn2).elim
            | false =>
              rcases run_B_pos_char dvals getdata dgfile wind raw hwne F 0 0
                f f' hrun hraw hwind p' ep0 hfp' hscip' with
                hpv | ⟨jv, jd, jdat, hmk, hdlq, hdd⟩
              · have hep : ep' = ep0 := Option.some.inj (hpe.symm.trans hpv)
                intro hver2
                rw [hep] at hwn2 hver2
                have hmemw : ((FVal.int ((0 + 2 * csb f 0 q + 1 : Nat) :
                    Int)), p') ∈ wind := by
                  have h5 := getwcsindexAux_complete f 0 wind hsc p' ep0
                    hfp' hwn2 _ hver2
                  simpa using h5
                have h6 := dictLookup_ge wind _ p1 p' hpw hmemw hdl1c
                omega
              · have hep : ep' = mkHdu jv jd jdat :=
                  Option.some.inj (hpe.symm.trans hmk)
                rw [hep, mkHdu_header, lookupHdr_get_EXTVER]
                intro hcon
                have hjd : jd = 0 + 2 * csb f 0 q + 1 := by
                  have h4 := FVal.int.inj (Option.some.inj hcon)
                  omega
                rw [hjd] at hdlq
                have h7 := hdl1c.symm.trans hdlq
                have hpp : p1 = p' := Option.some.inj h7
                omega
        · refine getwcsindex_dictLookup f' wind2 hsc2 _ _ _ hs2
            (by rw [mkHdu_header]; exact lookupHdr_get_EXTNAME _ _)
            (by rw [mkHdu_header]; exact lookupHdr_get_EXTVER _ _) ?_
          intro p' hpp' ep' hpe hwn2
          have hp'L : p' < f.length := by
            have := get?_some_lt f' p' ep' hpe
            omega
          cases hfp' : f.get? p' with
          | none =>
            rw [List.get?_eq_none] at hfp'
            omega
          | some ep0 =>
            cases hscip' : isSci ep0 with
            | true =>
              obtain ⟨hannot', _⟩ := run_sci_full dvals getdata dgfile wind
                raw F 0 0 f f' hrun hraw hwind p' ep0 (by omega) hfp' hscip'
              have hep : ep' = annotExt ep0 (0 + 2 * csb f 0 p') raw :=
                Option.some.inj (hpe.symm.trans hannot')
              rw [hep, annotExt_EXTNAME] at hwn2
              exact (isSci_not_wcsd ep0 hscip' hwn2).elim
            | false =>
              rcases run_B_pos_char dvals getdata dgfile wind raw hwne F 0 0
                f f' hrun hraw hwind p' ep0 hfp' hscip' with
                hpv | ⟨jv, jd, jdat, hmk, hdlq, hdd⟩
              · have hep : ep' = ep0 := Option.some.inj (hpe.symm.trans hpv)
                intro hver2
                rw [hep] at hwn2 hver2
                have hmemw : ((FVal.int ((0 + 2 * csb f 0 q + 2 : Nat) :
                    Int)), p') ∈ wind := by
                  have h5 := getwcsindexAux_complete f 0 wind hsc p' ep0
                    hfp' hwn2 _ hver2
                  simpa using h5
                have h6 := dictLookup_ge wind _ p2 p' hpw hmemw hdl2c
                omega
              · have hep : ep' = mkHdu jv jd jdat :=
                  Option.some.inj (hpe.symm.trans hmk)
                rw [hep, mkHdu_header, lookupHdr_get_EXTVER]
                intro hcon
                have hjd : jd = 0 + 2 * csb f 0 q + 2 := by
                  have h4 := FVal.int.inj (Option.some.inj hcon)
                  omega
                rw [hjd] at hdlq
                have h7 := hdl2c.symm.trans hdlq
                have hpp : p2 = p' := Option.some.inj h7
                omega
  · intro q e' hge'
    have hqL : q < f.length := by
      have := get?_some_lt f' q e' hge'
      omega
    cases hfq : f.get? q with
    | none =>
      rw [List.get?_eq_none] at hfq
      omega
    | some e0 =>
      rcases run_all_visited dvals getdata dgfile wind raw F 0 0 f f' hrun
        hraw hwind q e0 (by omega) hfq with hsk0 | hsci0
      · rcases run_nonsci_pos dvals getdata dgfile wind raw F 0 0 f f' hrun
          hraw hwind q e0 hfq (skippable_not_sci e0 hsk0) with
          hpv | ⟨hwn0, jv, jd, jdat, hmk⟩
        · have he : e' = e0 := Option.some.inj (hge'.symm.trans hpv)
          rw [he]
          exact Or.inl hsk0
        · have he : e' = mkHdu jv jd jdat :=
            Option.some.inj (hge'.symm.trans hmk)
          rw [he]
          exact Or.inl (mkHdu_skippable _ _ _)
      · obtain ⟨hannot, _⟩ := run_sci_full dvals getdata dgfile wind raw F
          0 0 f f' hrun hraw hwind q e0 (by omega) hfq hsci0
        have he : e' = annotExt e0 (0 + 2 * csb f 0 q) raw :=
          Option.some.inj (hge'.symm.trans hannot)
        rw [he]
        right
        rw [annotExt_isSci]
        exact hsci0


/-- C4: applying the distortion-annotation transform to its own output
reproduces that output exactly - running `applyDgeoCorr` a second time on
the result of a successful run succeeds and changes nothing (same length,
identical headers and data): the second run overwrites each existing
`WCSDVARR` slot with an identical HDU and re-updates each science header
with values already in place. -/
theorem c4_idempotent {α : Type} (osfn : String → String)
    (dvals : String → Option GridDefaults)
    (getdata : String → String → FVal → Option α) (f f' : FileObj α)
    (hok : applyDgeoCorr osfn dvals getdata f = .ok f') :
    applyDgeoCorr osfn dvals getdata f' = .ok f' := by
  obtain ⟨rawS, wind, hraw, hsc, hwind, hrun⟩ :=
    applyDgeoCorr_ok_inv osfn dvals getdata f f' hok
  obtain ⟨hraw', hwind', hins', hsa', hlen'⟩ :=
    run_pres dvals getdata (osfn rawS) wind (.str rawS) _ 0 0 f f' hrun
      hraw hwind
  have hmain : ∃ wind2, getwcsindex f' = .ok wind2 ∧
      StableInv dvals getdata (osfn rawS) wind2 (.str rawS) f' 0 0 ∧
      (∀ q e, f'.get? q = some e →
        skippable e = true ∨ isSci e = true) := by
    by_cases hwe : wind = []
    · subst hwe
      exact stable_after_append dvals getdata (osfn rawS) (.str rawS) _
        f f' hrun hraw (getwcsindexAux_nil_inv f 0 hsc)
    · exact stable_after_overwrite dvals getdata (osfn rawS) (.str rawS) _
        f f' wind hwe hsc hrun hraw
  obtain ⟨wind2, hsc2, hSI, hskipf⟩ := hmain
  obtain ⟨p0', hp0', hdg'⟩ := hraw'
  have hhead' : f'.head? = some p0' := by rw [← List.get?_zero, hp0']
  simp only [applyDgeoCorr, hhead', hdg', hsc2]
  exact run_stable dvals getdata (osfn rawS) wind2 (.str rawS)
    (3 * f'.length + 1) 0 0 f' (by omega) (by omega)
    ⟨p0', hp0', hdg'⟩ hSI (fun q e _ hge => hskipf q e hge)


theorem c4_witness :
    applyDgeoCorr osfnX dvalsX getdataX fC1 = .ok fC1res ∧
    applyDgeoCorr osfnX dvalsX getdataX fC1res = .ok fC1res :=
  ⟨by decide, c4_idempotent osfnX dvalsX getdataX fC1 fC1res (by decide)⟩


end Dgeo
